import Mathlib

set_option linter.unusedVariables false
set_option linter.unreachableTactic false
set_option linter.unusedTactic false

/-!
Shallow embedding of the Exercise Recommendation & Enrichment Pipeline of
`src/backend/cloud_functions/generate_exercises/main.py`.

Python dict/JSON values are modelled by the inductive `Json`.  Firestore
documents are field maps (`Doc`); `to_dict()` wraps a `Doc` into `Json.obj`.
Python exceptions are modelled by `Except Unit` (the pipeline's top-level
handler turns every exception into a 500 response, so the error payload is
irrelevant).  External network effects (generation providers, video search,
the oEmbed validation probe, UUID generation, the secret store) are supplied
as oracles, and every outbound call is recorded in a trace.
-/

/-- JSON / Python value model.  Numbers are modelled as integers: no claim
inspects a fractional numeric value. -/
inductive Json where
  | null
  | bool (b : Bool)
  | num (n : Int)
  | str (s : String)
  | arr (items : List Json)
  | obj (fields : List (String × Json))
  deriving Repr, Inhabited

mutual
/-- Python `==` on JSON values (structural equality; the cross-type numeric
coercions of Python, such as `1 == True`, never arise on the values the
pipeline compares). -/
def Json.beq : Json → Json → Bool
  | .null, .null => true
  | .bool a, .bool b => a == b
  | .num a, .num b => a == b
  | .str a, .str b => a == b
  | .arr xs, .arr ys => Json.beqList xs ys
  | .obj xs, .obj ys => Json.beqKVs xs ys
  | _, _ => false

def Json.beqList : List Json → List Json → Bool
  | [], [] => true
  | a :: as, b :: bs => Json.beq a b && Json.beqList as bs
  | _, _ => false

def Json.beqKVs : List (String × Json) → List (String × Json) → Bool
  | [], [] => true
  | (k, v) :: as, (l, w) :: bs => k == l && Json.beq v w && Json.beqKVs as bs
  | _, _ => false
end

instance : BEq Json := ⟨Json.beq⟩

/-- Python exceptions: the payload is irrelevant (caught at the top level). -/
abbrev Py (α : Type) := Except Unit α

def pyThrow {α : Type} : Py α := Except.error ()

/-- First-match association lookup (Python dict keys are unique; Firestore
field names are unique, so first-match agrees with dict semantics). -/
def lookupKey : List (String × Json) → String → Option Json
  | [], _ => none
  | (k, v) :: rest, key => if k = key then some v else lookupKey rest key

/-- Replace the value of a key, or append it if absent
(Python `d[k] = v` / `dict.update` on a fresh key appends in order). -/
def setKey : List (String × Json) → String → Json → List (String × Json)
  | [], key, v => [(key, v)]
  | (k, w) :: rest, key, v =>
      if k = key then (k, v) :: rest else (k, w) :: setKey rest key v

/-- Python `dict.update(other)` applied left-to-right. -/
def updateKeys (d : List (String × Json)) (kvs : List (String × Json)) :
    List (String × Json) :=
  kvs.foldl (fun acc p => setKey acc p.1 p.2) d

/-- Python truthiness of a JSON value. -/
def Json.truthy : Json → Bool
  | .null => false
  | .bool b => b
  | .num n => n != 0
  | .str s => s != ""
  | .arr xs => !xs.isEmpty
  | .obj kvs => !kvs.isEmpty

/-- Python subscript `j[k]` with a string key: `KeyError` when the key is
missing, `TypeError` on non-dict values. -/
def pyGet (j : Json) (k : String) : Py Json :=
  match j with
  | .obj kvs =>
      match lookupKey kvs k with
      | some v => Except.ok v
      | none => pyThrow
  | _ => pyThrow

/-- Python `j.get(k, d)`: total on dicts, `AttributeError` otherwise. -/
def pyGetD (j : Json) (k : String) (d : Json) : Py Json :=
  match j with
  | .obj kvs =>
      match lookupKey kvs k with
      | some v => Except.ok v
      | none => Except.ok d
  | _ => pyThrow

/-! ### String utilities

Python `str.split`, `str.strip` and substring search, implemented by
structural recursion so that concrete runs reduce definitionally. -/

def isPrefixList : List Char → List Char → Bool
  | [], _ => true
  | _ :: _, [] => false
  | a :: as, b :: bs => a == b && isPrefixList as bs

def splitOnAuxL (sep : List Char) : Nat → List Char → List Char →
    List (List Char)
  | 0, _, acc => [acc.reverse]
  | _ + 1, [], acc => [acc.reverse]
  | fuel + 1, c :: rest, acc =>
    if isPrefixList sep (c :: rest) then
      acc.reverse :: splitOnAuxL sep fuel (List.drop sep.length (c :: rest)) []
    else splitOnAuxL sep fuel rest (c :: acc)

/-- Python `s.split(sep)` for a non-empty separator. -/
def splitOnStr (sep s : String) : List String :=
  if sep = "" then [s]
  else (splitOnAuxL sep.data (s.data.length + 1) s.data []).map String.mk

/-- Python whitespace (`str.strip` / regex `\s`). -/
def isPyWs (c : Char) : Bool :=
  c = ' ' || c = '\t' || c = '\n' || c = '\r' ||
  c = Char.ofNat 11 || c = Char.ofNat 12

/-- Python `s.strip()`. -/
def trimStr (s : String) : String :=
  String.mk (((s.data.dropWhile isPyWs).reverse.dropWhile isPyWs).reverse)

def joinWith (sep : String) : List String → String
  | [] => ""
  | [x] => x
  | x :: y :: rest => x ++ sep ++ joinWith sep (y :: rest)

/-- Substring test on strings (`needle in hay` for Python strings). -/
def subStr (needle hay : String) : Bool :=
  if needle = "" then true else (splitOnStr needle hay).length > 1

/-- Python membership `needle in j` for a string needle: key membership on
dicts, element membership on lists, substring test on strings, `TypeError`
otherwise. -/
def pyInStr (needle : String) (j : Json) : Py Bool :=
  match j with
  | .obj kvs => Except.ok (lookupKey kvs needle).isSome
  | .arr xs => Except.ok (xs.contains (Json.str needle))
  | .str s => Except.ok (subStr needle s)
  | _ => pyThrow

/-- Python `j[i]` for a natural index: lists index, strings yield one-character
strings, everything else raises; out of range raises `IndexError`. -/
def pyIndex (j : Json) (i : Nat) : Py Json :=
  match j with
  | .arr xs =>
      match xs.get? i with
      | some v => Except.ok v
      | none => pyThrow
  | .str s =>
      match s.data.get? i with
      | some c => Except.ok (Json.str (String.mk [c]))
      | none => pyThrow
  | _ => pyThrow

/-- Python `len(j)`: defined on strings, lists and dicts; `TypeError`
otherwise. -/
def pyLen (j : Json) : Py Nat :=
  match j with
  | .str s => Except.ok s.length
  | .arr xs => Except.ok xs.length
  | .obj kvs => Except.ok kvs.length
  | _ => pyThrow

/-- Python iteration `for x in j`: lists yield elements, strings yield
one-character strings, dicts yield their keys; `TypeError` otherwise. -/
def pyIter (j : Json) : Py (List Json) :=
  match j with
  | .arr xs => Except.ok xs
  | .str s => Except.ok (s.data.map (fun c => Json.str (String.mk [c])))
  | .obj kvs => Except.ok (kvs.map (fun p => Json.str p.1))
  | _ => pyThrow

mutual
/-- Python `str(j)` as used in f-string interpolation (repr-style for
containers; only ever applied to strings in the concrete inputs of the
claims). -/
def pyStr : Json → String
  | .null => "None"
  | .bool b => if b then "True" else "False"
  | .num n => toString n
  | .str s => s
  | .arr xs => "[" ++ joinWith ", " (pyStrList xs) ++ "]"
  | .obj kvs => "\x7b" ++ joinWith ", " (pyStrKVs kvs) ++ "\x7d"

def pyStrList : List Json → List String
  | [] => []
  | x :: rest => pyStrRepr x :: pyStrList rest

def pyStrKVs : List (String × Json) → List String
  | [] => []
  | (k, v) :: rest => ("'" ++ k ++ "': " ++ pyStrRepr v) :: pyStrKVs rest

/-- Python `repr` for nested values (strings quoted). -/
def pyStrRepr : Json → String
  | .str s => "'" ++ s ++ "'"
  | .null => "None"
  | .bool b => if b then "True" else "False"
  | .num n => toString n
  | .arr xs => "[" ++ joinWith ", " (pyStrList xs) ++ "]"
  | .obj kvs => "\x7b" ++ joinWith ", " (pyStrKVs kvs) ++ "\x7d"
end

/-! ### `json.loads`

A strict JSON parser mirroring Python's `json.loads` on the document shapes
the pipeline exchanges: objects, arrays, strings (with the standard escapes),
integers (fractional parts and exponents are accepted syntactically, the
value kept is the integer part — no claim inspects a fractional value),
`true` / `false` / `null`.  Malformed input — in particular the empty
string — yields `none`, the model of the `JSONDecodeError` the code
catches. -/

def braceL : Char := Char.ofNat 123
def braceR : Char := Char.ofNat 125

def isWsChar (c : Char) : Bool := c = ' ' || c = '\t' || c = '\n' || c = '\r'

def skipWs : List Char → List Char
  | [] => []
  | c :: rest => if isWsChar c then skipWs rest else c :: rest

def hexVal (c : Char) : Option Nat :=
  let n := c.toNat
  if 48 ≤ n && n ≤ 57 then some (n - 48)
  else if 97 ≤ n && n ≤ 102 then some (n - 87)
  else if 65 ≤ n && n ≤ 70 then some (n - 55)
  else none

/-- Body of a JSON string literal, after the opening quote. -/
def parseStringBody : Nat → List Char → Option (List Char × List Char)
  | 0, _ => none
  | _ + 1, [] => none
  | fuel + 1, c :: rest =>
    if c = '"' then some ([], rest)
    else if c = '\\' then
      match rest with
      | [] => none
      | e :: rest2 =>
        let esc : Option Char :=
          if e = '"' then some '"'
          else if e = '\\' then some '\\'
          else if e = '/' then some '/'
          else if e = 'b' then some (Char.ofNat 8)
          else if e = 'f' then some (Char.ofNat 12)
          else if e = 'n' then some '\n'
          else if e = 'r' then some '\r'
          else if e = 't' then some '\t'
          else none
        match esc with
        | some ch =>
            match parseStringBody fuel rest2 with
            | some (s, r) => some (ch :: s, r)
            | none => none
        | none =>
            if e = 'u' then
              match rest2 with
              | h1 :: h2 :: h3 :: h4 :: rest3 =>
                match hexVal h1, hexVal h2, hexVal h3, hexVal h4 with
                | some a, some b, some c1, some d =>
                    match parseStringBody fuel rest3 with
                    | some (s, r) =>
                        some (Char.ofNat (a * 4096 + b * 256 + c1 * 16 + d) :: s, r)
                    | none => none
                | _, _, _, _ => none
              | _ => none
            else none
    else if c.toNat < 32 then none
    else
      match parseStringBody fuel rest with
      | some (s, r) => some (c :: s, r)
      | none => none

def digitsToNat (ds : List Char) : Nat :=
  ds.foldl (fun acc c => acc * 10 + (c.toNat - '0'.toNat)) 0

/-- JSON number: optional minus, integer part without leading zeros,
optional fraction and exponent (consumed, value keeps the integer part). -/
def parseNumber (cs : List Char) : Option (Json × List Char) :=
  let (neg, cs1) :=
    match cs with
    | '-' :: rest => (true, rest)
    | _ => (false, cs)
  let ds := cs1.takeWhile Char.isDigit
  let rest1 := cs1.dropWhile Char.isDigit
  match ds with
  | [] => none
  | d0 :: dtail =>
    if d0 = '0' && !dtail.isEmpty then none
    else
      let intVal : Int := Int.ofNat (digitsToNat ds)
      let afterFrac :=
        match rest1 with
        | '.' :: fr =>
            let fds := fr.takeWhile Char.isDigit
            if fds.isEmpty then none else some (fr.dropWhile Char.isDigit)
        | _ => some rest1
      match afterFrac with
      | none => none
      | some rest2 =>
        let afterExp :=
          match rest2 with
          | e :: er =>
            if e = 'e' || e = 'E' then
              let er2 :=
                match er with
                | s :: er3 => if s = '+' || s = '-' then er3 else er
                | [] => er
              let eds := er2.takeWhile Char.isDigit
              if eds.isEmpty then none else some (er2.dropWhile Char.isDigit)
            else some rest2
          | [] => some rest2
        match afterExp with
        | none => none
        | some rest3 => some (Json.num (if neg then -intVal else intVal), rest3)

/-- `lit` must be the next characters. -/
def expectChars (lit : List Char) (cs : List Char) : Option (List Char) :=
  match lit, cs with
  | [], _ => some cs
  | l :: ls, c :: rest => if c = l then expectChars ls rest else none
  | _ :: _, [] => none

mutual
def parseValue : Nat → List Char → Option (Json × List Char)
  | 0, _ => none
  | fuel + 1, cs =>
    match skipWs cs with
    | [] => none
    | c :: rest =>
      if c = '"' then
        match parseStringBody (rest.length + 1) rest with
        | some (s, r) => some (Json.str (String.mk s), r)
        | none => none
      else if c = '[' then
        match skipWs rest with
        | ']' :: r => some (Json.arr [], r)
        | _ => parseArrayRest fuel rest []
      else if c = braceL then
        match skipWs rest with
        | c2 :: r => if c2 = braceR then some (Json.obj [], r) else parseObjRest fuel rest []
        | [] => none
      else if c = 't' then
        match expectChars ['r', 'u', 'e'] rest with
        | some r => some (Json.bool true, r)
        | none => none
      else if c = 'f' then
        match expectChars ['a', 'l', 's', 'e'] rest with
        | some r => some (Json.bool false, r)
        | none => none
      else if c = 'n' then
        match expectChars ['u', 'l', 'l'] rest with
        | some r => some (Json.null, r)
        | none => none
      else parseNumber (c :: rest)

/-- Elements of a non-empty array, after the opening bracket. -/
def parseArrayRest : Nat → List Char → List Json → Option (Json × List Char)
  | 0, _, _ => none
  | fuel + 1, cs, acc =>
    match parseValue fuel cs with
    | none => none
    | some (v, r) =>
      match skipWs r with
      | ',' :: r2 => parseArrayRest fuel r2 (acc ++ [v])
      | ']' :: r2 => some (Json.arr (acc ++ [v]), r2)
      | _ => none

/-- Members of a non-empty object, after the opening brace.  Duplicate keys
follow Python semantics: the later value wins, at the original position. -/
def parseObjRest : Nat → List Char → List (String × Json) → Option (Json × List Char)
  | 0, _, _ => none
  | fuel + 1, cs, acc =>
    match skipWs cs with
    | c :: rest =>
      if c = '"' then
        match parseStringBody (rest.length + 1) rest with
        | some (k, r2) =>
          match skipWs r2 with
          | ':' :: r3 =>
            match parseValue fuel r3 with
            | some (v, r4) =>
              let acc2 := setKey acc (String.mk k) v
              match skipWs r4 with
              | ',' :: r5 => parseObjRest fuel r5 acc2
              | c2 :: r5 => if c2 = braceR then some (Json.obj acc2, r5) else none
              | [] => none
            | none => none
          | _ => none
        | none => none
      else none
    | [] => none
end

/-- `json.loads`: parse a complete JSON document, allowing surrounding
whitespace only. -/
def jsonLoads (s : String) : Option Json :=
  match parseValue (2 * s.length + 4) s.data with
  | some (j, rest) => if (skipWs rest).isEmpty then some j else none
  | none => none

def ofOption {α : Type} : Option α → Py α
  | some a => Except.ok a
  | none => pyThrow

/-! ### Firestore model

A document is a field map; `to_dict()` wraps it into `Json.obj`.  Collections
are keyed lists of documents.  `where(f, '==', v).get()` filters in order;
the model uses list order where Firestore orders by document id — no claim
depends on the relative order of two documents matching the same query. -/

abbrev Doc := List (String × Json)

def docGet (d : Doc) (k : String) : Py Json :=
  match lookupKey d k with
  | some v => Except.ok v
  | none => pyThrow

def lookupDoc : List (String × Doc) → String → Option Doc
  | [], _ => none
  | (k, d) :: rest, key => if k = key then some d else lookupDoc rest key

/-- `document(id).set(data)`: overwrite the document, or create it. -/
def setDoc : List (String × Doc) → String → Doc → List (String × Doc)
  | [], key, d => [(key, d)]
  | (k, e) :: rest, key, d =>
      if k = key then (k, d) :: rest else (k, e) :: setDoc rest key d

/-- `document(id).update(fields)`: merge fields into an existing document.
(The only call site updates a document it has just fetched, so the
document exists.) -/
def updateDocFields : List (String × Doc) → String → List (String × Json) →
    List (String × Doc)
  | [], _, _ => []
  | (k, e) :: rest, key, fs =>
      if k = key then (k, updateKeys e fs) :: rest
      else (k, e) :: updateDocFields rest key fs

structure Store where
  patients : List (String × Doc)
  pain_points : List (String × Doc)
  exercises : List (String × Doc)
  patient_exercises : List (String × Doc)
  deriving Repr

/-- `collection(c).where(field, '==', v).get()`. -/
def whereEq (coll : List (String × Doc)) (field : String) (v : Json) :
    List (String × Doc) :=
  coll.filter fun p =>
    match lookupKey p.2 field with
    | some w => Json.beq w v
    | none => false

/-! ### External world -/

structure HttpResp where
  status : Nat
  body : String
  deriving Repr

/-- Oracles for all outbound effects.  Each pipeline invocation makes at most
one generation-provider call, so the provider responses are fixed values; the
search and oEmbed oracles are keyed by the request data the code sends. -/
structure Oracles where
  secrets : String → String
  claudeResp : HttpResp
  openaiResp : HttpResp
  search : String → Nat → HttpResp
  oembed : String → Nat
  uuid : Nat → String

/-- Trace of outbound network calls (document-store traffic is captured by
the explicit store state instead). -/
inductive Call where
  | genClaude (prompt : String)
  | genOpenai (prompt : String)
  | videoSearch (q : String) (num : Nat)
  | probe (videoId : String)
  deriving Repr, DecidableEq

def Call.isGen : Call → Bool
  | .genClaude _ => true
  | .genOpenai _ => true
  | _ => false

def Call.isSearch : Call → Bool
  | .videoSearch _ _ => true
  | _ => false

structure PCtx where
  store : Store
  ctr : Nat
  trace : List Call

/-- Pipeline computations: Python control flow with exceptions, the document
store, the uuid counter and the call trace.  An exception leaves the state as
it was at the raise point (no rollback). -/
def PM (α : Type) := PCtx → Py α × PCtx

instance : Monad PM where
  pure a := fun c => (Except.ok a, c)
  bind x f := fun c =>
    match x c with
    | (Except.ok a, c') => f a c'
    | (Except.error e, c') => (Except.error e, c')

def pmThrow {α : Type} : PM α := fun c => (Except.error (), c)

def liftPy {α : Type} (r : Py α) : PM α := fun c => (r, c)

def emit (call : Call) : PM Unit :=
  fun c => (Except.ok (), { c with trace := c.trace ++ [call] })

/-- `uuid.uuid4()`: successive identifiers from the oracle. -/
def pmFresh (O : Oracles) : PM String :=
  fun c => (Except.ok (O.uuid c.ctr), { c with ctr := c.ctr + 1 })

def getStore : PM Store := fun c => (Except.ok c.store, c)

def modifyStore (f : Store → Store) : PM Unit :=
  fun c => (Except.ok (), { c with store := f c.store })

/-! ### Video helpers -/

/-- The video-id extraction block, repeated verbatim in the source in
`validate_video_url`, `search_youtube_video` and `get_video_thumbnail`:
`url.split('youtube.com/watch?v=')[1].split('&')[0]` /
`url.split('youtu.be/')[1].split('?')[0]`, `none` when neither pattern
occurs (Python `video_id = None`). -/
def extractVideoId (u : String) : Option String :=
  if subStr "youtube.com/watch?v=" u then
    some ((splitOnStr "&" ((splitOnStr "youtube.com/watch?v=" u).getD 1 "")).headD "")
  else if subStr "youtu.be/" u then
    some ((splitOnStr "?" ((splitOnStr "youtu.be/" u).getD 1 "")).headD "")
  else none

/-- `validate_video_url`: oEmbed existence probe.  Its `try/except` swallows
every exception (hence a non-string url yields `False`, the `TypeError` of
`in`); a url without a recognizable id yields `False`; otherwise the probe
must answer 200. -/
def validate_video_url (O : Oracles) (url : Json) (exercise_name : Json) :
    PM Bool :=
  match url with
  | .str u =>
    if subStr "youtube.com" u || subStr "youtu.be" u then
      match extractVideoId u with
      | some vid =>
        if vid = "" then pure false
        else do
          emit (Call.probe vid)
          pure (O.oembed vid == 200)
      | none => pure false
    else pure false
  | _ => pure false

/-- `get_video_thumbnail`: derive a thumbnail url from a video url.  No
`try/except` here: a non-string argument raises. -/
def get_video_thumbnail (url : Json) : Py String :=
  match url with
  | .str u =>
    if subStr "youtube.com" u || subStr "youtu.be" u then
      match extractVideoId u with
      | some vid =>
          if vid = "" then Except.ok ""
          else Except.ok ("https://img.youtube.com/vi/" ++ vid ++ "/hqdefault.jpg")
      | none => Except.ok ""
    else Except.ok ""
  | _ => pyThrow

/-- `video_url.split('youtube.com/watch?v=')[1].split('&')[0]` on a JSON
value: `.split` on a non-string raises. -/
def vidFromWatch (video_url : Json) : Py String :=
  match video_url with
  | .str u =>
      Except.ok ((splitOnStr "&" ((splitOnStr "youtube.com/watch?v=" u).getD 1 "")).headD "")
  | _ => pyThrow

def vidFromShort (video_url : Json) : Py String :=
  match video_url with
  | .str u =>
      Except.ok ((splitOnStr "?" ((splitOnStr "youtu.be/" u).getD 1 "")).headD "")
  | _ => pyThrow

/-- The thumbnail derivation for one search item: prefer the result metadata
(`pagemap.cse_image[0].src`, then `pagemap.videoobject[0].thumbnailurl`),
otherwise build one from the extracted video id. -/
def searchItemThumb (item video_url : Json) : Py Json := do
  let hasPm ← pyInStr "pagemap" item
  let thumbnail ←
    if hasPm then do
      let pm ← pyGet item "pagemap"
      let hasCse ← pyInStr "cse_image" pm
      if hasCse then do
        let ci ← pyGet pm "cse_image"
        let c0 ← pyIndex ci 0
        pyGetD c0 "src" (Json.str "")
      else do
        let hasVo ← pyInStr "videoobject" pm
        if hasVo then do
          let vo ← pyGet pm "videoobject"
          let v0 ← pyIndex vo 0
          pyGetD v0 "thumbnailurl" (Json.str "")
        else pure (Json.str "")
    else pure (Json.str "")
  if !thumbnail.truthy then do
    let w ← pyInStr "youtube.com/watch?v=" video_url
    let vid ←
      if w then vidFromWatch video_url
      else do
        let b ← pyInStr "youtu.be/" video_url
        if b then vidFromShort video_url else pure ""
    if vid ≠ "" then
      pure (Json.str ("https://img.youtube.com/vi/" ++ vid ++ "/hqdefault.jpg"))
    else pure thumbnail
  else pure thumbnail

/-- The result-processing loop of `search_youtube_video`: keep only items
whose link is a YouTube link, derive a thumbnail from the result metadata or
from the video id. -/
def searchHitsOfItems : List Json → Py (List Json)
  | [] => Except.ok []
  | item :: rest => do
      let video_url ← pyGetD item "link" (Json.str "")
      let yt1 ← pyInStr "youtube.com" video_url
      let yt2 ← pyInStr "youtu.be" video_url
      let is_youtube := yt1 || yt2
      if !is_youtube then searchHitsOfItems rest
      else do
        let thumbnail2 ← searchItemThumb item video_url
        let title ← pyGetD item "title" (Json.str "Unknown")
        let hit := Json.obj
          [("title", title), ("video_url", video_url), ("thumbnail", thumbnail2)]
        let others ← searchHitsOfItems rest
        pure (hit :: others)

/-- The body of `search_youtube_video` after the HTTP call, exceptions not
yet caught: a non-200 status, a body without items, or an item list with no
YouTube link give `None`. -/
def search_go (resp : HttpResp) : Py (Option Json) := do
  if resp.status ≠ 200 then pure none
  else do
    let data ← ofOption (jsonLoads resp.body)
    let hasItems ← pyInStr "items" data
    let noResults ←
      if !hasItems then pure true
      else do
        let items ← pyGet data "items"
        let n ← pyLen items
        pure (n == 0)
    if noResults then pure none
    else do
      let items ← pyGet data "items"
      let itemsL ← pyIter items
      let all ← searchHitsOfItems itemsL
      match all with
      | [] => pure none
      | v :: _ => pure (some v)

/-- `search_youtube_video` minus the HTTP call: its `try/except` turns every
internal exception into `None`. -/
def search_youtube_video_pure (resp : HttpResp) : Option Json :=
  match search_go resp with
  | Except.ok r => r
  | Except.error _ => none

/-- `search_youtube_video`: one Custom Search request; the code appends
`" youtube"` to the query. -/
def search_youtube_video (O : Oracles) (query : String) (num_results : Nat) :
    PM (Option Json) := do
  emit (Call.videoSearch (query ++ " youtube") num_results)
  pure (search_youtube_video_pure (O.search (query ++ " youtube") num_results))

/-- Python item assignment `j[k] = v` (`TypeError` on non-dict values). -/
def pySetItem (j : Json) (k : String) (v : Json) : Py Json :=
  match j with
  | .obj kvs => Except.ok (Json.obj (setKey kvs k v))
  | _ => pyThrow

/-! ### Video enrichment -/

/-- One iteration of the `enhance_exercises_with_videos` loop.  When the
first candidate fails validation, exactly one alternate search runs; the
alternate result (validated once, result ignored) — or, if the alternate
search returns nothing, the first, invalid candidate — remains in the
fields.  Fields are blanked only when the initial search returns nothing. -/
def enhance_one (O : Oracles) (exercise : Json) : PM Json := do
  let name ← liftPy (pyGet exercise "name")
  let search_query := pyStr name ++ " physical therapy exercise"
  let video_data ← search_youtube_video O search_query 1
  match video_data with
  | some vd => do
      let vu ← liftPy (pyGetD vd "video_url" (Json.str ""))
      let th ← liftPy (pyGetD vd "thumbnail" (Json.str ""))
      let ex1 ← liftPy (pySetItem exercise "video_url" vu)
      let ex2 ← liftPy (pySetItem ex1 "video_thumbnail" th)
      let vu2 ← liftPy (pyGet ex2 "video_url")
      let nm ← liftPy (pyGet exercise "name")
      let is_valid ← validate_video_url O vu2 nm
      if !is_valid then do
        let nm2 ← liftPy (pyGet exercise "name")
        let alt_query := pyStr nm2 ++ " knee rehabilitation exercise demonstration"
        let alt ← search_youtube_video O alt_query 5
        match alt with
        | some avd => do
            let avu ← liftPy (pyGetD avd "video_url" (Json.str ""))
            let ath ← liftPy (pyGetD avd "thumbnail" (Json.str ""))
            let ex3 ← liftPy (pySetItem ex2 "video_url" avu)
            let ex4 ← liftPy (pySetItem ex3 "video_thumbnail" ath)
            let vu3 ← liftPy (pyGet ex4 "video_url")
            let nm3 ← liftPy (pyGet exercise "name")
            let _ ← validate_video_url O vu3 nm3
            pure ex4
        | none => pure ex2
      else pure ex2
  | none => do
      let ex1 ← liftPy (pySetItem exercise "video_url" (Json.str ""))
      let ex2 ← liftPy (pySetItem ex1 "video_thumbnail" (Json.str ""))
      pure ex2

def enhance_list (O : Oracles) : List Json → PM (List Json)
  | [] => pure []
  | e :: rest => do
      let u ← enhance_one O e
      let us ← enhance_list O rest
      pure (u :: us)

/-- `enhance_exercises_with_videos`: iterate the provider output (Python
iteration: a non-iterable provider result raises). -/
def enhance_exercises_with_videos (O : Oracles) (exercises : Json) :
    PM (List Json) := do
  let xs ← liftPy (pyIter exercises)
  enhance_list O xs

/-! ### Generation providers -/

/-- The pain-point sentence of the prompt (both providers build it
identically). -/
def build_pain_points_text (patient_data : Json) : Py String := do
  let hasPP ← pyInStr "pain_points" patient_data
  if hasPP then do
    let pps ← pyGet patient_data "pain_points"
    let n ← pyLen pps
    if n > 0 then do
      let ppl ← pyIter pps
      let descs ← ppl.mapM fun pp => do
        let d ← pyGetD pp "description" (Json.str "knee pain")
        let sv ← pyGetD pp "severity" (Json.num 5)
        pure (pyStr d ++ " (severity: " ++ pyStr sv ++ "/10)")
      pure ("Pain points: " ++ joinWith "; " descs)
    else pure "No specific pain points mentioned."
  else pure "No specific pain points mentioned."

/-- The patient-specific part of the prompt (identical in both provider
functions; the fixed surrounding instruction text is omitted — no claim
inspects it). -/
def build_prompt (patient_data : Json) : Py String := do
  let name ← pyGetD patient_data "name" (Json.str "the patient")
  let age ← pyGetD patient_data "age" (Json.str "unknown age")
  let freq ← pyGetD patient_data "exercise_frequency" (Json.str "daily")
  let ppt ← build_pain_points_text patient_data
  pure ("Name: " ++ pyStr name ++ "\nAge: " ++ pyStr age ++
        "\nExercise frequency: " ++ pyStr freq ++ "\n" ++ ppt)

/-- The regex `r'```json\s*(.*?)\s*```'` with `re.DOTALL`: the text between
the first occurrence of "```json" and the first following "```", with
surrounding whitespace stripped. -/
def extract_fenced_json (content : String) : Option String :=
  match splitOnStr "```json" content with
  | _ :: r0 :: rmore =>
      let after := joinWith "```json" (r0 :: rmore)
      match splitOnStr "```" after with
      | pre :: _ :: _ => some (trimStr pre)
      | _ => none
  | _ => none

/-- Response handling of `generate_exercises_with_claude`: non-200 status
raises; the body must parse as JSON; the content text is
`result.get('content', [{}])[0].get('text', '[]')`; a fenced JSON block is
extracted when present; the (extracted) text must parse as JSON.  The final
`len(exercises)` log line raises on unsized values. -/
def claude_parse_response (resp : HttpResp) : Py Json := do
  if resp.status ≠ 200 then pyThrow
  else do
    let result ← ofOption (jsonLoads resp.body)
    let contentField ← pyGetD result "content" (Json.arr [Json.obj []])
    let first ← pyIndex contentField 0
    let text ← pyGetD first "text" (Json.str "[]")
    let content ←
      match text with
      | .str s => Except.ok s
      | _ => pyThrow
    let exercises_json :=
      match extract_fenced_json content with
      | some g => g
      | none => content
    let exercises ← ofOption (jsonLoads exercises_json)
    let _ ← pyLen exercises
    Except.ok exercises

/-- Response handling of `generate_exercises_with_openai`:
`result.get('choices', [{}])[0].get('message', {}).get('content', '[]')`,
parsed directly as JSON (no fence extraction). -/
def openai_parse_response (resp : HttpResp) : Py Json := do
  if resp.status ≠ 200 then pyThrow
  else do
    let result ← ofOption (jsonLoads resp.body)
    let choices ← pyGetD result "choices" (Json.arr [Json.obj []])
    let first ← pyIndex choices 0
    let msg ← pyGetD first "message" (Json.obj [])
    let content ← pyGetD msg "content" (Json.str "[]")
    let s ←
      match content with
      | .str s => Except.ok s
      | _ => pyThrow
    let exercises ← ofOption (jsonLoads s)
    let _ ← pyLen exercises
    Except.ok exercises

def generate_exercises_with_claude (O : Oracles) (patient_data : Json) :
    PM Json := do
  let prompt ← liftPy (build_prompt patient_data)
  emit (Call.genClaude prompt)
  liftPy (claude_parse_response O.claudeResp)

def generate_exercises_with_openai (O : Oracles) (patient_data : Json) :
    PM Json := do
  let prompt ← liftPy (build_prompt patient_data)
  emit (Call.genOpenai prompt)
  liftPy (openai_parse_response O.openaiResp)

/-! ### Profile loader and cache resolver -/

/-- `[doc.to_dict()['exercise_id'] for doc in existing_assignments]`:
`KeyError` when a link document lacks the field. -/
def assignmentIds : List (String × Doc) → Py (List Json)
  | [] => Except.ok []
  | (_, d) :: rest => do
      let i ← docGet d "exercise_id"
      let is ← assignmentIds rest
      pure (i :: is)

/-- The resolution loop: `document(ex_id).get()`, keeping documents that
exist.  A non-string id raises (`document()` requires a string path). -/
def resolveIds (st : Store) : List Json → Py (List Json)
  | [] => Except.ok []
  | i :: rest => do
      let s ←
        match i with
        | .str s => Except.ok s
        | _ => pyThrow
      let acc ← resolveIds st rest
      match lookupDoc st.exercises s with
      | some d => pure (Json.obj d :: acc)
      | none => pure acc

/-- The pain-point / template fallback tail of `check_existing_exercises`. -/
def template_fallback (st : Store) (patient_id : Json) : Py (List Json) :=
  let pain_points := whereEq st.pain_points "patient_id" patient_id
  if pain_points.length == 0 then Except.ok []
  else
    Except.ok
      (((whereEq st.exercises "is_template" (Json.bool true)).take 5).map
        fun p => Json.obj p.2)

/-- `check_existing_exercises`: resolve the patient's links; if at least 3
resolve (counted per link, with multiplicity), return them; otherwise fall
back to at most 5 template records when the patient has pain points, or to
the empty list. -/
def check_existing_exercises (st : Store) (patient_id : Json) :
    Py (List Json) := do
  let existing_assignments := whereEq st.patient_exercises "patient_id" patient_id
  if existing_assignments.length > 0 then do
    let ids ← assignmentIds existing_assignments
    let exercises ← resolveIds st ids
    if exercises.length ≥ 3 then pure exercises
    else template_fallback st patient_id
  else template_fallback st patient_id

/-- `get_patient_data`: the patient document with its pain points attached,
or `none` when the patient id does not resolve. -/
def get_patient_data (st : Store) (patient_id : Json) : Py (Option Json) :=
  match patient_id with
  | .str pid =>
    match lookupDoc st.patients pid with
    | none => Except.ok none
    | some d =>
        let pps := whereEq st.pain_points "patient_id" patient_id
        Except.ok (some (Json.obj
          (setKey d "pain_points" (Json.arr (pps.map fun p => Json.obj p.2)))))
  | _ => pyThrow

/-! ### Secrets -/

structure ApiKeys where
  google_api_key : String
  google_cse_id : String
  anthropic_api_key : String
  openai_api_key : String

/-- `get_api_keys`: fetch and strip the four secrets; missing Google keys
raise. -/
def get_api_keys (O : Oracles) : Py ApiKeys :=
  let keys : ApiKeys :=
    { google_api_key := trimStr (O.secrets "google-api-key")
      google_cse_id := trimStr (O.secrets "google-cse-id")
      anthropic_api_key := trimStr (O.secrets "anthropic-api-key")
      openai_api_key := trimStr (O.secrets "openai-api-key") }
  if keys.google_api_key = "" || keys.google_cse_id = "" then pyThrow
  else Except.ok keys

/-! ### Dedup persistence writer -/

/-- The merge patch of `save_exercises`: a field (`video_url`,
`video_thumbnail`) enters the patch iff it is falsy on the stored record and
truthy on the proposal (`not exercise_data.get(f) and exercise.get(f)`). -/
def computeUpdates (exercise_data : Json) (exercise : Json) :
    Py (List (String × Json)) := do
  let dvu ← pyGetD exercise_data "video_url" Json.null
  let pvu ← pyGetD exercise "video_url" Json.null
  let dth ← pyGetD exercise_data "video_thumbnail" Json.null
  let pth ← pyGetD exercise "video_thumbnail" Json.null
  let u1 : List (String × Json) :=
    if !dvu.truthy && pvu.truthy then [("video_url", pvu)] else []
  let u2 : List (String × Json) :=
    if !dth.truthy && pth.truthy then [("video_thumbnail", pth)] else []
  pure (u1 ++ u2)

/-- The fields of a freshly inserted exercise document.  The delimited-string
normalization (`';'` for instructions, `','` for target joints) happens here,
on the insert path only. -/
def newExerciseFields (exercise_id : String) (nm desc tj instr vu vt : Json)
    (now : Int) : Doc :=
  let instr2 :=
    match instr with
    | .str s => Json.arr ((splitOnStr ";" s).map Json.str)
    | _ => instr
  let tj2 :=
    match tj with
    | .str s => Json.arr ((splitOnStr "," s).map Json.str)
    | _ => tj
  [("id", Json.str exercise_id), ("name", nm), ("description", desc),
   ("target_joints", tj2), ("instructions", instr2), ("video_url", vu),
   ("video_thumbnail", vt), ("created_at", Json.num now),
   ("is_template", Json.bool false), ("source", Json.str "llm-generated")]

/-- The patient-exercise link document with its default prescription. -/
def newLinkFields (link_id : String) (patient_id : Json)
    (exercise_id : String) (now : Int) : Doc :=
  [("id", Json.str link_id), ("patient_id", patient_id),
   ("exercise_id", Json.str exercise_id), ("recommended_at", Json.num now),
   ("pt_modified", Json.bool false), ("pt_id", Json.null),
   ("frequency", Json.str "daily"), ("sets", Json.num 3),
   ("repetitions", Json.num 10)]

/-- One iteration of the `save_exercises` loop: dedup lookup by exact name,
backfill-or-insert, then create the patient link. -/
def save_one (O : Oracles) (patient_id : Json) (now : Int) (exercise : Json) :
    PM Json := do
  let nm ← liftPy (pyGet exercise "name")
  let _ ← liftPy (pyGetD exercise "video_url" (Json.str "None"))
  let st ← getStore
  let similar := (whereEq st.exercises "name" nm).take 1
  let (exercise_id, exercise_data) ←
    match similar with
    | (found_id, edoc) :: _ => do
        let stored := Json.obj edoc
        let updates ← liftPy (computeUpdates stored exercise)
        if updates.isEmpty then pure (found_id, stored)
        else do
          modifyStore fun s =>
            { s with exercises := updateDocFields s.exercises found_id updates }
          pure (found_id, Json.obj (updateKeys edoc updates))
    | [] => do
        let new_id ← pmFresh O
        let instr ← liftPy (pyGet exercise "instructions")
        let tj ← liftPy (pyGet exercise "target_joints")
        let desc ← liftPy (pyGet exercise "description")
        let vu ← liftPy (pyGetD exercise "video_url" (Json.str ""))
        let vt ← liftPy (pyGetD exercise "video_thumbnail" (Json.str ""))
        let fields := newExerciseFields new_id nm desc tj instr vu vt now
        modifyStore fun s => { s with exercises := setDoc s.exercises new_id fields }
        pure (new_id, Json.obj fields)
  let link_id ← pmFresh O
  let link := newLinkFields link_id patient_id exercise_id now
  modifyStore fun s =>
    { s with patient_exercises := setDoc s.patient_exercises link_id link }
  pure exercise_data

/-- `save_exercises`: persist each enriched proposal sequentially; an
exception aborts the remaining writes without rolling back earlier ones. -/
def save_exercises (O : Oracles) (patient_id : Json) (now : Int) :
    List Json → PM (List Json)
  | [] => pure []
  | e :: rest => do
      let d ← save_one O patient_id now e
      let ds ← save_exercises O patient_id now rest
      pure (d :: ds)

/-! ### Orchestrator -/

structure HttpOut where
  status : Nat
  body : Json
  deriving Repr

def errOut (status : Nat) (msg : String) : HttpOut :=
  ⟨status, Json.obj [("error", Json.str msg)]⟩

/-- The validation loop of the cache-hit path (log-and-probe; results are
discarded). -/
def cache_probe_loop (O : Oracles) : List Json → PM Unit
  | [] => pure ()
  | ex :: rest => do
      let vu ← liftPy (pyGetD ex "video_url" (Json.str ""))
      if vu.truthy then do
        let nm ← liftPy (pyGet ex "name")
        let _ ← validate_video_url O vu nm
        cache_probe_loop O rest
      else cache_probe_loop O rest

/-- The in-memory thumbnail backfill of the cache-hit path. -/
def cache_thumb_backfill : List Json → Py (List Json)
  | [] => Except.ok []
  | ex :: rest => do
      let th ← pyGetD ex "video_thumbnail" Json.null
      let vu ← pyGetD ex "video_url" Json.null
      let ex2 ←
        if !th.truthy && vu.truthy then do
          let u ← pyGet ex "video_url"
          let t ← get_video_thumbnail u
          pySetItem ex "video_thumbnail" (Json.str t)
        else pure ex
      let rest2 ← cache_thumb_backfill rest
      pure (ex2 :: rest2)

def successOut (exercises : List Json) (source : String) : HttpOut :=
  ⟨200, Json.obj [("status", Json.str "success"),
                  ("exercises", Json.arr exercises),
                  ("source", Json.str source)]⟩

/-- The `try:` block of the HTTP entry point (CORS preflight handling is
transport, out of scope). -/
def pipeline_body (O : Oracles) (request_json : Option Json) (now : Int) :
    PM HttpOut :=
  match request_json with
  | none => pure (errOut 400 "Invalid request - missing patient_id")
  | some rj =>
    if !rj.truthy then pure (errOut 400 "Invalid request - missing patient_id")
    else do
      let hasPid ← liftPy (pyInStr "patient_id" rj)
      if !hasPid then pure (errOut 400 "Invalid request - missing patient_id")
      else do
        let patient_id ← liftPy (pyGet rj "patient_id")
        let llm_provider ← liftPy (pyGetD rj "llm_provider" (Json.str "claude"))
        let _keys ← liftPy (get_api_keys O)
        let st ← getStore
        let existing ← liftPy (check_existing_exercises st patient_id)
        if existing.length ≥ 3 then do
          -- `if existing_exercises and len(existing_exercises) >= 3:`
          cache_probe_loop O existing
          let backfilled ← liftPy (cache_thumb_backfill existing)
          pure (successOut backfilled "database")
        else do
          let pd ← liftPy (get_patient_data st patient_id)
          match pd with
          | none => pure (errOut 404 "Patient not found")
          | some patient_data => do
            let exercises ←
              if Json.beq llm_provider (Json.str "openai") then
                generate_exercises_with_openai O patient_data
              else generate_exercises_with_claude O patient_data
            let enhanced ← enhance_exercises_with_videos O exercises
            let saved ← save_exercises O patient_id now enhanced
            pure (successOut saved "llm-generated")

/-- `generate_exercises`, the HTTP entry point: run the pipeline on a store,
catching every exception as a 500 (partial writes are kept — no rollback).
`request_json` is `none` when the body is not valid JSON
(`get_json(silent=True)` returns `None`). -/
def generate_exercises (O : Oracles) (st : Store) (request_json : Option Json)
    (now : Int) : HttpOut × PCtx :=
  match pipeline_body O request_json now ⟨st, 0, []⟩ with
  | (Except.ok out, c) => (out, c)
  | (Except.error _, c) => (errOut 500 "Error generating exercises", c)

/-! ### Unfolding lemmas for the pipeline monad -/

@[simp] theorem PM_bind_apply {α β : Type} (x : PM α) (f : α → PM β) (c : PCtx) :
    (x >>= f) c =
      match x c with
      | (Except.ok a, c') => f a c'
      | (Except.error e, c') => (Except.error e, c') := rfl

@[simp] theorem PM_pure_apply {α : Type} (a : α) (c : PCtx) :
    (pure a : PM α) c = (Except.ok a, c) := rfl

@[simp] theorem liftPy_apply {α : Type} (r : Py α) (c : PCtx) :
    liftPy r c = (r, c) := rfl

@[simp] theorem emit_apply (call : Call) (c : PCtx) :
    emit call c = (Except.ok (), { c with trace := c.trace ++ [call] }) := rfl

@[simp] theorem pmFresh_apply (O : Oracles) (c : PCtx) :
    pmFresh O c = (Except.ok (O.uuid c.ctr), { c with ctr := c.ctr + 1 }) := rfl

@[simp] theorem getStore_apply (c : PCtx) :
    getStore c = (Except.ok c.store, c) := rfl

@[simp] theorem modifyStore_apply (f : Store → Store) (c : PCtx) :
    modifyStore f c = (Except.ok (), { c with store := f c.store }) := rfl

@[simp] theorem Py_bind_ok {α β : Type} (a : α) (f : α → Py β) :
    (Except.ok a >>= f : Py β) = f a := rfl

@[simp] theorem Py_bind_error {α β : Type} (f : α → Py β) :
    (Except.error () >>= f : Py β) = Except.error () := rfl

/-! ### Spec-side notions -/

def Json.isArr : Json → Bool
  | .arr _ => true
  | _ => false

/-- The `source` field of a response body. -/
def sourceOf (out : HttpOut) : Option Json :=
  match out.body with
  | .obj kvs => lookupKey kvs "source"
  | _ => none

/-- A run returned a cache hit (the code tags it `source: "database"`). -/
def isCacheHit (out : HttpOut) : Bool :=
  out.status == 200 && sourceOf out == some (Json.str "database")

/-- No generation-provider call appears in the trace. -/
def genFree (trace : List Call) : Bool :=
  trace.all fun c => !c.isGen

/-- First-occurrence deduplication of JSON values (Python `==`). -/
def dedupJson : List Json → List Json
  | [] => []
  | x :: rest => x :: (dedupJson rest).filter fun y => !Json.beq y x

/-- An `exercise_id` value that resolves to a stored ExerciseRecord. -/
def resolvable (st : Store) (i : Json) : Bool :=
  match i with
  | .str s => (lookupDoc st.exercises s).isSome
  | _ => false

/-- Spec notion for the cache claim: the number of distinct ExerciseRecords
the patient's PatientExerciseLink entries resolve to. -/
def distinctResolvedCount (st : Store) (patient_id : Json) : Nat :=
  let links := whereEq st.patient_exercises "patient_id" patient_id
  let ids := links.filterMap fun p => lookupKey p.2 "exercise_id"
  ((dedupJson ids).filter (resolvable st)).length

/-- Well-formedness of a stored patient-exercise link: a string
`exercise_id`. -/
def linkWf (d : Doc) : Bool :=
  match lookupKey d "exercise_id" with
  | some (.str _) => true
  | _ => false

/-- Well-formedness of an exercise record as the cache-hit path consumes it:
a `name` field, and a `video_url` that is a string when present. -/
def cacheDocOk (j : Json) : Bool :=
  match j with
  | .obj kvs =>
      (lookupKey kvs "name").isSome &&
      (match lookupKey kvs "video_url" with
       | some (.str _) => true
       | some _ => false
       | none => true)
  | _ => false

/-! ### Concrete fixtures -/

def emptyStore : Store := ⟨[], [], [], []⟩

/-- A baseline oracle set: secrets present, every network call failing. -/
def zeroOracle : Oracles :=
  { secrets := fun _ => "k"
    claudeResp := ⟨500, ""⟩
    openaiResp := ⟨500, ""⟩
    search := fun _ _ => ⟨500, ""⟩
    oembed := fun _ => 404
    uuid := fun n => "u" ++ toString n }

/-! ## C5 — list normalization

The generation provider does **not** split delimited strings: it returns the
parsed JSON unchanged.  The comma / semicolon splitting happens in
`save_exercises`, and only on the insert path. -/

/-- A 200 Claude response whose content is a JSON array with
`target_joints` and `instructions` as delimited strings. -/
def c5Body : String := "\x7b\"content\":[\x7b\"text\":\"[\x7b\\\"name\\\":\\\"X\\\",\\\"description\\\":\\\"d\\\",\\\"target_joints\\\":\\\"knee,ankle\\\",\\\"instructions\\\":\\\"Step 1;Step 2\\\"\x7d]\"\x7d]\x7d"

set_option maxRecDepth 1000000

theorem lookupDoc_setDoc_self (l : List (String × Doc)) (k : String) (d : Doc) :
    lookupDoc (setDoc l k d) k = some d := by
  induction l with
  | nil => simp [setDoc, lookupDoc]
  | cons p rest ih =>
      by_cases h : p.1 = k
      · simp [setDoc, lookupDoc, h]
      · simp [setDoc, lookupDoc, h, ih]

/-- C5, counterexample: on a provider response delivering
`instructions: "Step 1;Step 2"` and `target_joints: "knee,ankle"`, the
Generation Provider returns both fields as the original strings, not as
lists — the claimed splitting does not happen in provider processing. -/
theorem C5_counterexample :
    claude_parse_response ⟨200, c5Body⟩ =
      Except.ok (Json.arr [Json.obj
        [("name", Json.str "X"), ("description", Json.str "d"),
         ("target_joints", Json.str "knee,ankle"),
         ("instructions", Json.str "Step 1;Step 2")]]) ∧
    Json.isArr (Json.str "Step 1;Step 2") = false ∧
    Json.isArr (Json.str "knee,ankle") = false := by
  exact ⟨by rfl, rfl, rfl⟩

/-- C5, amended: the delimited-string split (semicolon for instructions,
comma for target joints) is performed by the persistence writer when it
inserts a new record: the returned record and the stored document carry the
split lists. -/
theorem C5_amended (O : Oracles) (patient_id : Json) (now : Int) (c : PCtx)
    (kvs : List (String × Json)) (nm desc vu vt : Json) (tjS instrS : String)
    (hname : lookupKey kvs "name" = some nm)
    (hdesc : lookupKey kvs "description" = some desc)
    (htj : lookupKey kvs "target_joints" = some (Json.str tjS))
    (hinstr : lookupKey kvs "instructions" = some (Json.str instrS))
    (hvu : lookupKey kvs "video_url" = some vu)
    (hvt : lookupKey kvs "video_thumbnail" = some vt)
    (hnomatch : whereEq c.store.exercises "name" nm = []) :
    ∃ c' d, save_one O patient_id now (Json.obj kvs) c = (Except.ok d, c') ∧
      pyGet d "instructions" =
        Except.ok (Json.arr ((splitOnStr ";" instrS).map Json.str)) ∧
      pyGet d "target_joints" =
        Except.ok (Json.arr ((splitOnStr "," tjS).map Json.str)) ∧
      ∃ fields, lookupDoc c'.store.exercises (O.uuid c.ctr) = some fields ∧
        lookupKey fields "instructions" =
          some (Json.arr ((splitOnStr ";" instrS).map Json.str)) ∧
        lookupKey fields "target_joints" =
          some (Json.arr ((splitOnStr "," tjS).map Json.str)) := by
  have key : save_one O patient_id now (Json.obj kvs) c =
      (Except.ok (Json.obj (newExerciseFields (O.uuid c.ctr) nm desc
          (Json.str tjS) (Json.str instrS) vu vt now)),
       { c with
          ctr := c.ctr + 2
          store := { c.store with
            exercises := setDoc c.store.exercises (O.uuid c.ctr)
              (newExerciseFields (O.uuid c.ctr) nm desc (Json.str tjS)
                (Json.str instrS) vu vt now)
            patient_exercises := setDoc c.store.patient_exercises
              (O.uuid (c.ctr + 1))
              (newLinkFields (O.uuid (c.ctr + 1)) patient_id (O.uuid c.ctr) now) } }) := by
    simp only [save_one, PM_bind_apply, liftPy_apply, pyGet, pyGetD, hname, hinstr, htj,
      hdesc, hvu, hvt, getStore_apply, hnomatch, List.take, pmFresh_apply, PM_pure_apply,
      modifyStore_apply]
  refine ⟨_, _, key, ?_, ?_, _, lookupDoc_setDoc_self _ _ _, ?_, ?_⟩
  · simp [pyGet, newExerciseFields, lookupKey]
  · simp [pyGet, newExerciseFields, lookupKey]
  · simp [newExerciseFields, lookupKey]
  · simp [newExerciseFields, lookupKey]

def c5Kvs : List (String × Json) :=
  [("name", Json.str "X"), ("description", Json.str "d"),
   ("target_joints", Json.str "knee,ankle"),
   ("instructions", Json.str "Step 1;Step 2"),
   ("video_url", Json.str ""), ("video_thumbnail", Json.str "")]

/-- C5, witness: the amended statement at a concrete proposal and the empty
store. -/
theorem C5_witness :
    lookupKey c5Kvs "instructions" = some (Json.str "Step 1;Step 2") ∧
    whereEq emptyStore.exercises "name" (Json.str "X") = [] ∧
    (∃ c' d, save_one zeroOracle (Json.str "p") 0 (Json.obj c5Kvs)
        ⟨emptyStore, 0, []⟩ = (Except.ok d, c') ∧
      pyGet d "instructions" =
        Except.ok (Json.arr ((splitOnStr ";" "Step 1;Step 2").map Json.str)) ∧
      pyGet d "target_joints" =
        Except.ok (Json.arr ((splitOnStr "," "knee,ankle").map Json.str)) ∧
      ∃ fields, lookupDoc c'.store.exercises (zeroOracle.uuid 0) = some fields ∧
        lookupKey fields "instructions" =
          some (Json.arr ((splitOnStr ";" "Step 1;Step 2").map Json.str)) ∧
        lookupKey fields "target_joints" =
          some (Json.arr ((splitOnStr "," "knee,ankle").map Json.str))) :=
  ⟨rfl, rfl,
    C5_amended zeroOracle (Json.str "p") 0 ⟨emptyStore, 0, []⟩ c5Kvs
      (Json.str "X") (Json.str "d") (Json.str "") (Json.str "")
      "knee,ankle" "Step 1;Step 2" rfl rfl rfl rfl rfl rfl rfl⟩


/-! ### Structural lemmas about dictionaries, the store and search results -/

theorem lookupKey_setKey_self (l : List (String × Json)) (k : String) (v : Json) :
    lookupKey (setKey l k v) k = some v := by
  induction l with
  | nil => simp [setKey, lookupKey]
  | cons p rest ih =>
      by_cases h : p.1 = k
      · simp [setKey, lookupKey, h]
      · simp [setKey, lookupKey, h, ih]

theorem lookupKey_setKey_ne (l : List (String × Json)) (k k' : String) (v : Json)
    (h : k' ≠ k) : lookupKey (setKey l k v) k' = lookupKey l k' := by
  induction l with
  | nil => simp [setKey, lookupKey, Ne.symm h]
  | cons p rest ih =>
      by_cases hp : p.1 = k
      · simp [setKey, lookupKey, hp, Ne.symm h]
      · by_cases hp' : p.1 = k'
        · simp [setKey, lookupKey, hp, hp', h]
        · simp [setKey, lookupKey, hp, hp', ih]

theorem searchHitsOfItems_mem (items : List Json) (l : List Json)
    (h : searchHitsOfItems items = Except.ok l) :
    ∀ x ∈ l, ∃ t u th,
      x = Json.obj [("title", t), ("video_url", u), ("thumbnail", th)] ∧
      ∃ b1 b2, pyInStr "youtube.com" u = Except.ok b1 ∧
        pyInStr "youtu.be" u = Except.ok b2 ∧ (b1 || b2) = true := by
  induction items generalizing l with
  | nil =>
      simp only [searchHitsOfItems] at h
      cases h
      simp
  | cons item rest ih =>
      simp only [searchHitsOfItems] at h
      cases hl : pyGetD item "link" (Json.str "") with
      | error e => rw [hl] at h; cases e; simp [Py_bind_error] at h
      | ok vu =>
        rw [hl] at h; simp only [Py_bind_ok] at h
        cases h1 : pyInStr "youtube.com" vu with
        | error e => rw [h1] at h; cases e; simp [Py_bind_error] at h
        | ok b1 =>
          rw [h1] at h; simp only [Py_bind_ok] at h
          cases h2 : pyInStr "youtu.be" vu with
          | error e => rw [h2] at h; cases e; simp [Py_bind_error] at h
          | ok b2 =>
            rw [h2] at h; simp only [Py_bind_ok] at h
            by_cases hyt : (b1 || b2) = true
            · rw [if_neg (by simp [hyt])] at h
              cases hth : searchItemThumb item vu with
              | error e => rw [hth] at h; cases e; simp [Py_bind_error] at h
              | ok th =>
                rw [hth] at h; simp only [Py_bind_ok] at h
                cases ht : pyGetD item "title" (Json.str "Unknown") with
                | error e => rw [ht] at h; cases e; simp [Py_bind_error] at h
                | ok t =>
                  rw [ht] at h; simp only [Py_bind_ok] at h
                  cases hr : searchHitsOfItems rest with
                  | error e => rw [hr] at h; cases e; simp [Py_bind_error] at h
                  | ok os =>
                    rw [hr] at h; simp only [Py_bind_ok] at h
                    cases h
                    intro x hx
                    rcases List.mem_cons.mp hx with hx | hx
                    · subst hx
                      exact ⟨t, vu, th, rfl, b1, b2, h1, h2, hyt⟩
                    · exact ih os hr x hx
            · rw [if_pos (by simpa using hyt)] at h
              intro x hx
              exact ih l h x hx

theorem search_pure_shape (resp : HttpResp) (v : Json)
    (h : search_youtube_video_pure resp = some v) :
    ∃ t u th, v = Json.obj [("title", t), ("video_url", u), ("thumbnail", th)] ∧
      ∃ b1 b2, pyInStr "youtube.com" u = Except.ok b1 ∧
        pyInStr "youtu.be" u = Except.ok b2 ∧ (b1 || b2) = true := by
  unfold search_youtube_video_pure at h
  cases hg : search_go resp with
  | error e => rw [hg] at h; exact Option.noConfusion h
  | ok r =>
    rw [hg] at h
    have h' : r = some v := h
    subst h'
    unfold search_go at hg
    by_cases hs : resp.status ≠ 200
    · rw [if_pos hs] at hg
      exact Option.noConfusion (Except.ok.inj hg)
    · rw [if_neg hs] at hg
      cases hj : jsonLoads resp.body with
      | none => rw [hj] at hg; simp [ofOption, pyThrow, Py_bind_error] at hg
      | some data =>
        rw [hj] at hg; simp only [ofOption, Py_bind_ok] at hg
        cases hi : pyInStr "items" data with
        | error e => rw [hi] at hg; cases e; simp [Py_bind_error] at hg
        | ok hasItems =>
          rw [hi] at hg; simp only [Py_bind_ok] at hg
          have main : ∀ (items : Json) (hg : (do
              let itemsL ← pyIter items
              let all ← searchHitsOfItems itemsL
              match all with
              | [] => pure none
              | v :: _ => pure (some v) : Py (Option Json)) = Except.ok (some v)),
              ∃ t u th, v = Json.obj [("title", t), ("video_url", u), ("thumbnail", th)] ∧
                ∃ b1 b2, pyInStr "youtube.com" u = Except.ok b1 ∧
                  pyInStr "youtu.be" u = Except.ok b2 ∧ (b1 || b2) = true := by
            intro items hg
            cases hil : pyIter items with
            | error e => rw [hil] at hg; cases e; simp [Py_bind_error] at hg
            | ok itemsL =>
              rw [hil] at hg; simp only [Py_bind_ok] at hg
              cases hall : searchHitsOfItems itemsL with
              | error e => rw [hall] at hg; cases e; simp [Py_bind_error] at hg
              | ok all =>
                rw [hall] at hg; simp only [Py_bind_ok] at hg
                cases all with
                | nil => exact Option.noConfusion (Except.ok.inj hg)
                | cons v0 os =>
                  have hv : some v0 = some v := Except.ok.inj hg
                  cases hv
                  exact searchHitsOfItems_mem itemsL (v :: os) hall v
                    (List.mem_cons_self v os)
          by_cases hhi : hasItems = true
          · rw [hhi] at hg
            simp only [Bool.not_true, Bool.false_eq_true, if_false] at hg
            cases hit : pyGet data "items" with
            | error e => rw [hit] at hg; cases e; simp [Py_bind_error] at hg
            | ok items =>
              rw [hit] at hg; simp only [Py_bind_ok] at hg
              cases hn : pyLen items with
              | error e => rw [hn] at hg; cases e; simp [Py_bind_error] at hg
              | ok n =>
                rw [hn] at hg; simp only [Py_bind_ok, Py_bind_ok] at hg
                by_cases hz : (n == 0) = true
                · rw [hz] at hg
                  exact Option.noConfusion (Except.ok.inj hg)
                · rw [Bool.not_eq_true] at hz
                  rw [hz] at hg
                  exact main items hg
          · rw [Bool.not_eq_true] at hhi
            rw [hhi] at hg
            exact Option.noConfusion (Except.ok.inj hg)


/-- The boolean `validate_video_url` computes, as a pure function of the
oEmbed oracle. -/
def validate_pure (O : Oracles) (url : Json) : Bool :=
  match url with
  | .str u =>
    if subStr "youtube.com" u || subStr "youtu.be" u then
      match extractVideoId u with
      | some vid => if vid = "" then false else O.oembed vid == 200
      | none => false
    else false
  | _ => false

/-- The probe calls `validate_video_url` makes. -/
def probesOf (url : Json) : List Call :=
  match url with
  | .str u =>
    if subStr "youtube.com" u || subStr "youtu.be" u then
      match extractVideoId u with
      | some vid => if vid = "" then [] else [Call.probe vid]
      | none => []
    else []
  | _ => []

theorem validate_video_url_run (O : Oracles) (url nm : Json) (c : PCtx) :
    validate_video_url O url nm c =
      (Except.ok (validate_pure O url),
       { c with trace := c.trace ++ probesOf url }) := by
  cases url with
  | str u =>
      by_cases hy : (subStr "youtube.com" u || subStr "youtu.be" u) = true
      · cases hv : extractVideoId u with
        | some vid =>
            by_cases hvv : vid = ""
            · subst hvv
              simp [validate_video_url, validate_pure, probesOf, hy, hv]
            · simp [validate_video_url, validate_pure, probesOf, hy, hv, hvv,
                PM_bind_apply, emit_apply, PM_pure_apply]
        | none =>
            simp [validate_video_url, validate_pure, probesOf, hy, hv]
      · rw [Bool.not_eq_true] at hy
        simp [validate_video_url, validate_pure, probesOf, hy]
  | null => simp [validate_video_url, validate_pure, probesOf]
  | bool b => simp [validate_video_url, validate_pure, probesOf]
  | num n => simp [validate_video_url, validate_pure, probesOf]
  | arr xs => simp [validate_video_url, validate_pure, probesOf]
  | obj kvs => simp [validate_video_url, validate_pure, probesOf]

theorem probesOf_filter_isSearch (url : Json) :
    (probesOf url).filter Call.isSearch = [] := by
  cases url with
  | str u =>
      by_cases hy : (subStr "youtube.com" u || subStr "youtu.be" u) = true
      · cases hv : extractVideoId u with
        | some vid =>
            by_cases hvv : vid = ""
            · simp [probesOf, hy, hv, hvv]
            · simp [probesOf, hy, hv, hvv, Call.isSearch, List.filter]
        | none => simp [probesOf, hy, hv]
      · rw [Bool.not_eq_true] at hy
        simp [probesOf, hy]
  | null => simp [probesOf]
  | bool b => simp [probesOf]
  | num n => simp [probesOf]
  | arr xs => simp [probesOf]
  | obj kvs => simp [probesOf]

theorem lookupKey_set2_url (kvs : List (String × Json)) (u th : Json) :
    lookupKey (setKey (setKey kvs "video_url" u) "video_thumbnail" th)
      "video_url" = some u := by
  rw [lookupKey_setKey_ne _ _ _ _ (by decide), lookupKey_setKey_self]

theorem lookupKey_set2_thumb (kvs : List (String × Json)) (u th : Json) :
    lookupKey (setKey (setKey kvs "video_url" u) "video_thumbnail" th)
      "video_thumbnail" = some th :=
  lookupKey_setKey_self _ _ _

/-! ## C2 — bounded video retry

True part: at most two search queries per proposal, the alternate issued
exactly when the first candidate fails validation, never a third.  False
part: on persistent failure the media fields are NOT blanked — they retain
the last candidate found; they are blank only when the initial search
returns no candidate at all. -/

def c2SearchBody : String := "\x7b\"items\":[\x7b\"link\":\"https://www.youtube.com/watch?v=bad1\",\"title\":\"T\"\x7d]\x7d"

/-- Oracles for the retry counterexample: the first query returns one
YouTube result whose oEmbed probe fails; every other query returns an empty
result set. -/
def c2Oracle : Oracles :=
  { zeroOracle with
    search := fun q _ =>
      if q = "A physical therapy exercise youtube" then ⟨200, c2SearchBody⟩
      else ⟨200, "\x7b\"items\":[]\x7d"⟩
    oembed := fun _ => 404 }

def c2Ex : Json := Json.obj [("name", Json.str "A"), ("description", Json.str "d")]

/-- C2, counterexample: first candidate fails validation, the single
alternate query finds nothing — the proposal keeps the invalid first
candidate's URL and thumbnail instead of the claimed empty strings (only
two queries are issued, which part of the claim holds). -/
theorem C2_counterexample :
    enhance_exercises_with_videos c2Oracle (Json.arr [c2Ex]) ⟨emptyStore, 0, []⟩ =
      (Except.ok [Json.obj
        [("name", Json.str "A"), ("description", Json.str "d"),
         ("video_url", Json.str "https://www.youtube.com/watch?v=bad1"),
         ("video_thumbnail", Json.str "https://img.youtube.com/vi/bad1/hqdefault.jpg")]],
       ⟨emptyStore, 0,
        [Call.videoSearch "A physical therapy exercise youtube" 1,
         Call.probe "bad1",
         Call.videoSearch "A knee rehabilitation exercise demonstration youtube" 5]⟩) ∧
    Json.str "https://www.youtube.com/watch?v=bad1" ≠ Json.str "" := by
  refine ⟨by rfl, by simp⟩

theorem search_hit_ne_empty (u : Json) (b1 b2 : Bool)
    (h1 : pyInStr "youtube.com" u = Except.ok b1)
    (h2 : pyInStr "youtu.be" u = Except.ok b2)
    (hb : (b1 || b2) = true) : u ≠ Json.str "" := by
  intro he
  subst he
  simp only [pyInStr, Except.ok.injEq] at h1 h2
  rw [← h1, ← h2] at hb
  exact absurd hb (by decide)

/-- C2, amended: when the first candidate fails the validation probe,
exactly one alternate query is issued and no third; on persistent failure
the media fields are NOT blanked: they retain the last candidate found —
the first, invalid candidate when the alternate search returns nothing, or
the alternate candidate (validated once, with the probe recorded and its
result ignored) when it returns one.  The fields are set to the empty
string only when the initial search returns no candidate at all. -/
theorem C2_amended (O : Oracles) (c : PCtx) (kvs : List (String × Json)) (nm : Json)
    (hname : lookupKey kvs "name" = some nm) :
    ∃ r c', enhance_one O (Json.obj kvs) c = (Except.ok r, c') ∧
      ((c'.trace.drop c.trace.length).filter Call.isSearch).length ≤ 2 ∧
      (search_youtube_video_pure
          (O.search ((pyStr nm ++ " physical therapy exercise") ++ " youtube") 1) = none →
        (c'.trace.drop c.trace.length).filter Call.isSearch =
          [Call.videoSearch ((pyStr nm ++ " physical therapy exercise") ++ " youtube") 1] ∧
        pyGet r "video_url" = Except.ok (Json.str "") ∧
        pyGet r "video_thumbnail" = Except.ok (Json.str "")) ∧
      (∀ t u th, search_youtube_video_pure
          (O.search ((pyStr nm ++ " physical therapy exercise") ++ " youtube") 1) =
            some (Json.obj [("title", t), ("video_url", u), ("thumbnail", th)]) →
        validate_pure O u = false →
          (c'.trace.drop c.trace.length).filter Call.isSearch =
            [Call.videoSearch ((pyStr nm ++ " physical therapy exercise") ++ " youtube") 1,
             Call.videoSearch
               ((pyStr nm ++ " knee rehabilitation exercise demonstration") ++ " youtube") 5] ∧
          (search_youtube_video_pure
              (O.search ((pyStr nm ++ " knee rehabilitation exercise demonstration") ++ " youtube") 5) = none →
            pyGet r "video_url" = Except.ok u ∧
            pyGet r "video_thumbnail" = Except.ok th) ∧
          (∀ t2 u2 th2, search_youtube_video_pure
              (O.search ((pyStr nm ++ " knee rehabilitation exercise demonstration") ++ " youtube") 5) =
                some (Json.obj [("title", t2), ("video_url", u2), ("thumbnail", th2)]) →
            c'.trace.drop c.trace.length =
              [Call.videoSearch ((pyStr nm ++ " physical therapy exercise") ++ " youtube") 1]
                ++ probesOf u ++
              [Call.videoSearch
                ((pyStr nm ++ " knee rehabilitation exercise demonstration") ++ " youtube") 5]
                ++ probesOf u2 ∧
            pyGet r "video_url" = Except.ok u2 ∧
            pyGet r "video_thumbnail" = Except.ok th2)) ∧
      (∀ vd, search_youtube_video_pure
          (O.search ((pyStr nm ++ " physical therapy exercise") ++ " youtube") 1) =
            some vd →
        ∃ v, pyGet r "video_url" = Except.ok v ∧ v ≠ Json.str "") := by
  cases hv1 : search_youtube_video_pure
      (O.search ((pyStr nm ++ " physical therapy exercise") ++ " youtube") 1) with
  | none =>
      refine ⟨Json.obj (setKey (setKey kvs "video_url" (Json.str ""))
          "video_thumbnail" (Json.str "")),
        { c with trace := c.trace ++
            [Call.videoSearch ((pyStr nm ++ " physical therapy exercise") ++ " youtube") 1] },
        ?_, ?_, ?_, ?_, ?_⟩
      · simp only [enhance_one, search_youtube_video, PM_bind_apply, liftPy_apply, pyGet,
          hname, emit_apply, PM_pure_apply, hv1, pySetItem]
      · simp [List.drop_left, Call.isSearch, List.filter]
      · intro h
        refine ⟨by simp [List.drop_left, Call.isSearch, List.filter], ?_, ?_⟩
        · simp [pyGet, lookupKey_set2_url]
        · simp [pyGet, lookupKey_set2_thumb]
      · intro t u th heq
        cases heq
      · intro vd heq
        cases heq
  | some vd =>
      obtain ⟨t, u, th, rfl, b1, b2, hb1, hb2, hyt⟩ := search_pure_shape _ _ hv1
      cases hb : validate_pure O u with
      | true =>
          refine ⟨Json.obj (setKey (setKey kvs "video_url" u) "video_thumbnail" th),
            { c with trace := (c.trace ++
                [Call.videoSearch ((pyStr nm ++ " physical therapy exercise") ++ " youtube") 1])
                ++ probesOf u },
            ?_, ?_, ?_, ?_, ?_⟩
          · simp only [enhance_one, search_youtube_video, PM_bind_apply, liftPy_apply, pyGet,
              hname, emit_apply, PM_pure_apply, hv1, pySetItem, pyGetD, lookupKey,
              lookupKey_set2_url, validate_video_url_run, hb]
            simp only [hb, String.reduceEq, reduceIte, Bool.not_true, Bool.false_eq_true,
              if_false, PM_pure_apply]
          · simp [List.append_assoc, List.drop_left, List.filter_append,
              probesOf_filter_isSearch, Call.isSearch, List.filter]
          · intro h
            cases h
          · intro t' u' th' heq hval
            simp only [Option.some.injEq, Json.obj.injEq, List.cons.injEq, Prod.mk.injEq,
              true_and, and_true] at heq
            obtain ⟨h1, h2, h3⟩ := heq
            subst h2
            rw [hb] at hval
            cases hval
          · intro vd2 heq
            exact ⟨u, by simp [pyGet, lookupKey_set2_url],
              search_hit_ne_empty u b1 b2 hb1 hb2 hyt⟩
      | false =>
          cases hv2 : search_youtube_video_pure
              (O.search ((pyStr nm ++ " knee rehabilitation exercise demonstration") ++ " youtube") 5) with
          | none =>
              refine ⟨Json.obj (setKey (setKey kvs "video_url" u) "video_thumbnail" th),
                { c with trace := ((c.trace ++
                    [Call.videoSearch ((pyStr nm ++ " physical therapy exercise") ++ " youtube") 1])
                    ++ probesOf u) ++
                    [Call.videoSearch
                      ((pyStr nm ++ " knee rehabilitation exercise demonstration") ++ " youtube") 5] },
                ?_, ?_, ?_, ?_, ?_⟩
              · simp only [enhance_one, search_youtube_video, PM_bind_apply, liftPy_apply, pyGet,
                  hname, emit_apply, PM_pure_apply, hv1, hv2, pySetItem, pyGetD, lookupKey,
                  lookupKey_set2_url, validate_video_url_run, hb]
                simp only [hb, String.reduceEq, reduceIte, Bool.not_false, if_true,
                  PM_bind_apply, emit_apply, PM_pure_apply, liftPy_apply, hv2]
              · simp [List.append_assoc, List.drop_left, List.filter_append,
                  probesOf_filter_isSearch, Call.isSearch, List.filter]
              · intro h
                cases h
              · intro t' u' th' heq hval
                simp only [Option.some.injEq, Json.obj.injEq, List.cons.injEq, Prod.mk.injEq,
                  true_and, and_true] at heq
                obtain ⟨h1, h2, h3⟩ := heq
                subst h2
                refine ⟨by simp [List.append_assoc, List.drop_left, List.filter_append,
                  probesOf_filter_isSearch, Call.isSearch, List.filter], ?_, ?_⟩
                · intro h2none
                  subst h3
                  exact ⟨by simp [pyGet, lookupKey_set2_url],
                         by simp [pyGet, lookupKey_set2_thumb]⟩
                · intro t2 u2 th2 h2some
                  cases h2some
              · intro vd2 heq
                exact ⟨u, by simp [pyGet, lookupKey_set2_url],
                  search_hit_ne_empty u b1 b2 hb1 hb2 hyt⟩
          | some avd =>
              obtain ⟨t2, u2, th2, rfl, b21, b22, hb21, hb22, hyt2⟩ := search_pure_shape _ _ hv2
              refine ⟨Json.obj (setKey (setKey (setKey (setKey kvs "video_url" u)
                  "video_thumbnail" th) "video_url" u2) "video_thumbnail" th2),
                { c with trace := (((c.trace ++
                    [Call.videoSearch ((pyStr nm ++ " physical therapy exercise") ++ " youtube") 1])
                    ++ probesOf u) ++
                    [Call.videoSearch
                      ((pyStr nm ++ " knee rehabilitation exercise demonstration") ++ " youtube") 5])
                    ++ probesOf u2 },
                ?_, ?_, ?_, ?_, ?_⟩
              · simp only [enhance_one, search_youtube_video, PM_bind_apply, liftPy_apply, pyGet,
                  hname, emit_apply, PM_pure_apply, hv1, hv2, pySetItem, pyGetD, lookupKey,
                  lookupKey_set2_url, validate_video_url_run, hb]
                simp only [hb, String.reduceEq, reduceIte, Bool.not_false, if_true,
                  PM_bind_apply, emit_apply, PM_pure_apply, liftPy_apply, hv2, pySetItem,
                  pyGetD, lookupKey, lookupKey_set2_url, validate_video_url_run]
              · simp [List.append_assoc, List.drop_left, List.filter_append,
                  probesOf_filter_isSearch, Call.isSearch, List.filter]
              · intro h
                cases h
              · intro t' u' th' heq hval
                simp only [Option.some.injEq, Json.obj.injEq, List.cons.injEq, Prod.mk.injEq,
                  true_and, and_true] at heq
                obtain ⟨h1, h2, h3⟩ := heq
                subst h2
                refine ⟨by simp [List.append_assoc, List.drop_left, List.filter_append,
                  probesOf_filter_isSearch, Call.isSearch, List.filter], ?_, ?_⟩
                · intro h2none
                  cases h2none
                · intro t2' u2' th2' h2some
                  simp only [Option.some.injEq, Json.obj.injEq, List.cons.injEq, Prod.mk.injEq,
                    true_and, and_true] at h2some
                  obtain ⟨g1, g2, g3⟩ := h2some
                  subst g2
                  subst g3
                  refine ⟨?_, ?_, ?_⟩
                  · simp [List.append_assoc, List.drop_left]
                  · simp [pyGet, lookupKey_set2_url]
                  · simp [pyGet, lookupKey_set2_thumb]
              · intro vd2 heq
                exact ⟨u2, by simp [pyGet, lookupKey_set2_url],
                  search_hit_ne_empty u2 b21 b22 hb21 hb22 hyt2⟩

/-- C2, witness: the amended statement at the concrete retry oracles. -/
theorem C2_witness :
    lookupKey [("name", Json.str "A"), ("description", Json.str "d")] "name" =
      some (Json.str "A") ∧
    (∃ r c', enhance_one c2Oracle
        (Json.obj [("name", Json.str "A"), ("description", Json.str "d")])
        ⟨emptyStore, 0, []⟩ = (Except.ok r, c') ∧
      ((c'.trace.drop (PCtx.trace ⟨emptyStore, 0, []⟩).length).filter Call.isSearch).length ≤ 2 ∧
      (search_youtube_video_pure
          (c2Oracle.search ((pyStr (Json.str "A") ++ " physical therapy exercise") ++ " youtube") 1) = none →
        (c'.trace.drop (PCtx.trace ⟨emptyStore, 0, []⟩).length).filter Call.isSearch =
          [Call.videoSearch ((pyStr (Json.str "A") ++ " physical therapy exercise") ++ " youtube") 1] ∧
        pyGet r "video_url" = Except.ok (Json.str "") ∧
        pyGet r "video_thumbnail" = Except.ok (Json.str "")) ∧
      (∀ t u th, search_youtube_video_pure
          (c2Oracle.search ((pyStr (Json.str "A") ++ " physical therapy exercise") ++ " youtube") 1) =
            some (Json.obj [("title", t), ("video_url", u), ("thumbnail", th)]) →
        validate_pure c2Oracle u = false →
          (c'.trace.drop (PCtx.trace ⟨emptyStore, 0, []⟩).length).filter Call.isSearch =
            [Call.videoSearch ((pyStr (Json.str "A") ++ " physical therapy exercise") ++ " youtube") 1,
             Call.videoSearch
               ((pyStr (Json.str "A") ++ " knee rehabilitation exercise demonstration") ++ " youtube") 5] ∧
          (search_youtube_video_pure
              (c2Oracle.search ((pyStr (Json.str "A") ++ " knee rehabilitation exercise demonstration") ++ " youtube") 5) = none →
            pyGet r "video_url" = Except.ok u ∧
            pyGet r "video_thumbnail" = Except.ok th) ∧
          (∀ t2 u2 th2, search_youtube_video_pure
              (c2Oracle.search ((pyStr (Json.str "A") ++ " knee rehabilitation exercise demonstration") ++ " youtube") 5) =
                some (Json.obj [("title", t2), ("video_url", u2), ("thumbnail", th2)]) →
            c'.trace.drop (PCtx.trace ⟨emptyStore, 0, []⟩).length =
              [Call.videoSearch ((pyStr (Json.str "A") ++ " physical therapy exercise") ++ " youtube") 1]
                ++ probesOf u ++
              [Call.videoSearch
                ((pyStr (Json.str "A") ++ " knee rehabilitation exercise demonstration") ++ " youtube") 5]
                ++ probesOf u2 ∧
            pyGet r "video_url" = Except.ok u2 ∧
            pyGet r "video_thumbnail" = Except.ok th2)) ∧
      (∀ vd, search_youtube_video_pure
          (c2Oracle.search ((pyStr (Json.str "A") ++ " physical therapy exercise") ++ " youtube") 1) =
            some vd →
        ∃ v, pyGet r "video_url" = Except.ok v ∧ v ≠ Json.str "")) :=
  ⟨rfl, C2_amended c2Oracle ⟨emptyStore, 0, []⟩
    [("name", Json.str "A"), ("description", Json.str "d")] (Json.str "A") rfl⟩

theorem lookupDoc_setDoc_ne (l : List (String × Doc)) (k k' : String) (d : Doc)
    (h : k' ≠ k) : lookupDoc (setDoc l k d) k' = lookupDoc l k' := by
  induction l with
  | nil => simp [setDoc, lookupDoc, Ne.symm h]
  | cons p rest ih =>
      by_cases hp : p.1 = k
      · simp [setDoc, lookupDoc, hp, Ne.symm h]
      · by_cases hp' : p.1 = k'
        · simp [setDoc, lookupDoc, hp, hp', h]
        · simp [setDoc, lookupDoc, hp, hp', ih]

theorem lookupDoc_updateDocFields_ne (l : List (String × Doc)) (j i : String)
    (fs : List (String × Json)) (h : i ≠ j) :
    lookupDoc (updateDocFields l j fs) i = lookupDoc l i := by
  induction l with
  | nil => simp [updateDocFields, lookupDoc]
  | cons p rest ih =>
      by_cases hp : p.1 = j
      · simp [updateDocFields, lookupDoc, hp, Ne.symm h]
      · by_cases hp' : p.1 = i
        · simp [updateDocFields, lookupDoc, hp, hp', h]
        · simp [updateDocFields, lookupDoc, hp, hp', ih]

theorem lookupDoc_updateDocFields_self (l : List (String × Doc)) (i : String)
    (fs : List (String × Json)) :
    lookupDoc (updateDocFields l i fs) i =
      (lookupDoc l i).map (fun d => updateKeys d fs) := by
  induction l with
  | nil => simp [updateDocFields, lookupDoc]
  | cons p rest ih =>
      by_cases hp : p.1 = i
      · simp [updateDocFields, lookupDoc, hp]
      · simp [updateDocFields, lookupDoc, hp, ih]

theorem map_fst_updateDocFields (l : List (String × Doc)) (j : String)
    (fs : List (String × Json)) :
    (updateDocFields l j fs).map Prod.fst = l.map Prod.fst := by
  induction l with
  | nil => simp [updateDocFields]
  | cons p rest ih =>
      by_cases hp : p.1 = j
      · simp [updateDocFields, hp]
      · simp [updateDocFields, hp, ih]

theorem mem_keys_setDoc (l : List (String × Doc)) (k : String) (d : Doc)
    (x : String) (h : x ∈ (setDoc l k d).map Prod.fst) :
    x ∈ l.map Prod.fst ∨ x = k := by
  induction l with
  | nil =>
      simp [setDoc] at h
      exact Or.inr h
  | cons q qs ih =>
      by_cases hq : q.1 = k
      · simp only [setDoc, if_pos hq, List.map_cons] at h
        exact Or.inl h
      · simp only [setDoc, if_neg hq, List.map_cons, List.mem_cons] at h
        rcases h with h | h
        · exact Or.inl (List.mem_cons.mpr (Or.inl h))
        · rcases ih h with h1 | h1
          · exact Or.inl (List.mem_cons.mpr (Or.inr h1))
          · exact Or.inr h1

theorem map_fst_setDoc_nodup (l : List (String × Doc)) (k : String) (d : Doc)
    (h : (l.map Prod.fst).Nodup) : ((setDoc l k d).map Prod.fst).Nodup := by
  induction l with
  | nil => simp [setDoc]
  | cons p rest ih =>
      simp only [List.map_cons, List.nodup_cons] at h
      by_cases hp : p.1 = k
      · simp only [setDoc, if_pos hp, List.map_cons, List.nodup_cons]
        exact ⟨by rw [hp] at h ⊢; exact h.1, h.2⟩
      · simp only [setDoc, if_neg hp, List.map_cons, List.nodup_cons]
        refine ⟨?_, ih h.2⟩
        intro hmem
        rcases mem_keys_setDoc rest k d p.1 hmem with h1 | h1
        · exact h.1 h1
        · exact hp h1

theorem mem_lookupDoc_nodup (l : List (String × Doc)) (k : String) (e d : Doc)
    (h : (l.map Prod.fst).Nodup) (hm : (k, e) ∈ l) (hl : lookupDoc l k = some d) :
    e = d := by
  induction l with
  | nil => cases hm
  | cons p rest ih =>
      simp only [List.map_cons, List.nodup_cons] at h
      rcases List.mem_cons.mp hm with hh | hh
      · subst hh
        simp [lookupDoc] at hl
        exact hl
      · by_cases hp : p.1 = k
        · exfalso
          apply h.1
          rw [hp]
          exact List.mem_map.mpr ⟨(k, e), hh, rfl⟩
        · simp only [lookupDoc, hp, if_false] at hl
          exact ih h.2 hh hl

theorem lookupKey_updateKeys_notMem (d : Doc) (fs : List (String × Json))
    (f : String) (h : f ∉ fs.map Prod.fst) :
    lookupKey (updateKeys d fs) f = lookupKey d f := by
  induction fs generalizing d with
  | nil => simp [updateKeys]
  | cons p rest ih =>
      simp only [List.map_cons, List.mem_cons] at h
      push_neg at h
      have step : updateKeys d (p :: rest) = updateKeys (setKey d p.1 p.2) rest := by
        simp [updateKeys, List.foldl_cons]
      rw [step, ih (setKey d p.1 p.2) h.2, lookupKey_setKey_ne _ _ _ _ h.1]

theorem pyGetD_obj (kvs : List (String × Json)) (k : String) (dflt : Json) :
    pyGetD (Json.obj kvs) k dflt = Except.ok ((lookupKey kvs k).getD dflt) := by
  cases h : lookupKey kvs k <;> simp [pyGetD, h]

/-- The merge patch contains only `video_url` / `video_thumbnail`, only when
the stored value is falsy, and only with the proposal's truthy value. -/
theorem computeUpdates_spec (stored proposal : Json)
    (updates : List (String × Json))
    (h : computeUpdates stored proposal = Except.ok updates) :
    ∀ f v, (f, v) ∈ updates →
      (f = "video_url" ∨ f = "video_thumbnail") ∧
      (∃ w, pyGetD stored f Json.null = Except.ok w ∧ w.truthy = false) ∧
      pyGetD proposal f Json.null = Except.ok v ∧ v.truthy = true := by
  unfold computeUpdates at h
  cases h1 : pyGetD stored "video_url" Json.null with
  | error e => rw [h1] at h; cases e; simp [Py_bind_error] at h
  | ok dvu =>
    rw [h1] at h; simp only [Py_bind_ok] at h
    cases h2 : pyGetD proposal "video_url" Json.null with
    | error e => rw [h2] at h; cases e; simp [Py_bind_error] at h
    | ok pvu =>
      rw [h2] at h; simp only [Py_bind_ok] at h
      cases h3 : pyGetD stored "video_thumbnail" Json.null with
      | error e => rw [h3] at h; cases e; simp [Py_bind_error] at h
      | ok dth =>
        rw [h3] at h; simp only [Py_bind_ok] at h
        cases h4 : pyGetD proposal "video_thumbnail" Json.null with
        | error e => rw [h4] at h; cases e; simp [Py_bind_error] at h
        | ok pth =>
          rw [h4] at h; simp only [Py_bind_ok] at h
          have hu : updates =
              (if !dvu.truthy && pvu.truthy then [("video_url", pvu)] else []) ++
              (if !dth.truthy && pth.truthy then [("video_thumbnail", pth)] else []) :=
            (Except.ok.inj h).symm
          subst hu
          intro f v hm
          rcases List.mem_append.mp hm with hm | hm
          · by_cases hc : (!dvu.truthy && pvu.truthy) = true
            · rw [if_pos hc] at hm
              simp only [List.mem_singleton, Prod.mk.injEq] at hm
              obtain ⟨rfl, rfl⟩ := hm
              simp only [Bool.and_eq_true, Bool.not_eq_true'] at hc
              exact ⟨Or.inl rfl, ⟨dvu, h1, hc.1⟩, h2, hc.2⟩
            · rw [if_neg hc] at hm
              cases hm
          · by_cases hc : (!dth.truthy && pth.truthy) = true
            · rw [if_pos hc] at hm
              simp only [List.mem_singleton, Prod.mk.injEq] at hm
              obtain ⟨rfl, rfl⟩ := hm
              simp only [Bool.and_eq_true, Bool.not_eq_true'] at hc
              exact ⟨Or.inr rfl, ⟨dth, h3, hc.1⟩, h4, hc.2⟩
            · rw [if_neg hc] at hm
              cases hm

theorem computeUpdates_not_mem_url (edoc : Doc) (ex : Json)
    (updates : List (String × Json))
    (h : computeUpdates (Json.obj edoc) ex = Except.ok updates)
    (hurl : ((lookupKey edoc "video_url").getD Json.null).truthy = true) :
    "video_url" ∉ updates.map Prod.fst := by
  intro hmem
  rcases List.mem_map.mp hmem with ⟨⟨f, v⟩, hfv, hf⟩
  obtain ⟨hor, ⟨w, hw, hwf⟩, _, _⟩ := computeUpdates_spec _ _ _ h f v hfv
  cases hf
  rw [pyGetD_obj] at hw
  rw [Except.ok.inj hw] at hurl
  rw [hurl] at hwf
  cases hwf

theorem save_one_state (O : Oracles) (pid : Json) (now : Int) (ex : Json)
    (c : PCtx) (i : String) (d : Doc)
    (hnodup : (c.store.exercises.map Prod.fst).Nodup)
    (hd : lookupDoc c.store.exercises i = some d)
    (hurl : ((lookupKey d "video_url").getD Json.null).truthy = true)
    (hfresh : O.uuid c.ctr ≠ i) :
    ∃ d', lookupDoc ((save_one O pid now ex c).2).store.exercises i = some d' ∧
      lookupKey d' "video_url" = lookupKey d "video_url" ∧
      c.ctr ≤ ((save_one O pid now ex c).2).ctr ∧
      ((save_one O pid now ex c).2).ctr ≤ c.ctr + 2 ∧
      (((save_one O pid now ex c).2).store.exercises.map Prod.fst).Nodup := by
  cases hnm : pyGet ex "name" with
  | error e =>
      cases e
      simp only [save_one, PM_bind_apply, liftPy_apply, hnm]
      exact ⟨d, hd, rfl, le_refl _, by omega, hnodup⟩
  | ok nm =>
    cases hlg : pyGetD ex "video_url" (Json.str "None") with
    | error e =>
        cases e
        simp only [save_one, PM_bind_apply, liftPy_apply, hnm, hlg]
        exact ⟨d, hd, rfl, le_refl _, by omega, hnodup⟩
    | ok lg =>
      cases hsim : (whereEq c.store.exercises "name" nm).take 1 with
      | nil =>
          cases hin : pyGet ex "instructions" with
          | error e =>
              cases e
              simp only [save_one, PM_bind_apply, liftPy_apply, hnm, hlg, getStore_apply,
                hsim, pmFresh_apply, hin]
              exact ⟨d, hd, rfl, by omega, by omega, hnodup⟩
          | ok instr =>
            cases htj : pyGet ex "target_joints" with
            | error e =>
                cases e
                simp only [save_one, PM_bind_apply, liftPy_apply, hnm, hlg, getStore_apply,
                  hsim, pmFresh_apply, hin, htj]
                exact ⟨d, hd, rfl, by omega, by omega, hnodup⟩
            | ok tj =>
              cases hde : pyGet ex "description" with
              | error e =>
                  cases e
                  simp only [save_one, PM_bind_apply, liftPy_apply, hnm, hlg, getStore_apply,
                    hsim, pmFresh_apply, hin, htj, hde]
                  exact ⟨d, hd, rfl, by omega, by omega, hnodup⟩
              | ok desc =>
                cases hvu : pyGetD ex "video_url" (Json.str "") with
                | error e =>
                    cases e
                    simp only [save_one, PM_bind_apply, liftPy_apply, hnm, hlg, getStore_apply,
                      hsim, pmFresh_apply, hin, htj, hde, hvu]
                    exact ⟨d, hd, rfl, by omega, by omega, hnodup⟩
                | ok vu =>
                  cases hvt : pyGetD ex "video_thumbnail" (Json.str "") with
                  | error e =>
                      cases e
                      simp only [save_one, PM_bind_apply, liftPy_apply, hnm, hlg, getStore_apply,
                        hsim, pmFresh_apply, hin, htj, hde, hvu, hvt]
                      exact ⟨d, hd, rfl, by omega, by omega, hnodup⟩
                  | ok vt =>
                      simp only [save_one, PM_bind_apply, liftPy_apply, hnm, hlg, getStore_apply,
                        hsim, pmFresh_apply, hin, htj, hde, hvu, hvt, modifyStore_apply,
                        PM_pure_apply]
                      refine ⟨d, ?_, rfl, by omega, by omega, ?_⟩
                      · exact (lookupDoc_setDoc_ne _ _ _ _ (fun h => hfresh h.symm)).trans hd
                      · exact map_fst_setDoc_nodup _ _ _ hnodup
      | cons je rest =>
          obtain ⟨j, edoc⟩ := je
          have hmem : (j, edoc) ∈ c.store.exercises := by
            have h1 : (j, edoc) ∈ (whereEq c.store.exercises "name" nm).take 1 := by
              rw [hsim]; exact List.mem_cons_self _ _
            have h2 := List.mem_of_mem_take h1
            exact (List.mem_filter.mp h2).1
          cases hcu : computeUpdates (Json.obj edoc) ex with
          | error e =>
              cases e
              simp only [save_one, PM_bind_apply, liftPy_apply, hnm, hlg, getStore_apply,
                hsim, hcu]
              exact ⟨d, hd, rfl, by omega, by omega, hnodup⟩
          | ok updates =>
            by_cases hemp : updates.isEmpty = true
            · simp only [save_one, PM_bind_apply, liftPy_apply, hnm, hlg, getStore_apply,
                hsim, hcu, hemp, if_true, pmFresh_apply, modifyStore_apply, PM_pure_apply]
              exact ⟨d, hd, rfl, by omega, by omega, hnodup⟩
            · rw [Bool.not_eq_true] at hemp
              simp only [save_one, PM_bind_apply, liftPy_apply, hnm, hlg, getStore_apply,
                hsim, hcu, hemp, Bool.false_eq_true, if_false, pmFresh_apply,
                modifyStore_apply, PM_pure_apply]
              by_cases hji : j = i
              · subst hji
                have hed : edoc = d := mem_lookupDoc_nodup _ _ _ _ hnodup hmem hd
                subst hed
                refine ⟨updateKeys edoc updates, ?_, ?_, by omega, by omega, ?_⟩
                · rw [lookupDoc_updateDocFields_self, hd]
                  rfl
                · exact lookupKey_updateKeys_notMem _ _ _
                    (computeUpdates_not_mem_url _ _ _ hcu hurl)
                · rw [map_fst_updateDocFields]
                  exact hnodup
              · refine ⟨d, ?_, rfl, by omega, by omega, ?_⟩
                · rw [lookupDoc_updateDocFields_ne _ _ _ _ (fun h => hji h.symm)]
                  exact hd
                · rw [map_fst_updateDocFields]
                  exact hnodup

theorem save_exercises_state (O : Oracles) (pid : Json) (now : Int)
    (exs : List Json) :
    ∀ (c : PCtx) (i : String) (d : Doc),
    (c.store.exercises.map Prod.fst).Nodup →
    lookupDoc c.store.exercises i = some d →
    ((lookupKey d "video_url").getD Json.null).truthy = true →
    (∀ n, n < c.ctr + 2 * exs.length → O.uuid n ≠ i) →
    ∃ d', lookupDoc ((save_exercises O pid now exs c).2).store.exercises i = some d' ∧
      lookupKey d' "video_url" = lookupKey d "video_url" ∧
      c.ctr ≤ ((save_exercises O pid now exs c).2).ctr ∧
      ((save_exercises O pid now exs c).2).ctr ≤ c.ctr + 2 * exs.length ∧
      (((save_exercises O pid now exs c).2).store.exercises.map Prod.fst).Nodup := by
  induction exs with
  | nil =>
      intro c i d hnodup hd hurl hfresh
      simp only [save_exercises, PM_pure_apply]
      exact ⟨d, hd, rfl, le_refl _, by simp, hnodup⟩
  | cons e rest ih =>
      intro c i d hnodup hd hurl hfresh
      have hfresh1 : O.uuid c.ctr ≠ i :=
        hfresh c.ctr (by simp only [List.length_cons]; omega)
      obtain ⟨d1, hd1, hk1, hca, hcb, hn1⟩ :=
        save_one_state O pid now e c i d hnodup hd hurl hfresh1
      rcases hso : save_one O pid now e c with ⟨r1, c1⟩
      simp only [hso] at hd1 hk1 hca hcb hn1
      have hurl1 : ((lookupKey d1 "video_url").getD Json.null).truthy = true := by
        rw [hk1]; exact hurl
      cases r1 with
      | error e1 =>
          cases e1
          simp only [save_exercises, PM_bind_apply, hso]
          exact ⟨d1, hd1, hk1, by omega,
            by simp only [List.length_cons]; omega, hn1⟩
      | ok a =>
          have hfresh2 : ∀ n, n < c1.ctr + 2 * rest.length → O.uuid n ≠ i := by
            intro n hn
            exact hfresh n (by simp [List.length_cons]; omega)
          obtain ⟨d2, hd2, hk2, hc2a, hc2b, hn2⟩ :=
            ih c1 i d1 hn1 hd1 hurl1 hfresh2
          rcases hrest : save_exercises O pid now rest c1 with ⟨r2, c2⟩
          simp only [hrest] at hd2 hk2 hc2a hc2b hn2
          cases r2 with
          | error e2 =>
              cases e2
              simp only [save_exercises, PM_bind_apply, hso, hrest]
              refine ⟨d2, hd2, hk2.trans hk1, by omega, ?_, hn2⟩
              simp only [List.length_cons]
              omega
          | ok ds =>
              simp only [save_exercises, PM_bind_apply, hso, hrest, PM_pure_apply]
              refine ⟨d2, hd2, hk2.trans hk1, by omega, ?_, hn2⟩
              simp only [List.length_cons]
              omega

/-- C3: merge-only-if-missing.  For any stored ExerciseRecord whose
`video_url` is non-empty, running the persistence writer on any list of
proposals leaves that field unchanged; and every merge patch the writer
computes contains only the two video fields, only where the stored value is
falsy and the proposal's value truthy. -/
theorem C3_merge_only_if_missing (O : Oracles) (pid : Json) (now : Int)
    (exs : List Json) (c : PCtx) (i : String) (d : Doc)
    (hnodup : (c.store.exercises.map Prod.fst).Nodup)
    (hd : lookupDoc c.store.exercises i = some d)
    (hurl : ((lookupKey d "video_url").getD Json.null).truthy = true)
    (hfresh : ∀ n, n < c.ctr + 2 * exs.length → O.uuid n ≠ i) :
    (∃ d', lookupDoc ((save_exercises O pid now exs c).2).store.exercises i =
        some d' ∧
      lookupKey d' "video_url" = lookupKey d "video_url") ∧
    (∀ stored proposal updates,
      computeUpdates stored proposal = Except.ok updates →
      ∀ f v, (f, v) ∈ updates →
        (f = "video_url" ∨ f = "video_thumbnail") ∧
        (∃ w, pyGetD stored f Json.null = Except.ok w ∧ w.truthy = false) ∧
        pyGetD proposal f Json.null = Except.ok v ∧ v.truthy = true) := by
  obtain ⟨d', h1, h2, _, _, _⟩ :=
    save_exercises_state O pid now exs c i d hnodup hd hurl hfresh
  exact ⟨⟨d', h1, h2⟩, fun stored proposal updates h => computeUpdates_spec stored proposal updates h⟩

def c3Doc : Doc :=
  [("name", Json.str "A"),
   ("video_url", Json.str "https://www.youtube.com/watch?v=keep")]

def c3Store : Store := { emptyStore with exercises := [("E1", c3Doc)] }

def c3Prop : Json := Json.obj
  [("name", Json.str "A"), ("description", Json.str "d"),
   ("target_joints", Json.arr []), ("instructions", Json.arr []),
   ("video_url", Json.str "https://www.youtube.com/watch?v=other"),
   ("video_thumbnail", Json.str "t")]

/-- C3, witness: a stored record with a populated video url survives the
persistence of a same-named proposal carrying a different url. -/
theorem C3_witness :
    ((⟨c3Store, 0, []⟩ : PCtx).store.exercises.map Prod.fst).Nodup ∧
    lookupDoc (⟨c3Store, 0, []⟩ : PCtx).store.exercises "E1" = some c3Doc ∧
    ((lookupKey c3Doc "video_url").getD Json.null).truthy = true ∧
    ((∃ d', lookupDoc ((save_exercises zeroOracle (Json.str "p") 0 [c3Prop]
          ⟨c3Store, 0, []⟩).2).store.exercises "E1" = some d' ∧
        lookupKey d' "video_url" = lookupKey c3Doc "video_url") ∧
      (∀ stored proposal updates,
        computeUpdates stored proposal = Except.ok updates →
        ∀ f v, (f, v) ∈ updates →
          (f = "video_url" ∨ f = "video_thumbnail") ∧
          (∃ w, pyGetD stored f Json.null = Except.ok w ∧ w.truthy = false) ∧
          pyGetD proposal f Json.null = Except.ok v ∧ v.truthy = true)) :=
  ⟨by decide, rfl, by decide,
    C3_merge_only_if_missing zeroOracle (Json.str "p") 0 [c3Prop]
      ⟨c3Store, 0, []⟩ "E1" c3Doc (by decide) rfl (by decide) (by decide)⟩

theorem mem_setDoc_self (l : List (String × Doc)) (k : String) (d : Doc) :
    (k, d) ∈ setDoc l k d := by
  induction l with
  | nil => simp [setDoc]
  | cons p rest ih =>
      by_cases hp : p.1 = k
      · simp only [setDoc, if_pos hp]
        exact List.mem_cons.mpr (Or.inl (by rw [hp]))
      · simp only [setDoc, if_neg hp]
        exact List.mem_cons.mpr (Or.inr ih)

theorem mem_updateDocFields_of_lookup (l : List (String × Doc)) (k : String)
    (e : Doc) (fs : List (String × Json)) (h : lookupDoc l k = some e) :
    (k, updateKeys e fs) ∈ updateDocFields l k fs := by
  induction l with
  | nil => simp [lookupDoc] at h
  | cons p rest ih =>
      by_cases hp : p.1 = k
      · simp only [lookupDoc, hp, if_pos rfl] at h
        cases h
        simp only [updateDocFields, if_pos hp]
        exact List.mem_cons.mpr (Or.inl (by rw [hp]))
      · simp only [lookupDoc, hp, if_false] at h
        simp only [updateDocFields, if_neg hp]
        exact List.mem_cons.mpr (Or.inr (ih h))

theorem lookupDoc_isSome_of_mem (l : List (String × Doc)) (k : String) (e : Doc)
    (h : (k, e) ∈ l) : ∃ d, lookupDoc l k = some d := by
  induction l with
  | nil => cases h
  | cons p rest ih =>
      by_cases hp : p.1 = k
      · exact ⟨p.2, by simp [lookupDoc, hp]⟩
      · rcases List.mem_cons.mp h with hh | hh
        · exact absurd (congrArg Prod.fst hh).symm hp
        · simpa [lookupDoc, hp] using ih hh

/-- Keys of a merge patch are among the two video fields. -/
theorem computeUpdates_keys (stored proposal : Json)
    (updates : List (String × Json))
    (h : computeUpdates stored proposal = Except.ok updates) :
    ∀ f, f ∈ updates.map Prod.fst → f = "video_url" ∨ f = "video_thumbnail" := by
  intro f hf
  rcases List.mem_map.mp hf with ⟨⟨f', v⟩, hfv, hfeq⟩
  cases hfeq
  exact (computeUpdates_spec stored proposal updates h f' v hfv).1

/-- After a successful `save_one`, some stored record's name matches the
proposal's, and key uniqueness is preserved. -/
theorem save_one_post (O : Oracles) (pid : Json) (now : Int) (ex : Json)
    (c : PCtx) (rd : Json) (c1 : PCtx) (nm : Json)
    (hso : save_one O pid now ex c = (Except.ok rd, c1))
    (hnm : pyGet ex "name" = Except.ok nm)
    (hrefl : Json.beq nm nm = true)
    (hnodup : (c.store.exercises.map Prod.fst).Nodup) :
    (∃ k dd, (k, dd) ∈ c1.store.exercises ∧
      ∃ w, lookupKey dd "name" = some w ∧ Json.beq w nm = true) ∧
    (c1.store.exercises.map Prod.fst).Nodup := by
  cases hlg : pyGetD ex "video_url" (Json.str "None") with
  | error e =>
      cases e
      simp only [save_one, PM_bind_apply, liftPy_apply, hnm, hlg] at hso
      cases hso
  | ok lg =>
    cases hsim : (whereEq c.store.exercises "name" nm).take 1 with
    | nil =>
        cases hin : pyGet ex "instructions" with
        | error e =>
            cases e
            simp only [save_one, PM_bind_apply, liftPy_apply, hnm, hlg, getStore_apply,
              hsim, pmFresh_apply, hin] at hso
            cases hso
        | ok instr =>
          cases htj : pyGet ex "target_joints" with
          | error e =>
              cases e
              simp only [save_one, PM_bind_apply, liftPy_apply, hnm, hlg, getStore_apply,
                hsim, pmFresh_apply, hin, htj] at hso
              cases hso
          | ok tj =>
            cases hde : pyGet ex "description" with
            | error e =>
                cases e
                simp only [save_one, PM_bind_apply, liftPy_apply, hnm, hlg, getStore_apply,
                  hsim, pmFresh_apply, hin, htj, hde] at hso
                cases hso
            | ok desc =>
              cases hvu : pyGetD ex "video_url" (Json.str "") with
              | error e =>
                  cases e
                  simp only [save_one, PM_bind_apply, liftPy_apply, hnm, hlg, getStore_apply,
                    hsim, pmFresh_apply, hin, htj, hde, hvu] at hso
                  cases hso
              | ok vu =>
                cases hvt : pyGetD ex "video_thumbnail" (Json.str "") with
                | error e =>
                    cases e
                    simp only [save_one, PM_bind_apply, liftPy_apply, hnm, hlg, getStore_apply,
                      hsim, pmFresh_apply, hin, htj, hde, hvu, hvt] at hso
                    cases hso
                | ok vt =>
                    simp only [save_one, PM_bind_apply, liftPy_apply, hnm, hlg, getStore_apply,
                      hsim, pmFresh_apply, hin, htj, hde, hvu, hvt, modifyStore_apply,
                      PM_pure_apply] at hso
                    injection hso with h1 h2
                    subst h2
                    constructor
                    · refine ⟨O.uuid c.ctr,
                        newExerciseFields (O.uuid c.ctr) nm desc tj instr vu vt now,
                        mem_setDoc_self _ _ _, nm, ?_, hrefl⟩
                      simp [newExerciseFields, lookupKey]
                    · exact map_fst_setDoc_nodup _ _ _ hnodup
    | cons je rest =>
        obtain ⟨j, edoc⟩ := je
        have hmem : (j, edoc) ∈ c.store.exercises ∧
            (match lookupKey edoc "name" with
             | some w => Json.beq w nm
             | none => false) = true := by
          have h1 : (j, edoc) ∈ (whereEq c.store.exercises "name" nm).take 1 := by
            rw [hsim]; exact List.mem_cons_self _ _
          have h2 := List.mem_of_mem_take h1
          exact List.mem_filter.mp h2
        obtain ⟨hmem1, hpred⟩ := hmem
        have hname : ∃ w, lookupKey edoc "name" = some w ∧ Json.beq w nm = true := by
          cases hlk : lookupKey edoc "name" with
          | none => rw [hlk] at hpred; cases hpred
          | some w => rw [hlk] at hpred; exact ⟨w, rfl, hpred⟩
        cases hcu : computeUpdates (Json.obj edoc) ex with
        | error e =>
            cases e
            simp only [save_one, PM_bind_apply, liftPy_apply, hnm, hlg, getStore_apply,
              hsim, hcu] at hso
            cases hso
        | ok updates =>
          by_cases hemp : updates.isEmpty = true
          · simp only [save_one, PM_bind_apply, liftPy_apply, hnm, hlg, getStore_apply,
              hsim, hcu, hemp, if_true, pmFresh_apply, modifyStore_apply,
              PM_pure_apply] at hso
            injection hso with h1 h2
            subst h2
            exact ⟨⟨j, edoc, hmem1, hname⟩, hnodup⟩
          · rw [Bool.not_eq_true] at hemp
            simp only [save_one, PM_bind_apply, liftPy_apply, hnm, hlg, getStore_apply,
              hsim, hcu, hemp, Bool.false_eq_true, if_false, pmFresh_apply,
              modifyStore_apply, PM_pure_apply] at hso
            injection hso with h1 h2
            subst h2
            obtain ⟨d0, hd0⟩ := lookupDoc_isSome_of_mem _ _ _ hmem1
            have hed : edoc = d0 := mem_lookupDoc_nodup _ _ _ _ hnodup hmem1 hd0
            subst hed
            constructor
            · refine ⟨j, updateKeys edoc updates,
                mem_updateDocFields_of_lookup _ _ _ _ hd0, ?_⟩
              obtain ⟨w, hw, hbw⟩ := hname
              refine ⟨w, ?_, hbw⟩
              rw [lookupKey_updateKeys_notMem]
              · exact hw
              · intro hmemk
                rcases computeUpdates_keys _ _ _ hcu _ hmemk with h | h <;>
                  exact absurd h (by decide)
            · rw [map_fst_updateDocFields]
              exact hnodup

/-- `save_one` on a store already holding a same-named record: dedup lookup
resolves the existing identifier, at most backfills it, and links to it. -/
theorem save_one_found_char (O : Oracles) (pid : Json) (now : Int)
    (kvs' : List (String × Json)) (c1 : PCtx) (nm : Json) (k : String)
    (kdoc : Doc) (rest : List (String × Doc))
    (hnm : lookupKey kvs' "name" = some nm)
    (hw : whereEq c1.store.exercises "name" nm = (k, kdoc) :: rest) :
    (computeUpdates (Json.obj kdoc) (Json.obj kvs') = Except.error () →
      save_one O pid now (Json.obj kvs') c1 = (Except.error (), c1)) ∧
    (∀ updates, computeUpdates (Json.obj kdoc) (Json.obj kvs') = Except.ok updates →
      updates.isEmpty = true →
      save_one O pid now (Json.obj kvs') c1 = (Except.ok (Json.obj kdoc),
        { c1 with
           ctr := c1.ctr + 1
           store := { c1.store with
             patient_exercises := setDoc c1.store.patient_exercises
               (O.uuid c1.ctr) (newLinkFields (O.uuid c1.ctr) pid k now) } })) ∧
    (∀ updates, computeUpdates (Json.obj kdoc) (Json.obj kvs') = Except.ok updates →
      updates.isEmpty = false →
      save_one O pid now (Json.obj kvs') c1 = (Except.ok (Json.obj (updateKeys kdoc updates)),
        { c1 with
           ctr := c1.ctr + 1
           store := { c1.store with
             exercises := updateDocFields c1.store.exercises k updates
             patient_exercises := setDoc c1.store.patient_exercises
               (O.uuid c1.ctr) (newLinkFields (O.uuid c1.ctr) pid k now) } })) := by
  refine ⟨?_, ?_, ?_⟩
  · intro hcu
    simp only [save_one, PM_bind_apply, liftPy_apply, pyGet, pyGetD_obj, hnm, getStore_apply,
      hw, List.take, hcu]
  · intro updates hcu hemp
    simp only [save_one, PM_bind_apply, liftPy_apply, pyGet, pyGetD_obj, hnm, getStore_apply,
      hw, List.take, hcu, hemp, if_true, pmFresh_apply, modifyStore_apply, PM_pure_apply]
  · intro updates hcu hemp
    simp only [save_one, PM_bind_apply, liftPy_apply, pyGet, pyGetD_obj, hnm, getStore_apply,
      hw, List.take, hcu, hemp, Bool.false_eq_true, if_false, pmFresh_apply,
      modifyStore_apply, PM_pure_apply]

/-- C4: dedup idempotence of the persistence writer.  A successful second
invocation with a same-named proposal creates no new ExerciseRecord (the set
of document identifiers is unchanged), resolves the existing record's
identifier, backfills at most its empty video fields, and links the patient
to the existing identifier. -/
theorem C4_dedup_idempotent (O : Oracles) (pid now pid2 now2 : _) (c : PCtx)
    (nmS : String) (kvs kvs' : List (String × Json))
    (rs1 : List Json) (c1 : PCtx) (rs2 : List Json) (c2 : PCtx)
    (hnm : lookupKey kvs "name" = some (Json.str nmS))
    (hnm' : lookupKey kvs' "name" = some (Json.str nmS))
    (hnodup : (c.store.exercises.map Prod.fst).Nodup)
    (hr1 : save_exercises O pid now [Json.obj kvs] c = (Except.ok rs1, c1))
    (hr2 : save_exercises O pid2 now2 [Json.obj kvs'] c1 = (Except.ok rs2, c2)) :
    c2.store.exercises.map Prod.fst = c1.store.exercises.map Prod.fst ∧
    ∃ k kdoc rest,
      whereEq c1.store.exercises "name" (Json.str nmS) = (k, kdoc) :: rest ∧
      (∃ updates, computeUpdates (Json.obj kdoc) (Json.obj kvs') = Except.ok updates ∧
        rs2 = [Json.obj (updateKeys kdoc updates)] ∧
        (∀ f v, (f, v) ∈ updates →
          (f = "video_url" ∨ f = "video_thumbnail") ∧
          (∃ w, pyGetD (Json.obj kdoc) f Json.null = Except.ok w ∧
            w.truthy = false)) ∧
        lookupDoc c2.store.exercises k =
          (lookupDoc c1.store.exercises k).map (fun dd => updateKeys dd updates) ∧
        (∀ id dd, lookupDoc c1.store.exercises id = some dd → id ≠ k →
          lookupDoc c2.store.exercises id = some dd)) ∧
      lookupDoc c2.store.patient_exercises (O.uuid c1.ctr) =
        some (newLinkFields (O.uuid c1.ctr) pid2 k now2) := by
  -- unfold the first one-element run to a single save_one
  rcases hso1 : save_one O pid now (Json.obj kvs) c with ⟨r1, c1'⟩
  cases r1 with
  | error e =>
      cases e
      simp only [save_exercises, PM_bind_apply, hso1] at hr1
      cases hr1
  | ok rd1 =>
    simp only [save_exercises, PM_bind_apply, hso1, PM_pure_apply] at hr1
    injection hr1 with hv1 hc1
    have hrd1 : rs1 = [rd1] := (Except.ok.inj hv1).symm
    subst hc1
    -- the first run leaves a record named nmS in the store
    obtain ⟨hex1, hnodup1⟩ := save_one_post O pid now (Json.obj kvs) c rd1 c1'
      (Json.str nmS) hso1 (by simp [pyGet, hnm]) (by simp [Json.beq]) hnodup
    obtain ⟨k0, dd, hmem0, w0, hlk0, hbw0⟩ := hex1
    have hne : (k0, dd) ∈ whereEq c1'.store.exercises "name" (Json.str nmS) := by
      apply List.mem_filter.mpr
      exact ⟨hmem0, by rw [hlk0]; exact hbw0⟩
    cases hw : whereEq c1'.store.exercises "name" (Json.str nmS) with
    | nil => rw [hw] at hne; cases hne
    | cons kk rest =>
      obtain ⟨k, kdoc⟩ := kk
      -- unfold the second run
      rcases hso2 : save_one O pid2 now2 (Json.obj kvs') c1' with ⟨r2, c2'⟩
      cases r2 with
      | error e =>
          cases e
          simp only [save_exercises, PM_bind_apply, hso2] at hr2
          cases hr2
      | ok rd2 =>
        simp only [save_exercises, PM_bind_apply, hso2, PM_pure_apply] at hr2
        injection hr2 with hv2 hc2
        have hrd2 : rs2 = [rd2] := (Except.ok.inj hv2).symm
        subst hc2
        obtain ⟨char_err, char_emp, char_upd⟩ :=
          save_one_found_char O pid2 now2 kvs' c1' (Json.str nmS) k kdoc rest hnm' hw
        cases hcu : computeUpdates (Json.obj kdoc) (Json.obj kvs') with
        | error e =>
            cases e
            rw [char_err hcu] at hso2
            cases hso2
        | ok updates =>
          by_cases hemp : updates.isEmpty = true
          · rw [char_emp updates hcu hemp] at hso2
            injection hso2 with hu2 hcc2
            have hrd2' : rd2 = Json.obj kdoc := (Except.ok.inj hu2).symm
            subst hcc2
            have hupd_nil : updates = [] := List.isEmpty_iff.mp hemp
            subst hupd_nil
            refine ⟨rfl, k, kdoc, rest, rfl, ⟨[], hcu, ?_, ?_, ?_, ?_⟩, ?_⟩
            · rw [hrd1] at *
              rw [hrd2, hrd2']
              rfl
            · intro f v hm
              cases hm
            · cases hld : lookupDoc c1'.store.exercises k <;> simp [hld, updateKeys]
            · intro id dd0 hdd0 hne0
              exact hdd0
            · exact lookupDoc_setDoc_self _ _ _
          · rw [Bool.not_eq_true] at hemp
            rw [char_upd updates hcu hemp] at hso2
            injection hso2 with hu2 hcc2
            have hrd2' : rd2 = Json.obj (updateKeys kdoc updates) := (Except.ok.inj hu2).symm
            subst hcc2
            refine ⟨?_, k, kdoc, rest, rfl, ⟨updates, hcu, ?_, ?_, ?_, ?_⟩, ?_⟩
            · exact map_fst_updateDocFields _ _ _
            · rw [hrd2, hrd2']
            · intro f v hm
              obtain ⟨h1, h2, _⟩ := computeUpdates_spec _ _ _ hcu f v hm
              exact ⟨h1, h2⟩
            · exact lookupDoc_updateDocFields_self _ _ _
            · intro id dd0 hdd0 hne0
              rw [lookupDoc_updateDocFields_ne _ _ _ _ hne0]
              exact hdd0
            · exact lookupDoc_setDoc_self _ _ _

def c4Kvs : List (String × Json) :=
  [("name", Json.str "A"), ("description", Json.str "d"),
   ("target_joints", Json.arr []), ("instructions", Json.arr []),
   ("video_url", Json.str ""), ("video_thumbnail", Json.str "")]

def c4Kvs2 : List (String × Json) :=
  [("name", Json.str "A"), ("description", Json.str "d2"),
   ("target_joints", Json.arr []), ("instructions", Json.arr []),
   ("video_url", Json.str "https://www.youtube.com/watch?v=x"),
   ("video_thumbnail", Json.str "t2")]

/-- C4, witness: insert-then-dedup at a concrete store: the second
invocation with the same name adds no exercise document, backfills the
empty video fields, and links to the first run's identifier. -/
theorem C4_witness :
    ∃ rs1 c1 rs2 c2,
      save_exercises zeroOracle (Json.str "p") 0 [Json.obj c4Kvs]
        ⟨emptyStore, 0, []⟩ = (Except.ok rs1, c1) ∧
      save_exercises zeroOracle (Json.str "p") 1 [Json.obj c4Kvs2] c1 =
        (Except.ok rs2, c2) ∧
      (c2.store.exercises.map Prod.fst = c1.store.exercises.map Prod.fst ∧
       ∃ k kdoc rest,
        whereEq c1.store.exercises "name" (Json.str "A") = (k, kdoc) :: rest ∧
        (∃ updates, computeUpdates (Json.obj kdoc) (Json.obj c4Kvs2) = Except.ok updates ∧
          rs2 = [Json.obj (updateKeys kdoc updates)] ∧
          (∀ f v, (f, v) ∈ updates →
            (f = "video_url" ∨ f = "video_thumbnail") ∧
            (∃ w, pyGetD (Json.obj kdoc) f Json.null = Except.ok w ∧
              w.truthy = false)) ∧
          lookupDoc c2.store.exercises k =
            (lookupDoc c1.store.exercises k).map (fun dd => updateKeys dd updates) ∧
          (∀ id dd, lookupDoc c1.store.exercises id = some dd → id ≠ k →
            lookupDoc c2.store.exercises id = some dd)) ∧
        lookupDoc c2.store.patient_exercises (zeroOracle.uuid c1.ctr) =
          some (newLinkFields (zeroOracle.uuid c1.ctr) (Json.str "p") k 1)) :=
  ⟨_, _, _, _, rfl, rfl,
    C4_dedup_idempotent zeroOracle (Json.str "p") 0 (Json.str "p") 1
      ⟨emptyStore, 0, []⟩ "A" c4Kvs c4Kvs2 _ _ _ _ rfl rfl (by decide) rfl rfl⟩

/-! ### Trace and state lemmas for the orchestrator claims -/

/-- `save_one` makes no network call: the trace is untouched. -/
theorem save_one_trace (O : Oracles) (pid : Json) (now : Int) (ex : Json)
    (c : PCtx) : ((save_one O pid now ex c).2).trace = c.trace := by
  cases hnm : pyGet ex "name" with
  | error e =>
      cases e
      simp only [save_one, PM_bind_apply, liftPy_apply, hnm]
  | ok nm =>
    cases hlg : pyGetD ex "video_url" (Json.str "None") with
    | error e =>
        cases e
        simp only [save_one, PM_bind_apply, liftPy_apply, hnm, hlg]
    | ok lg =>
      cases hsim : (whereEq c.store.exercises "name" nm).take 1 with
      | nil =>
          cases hin : pyGet ex "instructions" with
          | error e =>
              cases e
              simp only [save_one, PM_bind_apply, liftPy_apply, hnm, hlg, getStore_apply,
                hsim, pmFresh_apply, hin]
          | ok instr =>
            cases htj : pyGet ex "target_joints" with
            | error e =>
                cases e
                simp only [save_one, PM_bind_apply, liftPy_apply, hnm, hlg, getStore_apply,
                  hsim, pmFresh_apply, hin, htj]
            | ok tj =>
              cases hde : pyGet ex "description" with
              | error e =>
                  cases e
                  simp only [save_one, PM_bind_apply, liftPy_apply, hnm, hlg, getStore_apply,
                    hsim, pmFresh_apply, hin, htj, hde]
              | ok desc =>
                cases hvu : pyGetD ex "video_url" (Json.str "") with
                | error e =>
                    cases e
                    simp only [save_one, PM_bind_apply, liftPy_apply, hnm, hlg,
                      getStore_apply, hsim, pmFresh_apply, hin, htj, hde, hvu]
                | ok vu =>
                  cases hvt : pyGetD ex "video_thumbnail" (Json.str "") with
                  | error e =>
                      cases e
                      simp only [save_one, PM_bind_apply, liftPy_apply, hnm, hlg,
                        getStore_apply, hsim, pmFresh_apply, hin, htj, hde, hvu, hvt]
                  | ok vt =>
                      simp only [save_one, PM_bind_apply, liftPy_apply, hnm, hlg,
                        getStore_apply, hsim, pmFresh_apply, hin, htj, hde, hvu, hvt,
                        modifyStore_apply, PM_pure_apply]
      | cons je rest =>
          obtain ⟨j, edoc⟩ := je
          cases hcu : computeUpdates (Json.obj edoc) ex with
          | error e =>
              cases e
              simp only [save_one, PM_bind_apply, liftPy_apply, hnm, hlg, getStore_apply,
                hsim, hcu]
          | ok updates =>
            by_cases hemp : updates.isEmpty = true
            · simp only [save_one, PM_bind_apply, liftPy_apply, hnm, hlg, getStore_apply,
                hsim, hcu, hemp, if_true, pmFresh_apply, modifyStore_apply, PM_pure_apply]
            · rw [Bool.not_eq_true] at hemp
              simp only [save_one, PM_bind_apply, liftPy_apply, hnm, hlg, getStore_apply,
                hsim, hcu, hemp, Bool.false_eq_true, if_false, pmFresh_apply,
                modifyStore_apply, PM_pure_apply]

/-- `save_exercises` makes no network call. -/
theorem save_exercises_trace (O : Oracles) (pid : Json) (now : Int)
    (exs : List Json) : ∀ c : PCtx,
    ((save_exercises O pid now exs c).2).trace = c.trace := by
  induction exs with
  | nil => intro c; simp only [save_exercises, PM_pure_apply]
  | cons e rest ih =>
      intro c
      have h1 := save_one_trace O pid now e c
      rcases hso : save_one O pid now e c with ⟨r1, c1⟩
      simp only [hso] at h1
      cases r1 with
      | error e1 =>
          cases e1
          simp only [save_exercises, PM_bind_apply, hso]
          exact h1
      | ok a =>
          have h2 := ih c1
          rcases hrest : save_exercises O pid now rest c1 with ⟨r2, c2⟩
          simp only [hrest] at h2
          cases r2 with
          | error e2 =>
              cases e2
              simp only [save_exercises, PM_bind_apply, hso, hrest]
              exact h2.trans h1
          | ok ds =>
              simp only [save_exercises, PM_bind_apply, hso, hrest, PM_pure_apply]
              exact h2.trans h1

theorem probesOf_filter_isGen (url : Json) :
    (probesOf url).filter Call.isGen = [] := by
  cases url with
  | str u =>
      by_cases hy : (subStr "youtube.com" u || subStr "youtu.be" u) = true
      · cases hv : extractVideoId u with
        | some vid =>
            by_cases hvv : vid = ""
            · simp [probesOf, hy, hv, hvv]
            · simp [probesOf, hy, hv, hvv, Call.isGen, List.filter]
        | none => simp [probesOf, hy, hv]
      · rw [Bool.not_eq_true] at hy
        simp [probesOf, hy]
  | null => simp [probesOf]
  | bool b => simp [probesOf]
  | num n => simp [probesOf]
  | arr xs => simp [probesOf]
  | obj kvs => simp [probesOf]

/-- Video enrichment of one proposal only appends search and probe calls to
the trace and leaves the store and uuid counter unchanged. -/
theorem enhance_one_ctx (O : Oracles) (ex : Json) (c : PCtx) :
    ∃ extra, (enhance_one O ex c).2 = { c with trace := c.trace ++ extra } ∧
      extra.filter Call.isGen = [] := by
  cases ex with
  | null => exact ⟨[], by simp [enhance_one, PM_bind_apply, liftPy_apply, pyGet, pyThrow], rfl⟩
  | bool b => exact ⟨[], by simp [enhance_one, PM_bind_apply, liftPy_apply, pyGet, pyThrow], rfl⟩
  | num n => exact ⟨[], by simp [enhance_one, PM_bind_apply, liftPy_apply, pyGet, pyThrow], rfl⟩
  | str s => exact ⟨[], by simp [enhance_one, PM_bind_apply, liftPy_apply, pyGet, pyThrow], rfl⟩
  | arr xs => exact ⟨[], by simp [enhance_one, PM_bind_apply, liftPy_apply, pyGet, pyThrow], rfl⟩
  | obj kvs =>
    cases hnm : lookupKey kvs "name" with
    | none =>
        exact ⟨[], by simp [enhance_one, PM_bind_apply, liftPy_apply, pyGet, hnm, pyThrow], rfl⟩
    | some nm =>
      cases hv1 : search_youtube_video_pure
          (O.search ((pyStr nm ++ " physical therapy exercise") ++ " youtube") 1) with
      | none =>
          refine ⟨[Call.videoSearch ((pyStr nm ++ " physical therapy exercise") ++ " youtube") 1],
            ?_, rfl⟩
          simp only [enhance_one, search_youtube_video, PM_bind_apply, liftPy_apply, pyGet,
            hnm, emit_apply, PM_pure_apply, hv1, pySetItem]
      | some vd =>
        obtain ⟨t, u, th, rfl, b1, b2, hb1, hb2, hyt⟩ := search_pure_shape _ _ hv1
        cases hb : validate_pure O u with
        | true =>
            refine ⟨[Call.videoSearch ((pyStr nm ++ " physical therapy exercise") ++ " youtube") 1]
                ++ probesOf u, ?_, ?_⟩
            · simp only [enhance_one, search_youtube_video, PM_bind_apply, liftPy_apply,
                pyGet, hnm, emit_apply, PM_pure_apply, hv1, pySetItem, pyGetD, lookupKey,
                lookupKey_set2_url, validate_video_url_run, hb]
              simp only [hb, String.reduceEq, reduceIte, Bool.not_true, Bool.false_eq_true,
                if_false, PM_pure_apply]
              simp [List.append_assoc]
            · simp [List.filter_append, probesOf_filter_isGen, Call.isGen, List.filter]
        | false =>
          cases hv2 : search_youtube_video_pure
              (O.search ((pyStr nm ++ " knee rehabilitation exercise demonstration") ++ " youtube") 5) with
          | none =>
              refine ⟨[Call.videoSearch ((pyStr nm ++ " physical therapy exercise") ++ " youtube") 1]
                  ++ probesOf u ++
                  [Call.videoSearch ((pyStr nm ++ " knee rehabilitation exercise demonstration") ++ " youtube") 5],
                ?_, ?_⟩
              · simp only [enhance_one, search_youtube_video, PM_bind_apply, liftPy_apply,
                  pyGet, hnm, emit_apply, PM_pure_apply, hv1, hv2, pySetItem, pyGetD,
                  lookupKey, lookupKey_set2_url, validate_video_url_run, hb]
                simp only [hb, String.reduceEq, reduceIte, Bool.not_false, if_true,
                  PM_bind_apply, emit_apply, PM_pure_apply, liftPy_apply, hv2]
                simp [List.append_assoc]
              · simp [List.filter_append, probesOf_filter_isGen, Call.isGen, List.filter]
          | some avd =>
              obtain ⟨t2, u2, th2, rfl, b21, b22, hb21, hb22, hyt2⟩ :=
                search_pure_shape _ _ hv2
              refine ⟨[Call.videoSearch ((pyStr nm ++ " physical therapy exercise") ++ " youtube") 1]
                  ++ probesOf u ++
                  [Call.videoSearch ((pyStr nm ++ " knee rehabilitation exercise demonstration") ++ " youtube") 5]
                  ++ probesOf u2,
                ?_, ?_⟩
              · simp only [enhance_one, search_youtube_video, PM_bind_apply, liftPy_apply,
                  pyGet, hnm, emit_apply, PM_pure_apply, hv1, hv2, pySetItem, pyGetD,
                  lookupKey, lookupKey_set2_url, validate_video_url_run, hb]
                simp only [hb, String.reduceEq, reduceIte, Bool.not_false, if_true,
                  PM_bind_apply, emit_apply, PM_pure_apply, liftPy_apply, hv2, pySetItem,
                  pyGetD, lookupKey, lookupKey_set2_url, validate_video_url_run]
                simp [List.append_assoc]
              · simp [List.filter_append, probesOf_filter_isGen, Call.isGen, List.filter]

theorem enhance_list_ctx (O : Oracles) (exs : List Json) : ∀ c : PCtx,
    ∃ extra, (enhance_list O exs c).2 = { c with trace := c.trace ++ extra } ∧
      extra.filter Call.isGen = [] := by
  induction exs with
  | nil =>
      intro c
      exact ⟨[], by simp [enhance_list, PM_pure_apply], rfl⟩
  | cons e rest ih =>
      intro c
      obtain ⟨x1, hx1, hg1⟩ := enhance_one_ctx O e c
      rcases hso : enhance_one O e c with ⟨r1, c1⟩
      simp only [hso] at hx1
      subst hx1
      cases r1 with
      | error e1 =>
          cases e1
          refine ⟨x1, ?_, hg1⟩
          simp only [enhance_list, PM_bind_apply, hso]
      | ok a =>
          obtain ⟨x2, hx2, hg2⟩ := ih { c with trace := c.trace ++ x1 }
          rcases hrest : enhance_list O rest { c with trace := c.trace ++ x1 } with ⟨r2, c2⟩
          simp only [hrest] at hx2
          subst hx2
          cases r2 with
          | error e2 =>
              cases e2
              refine ⟨x1 ++ x2, ?_, ?_⟩
              · simp only [enhance_list, PM_bind_apply, hso, hrest]
                simp [List.append_assoc]
              · simp [List.filter_append, hg1, hg2]
          | ok ds =>
              refine ⟨x1 ++ x2, ?_, ?_⟩
              · simp only [enhance_list, PM_bind_apply, hso, hrest, PM_pure_apply]
                simp [List.append_assoc]
              · simp [List.filter_append, hg1, hg2]

theorem enhance_ctx (O : Oracles) (exercises : Json) (c : PCtx) :
    ∃ extra, (enhance_exercises_with_videos O exercises c).2 =
      { c with trace := c.trace ++ extra } ∧ extra.filter Call.isGen = [] := by
  cases hit : pyIter exercises with
  | error e =>
      cases e
      refine ⟨[], ?_, rfl⟩
      simp [enhance_exercises_with_videos, PM_bind_apply, liftPy_apply, hit]
  | ok xs =>
      obtain ⟨extra, hx, hg⟩ := enhance_list_ctx O xs c
      refine ⟨extra, ?_, hg⟩
      simp only [enhance_exercises_with_videos, PM_bind_apply, liftPy_apply, hit]
      exact hx

/-- The cache-hit validation loop only appends probe calls. -/
theorem cache_probe_loop_ctx (O : Oracles) (l : List Json) : ∀ c : PCtx,
    ∃ extra, (cache_probe_loop O l c).2 = { c with trace := c.trace ++ extra } ∧
      extra.filter Call.isGen = [] ∧ extra.filter Call.isSearch = [] := by
  induction l with
  | nil =>
      intro c
      exact ⟨[], by simp [cache_probe_loop, PM_pure_apply], rfl, rfl⟩
  | cons ex rest ih =>
      intro c
      cases hvu : pyGetD ex "video_url" (Json.str "") with
      | error e =>
          cases e
          refine ⟨[], ?_, rfl, rfl⟩
          simp [cache_probe_loop, PM_bind_apply, liftPy_apply, hvu]
      | ok vu =>
        by_cases htr : vu.truthy = true
        · cases hnm : pyGet ex "name" with
          | error e =>
              cases e
              refine ⟨[], ?_, rfl, rfl⟩
              simp [cache_probe_loop, PM_bind_apply, liftPy_apply, hvu, htr, hnm]
          | ok nm =>
              obtain ⟨extra, hx, hg, hs⟩ := ih { c with trace := c.trace ++ probesOf vu }
              rcases hrest : cache_probe_loop O rest { c with trace := c.trace ++ probesOf vu }
                with ⟨r2, c2⟩
              simp only [hrest] at hx
              subst hx
              refine ⟨probesOf vu ++ extra, ?_, ?_, ?_⟩
              · simp only [cache_probe_loop, PM_bind_apply, liftPy_apply, hvu, htr, if_true,
                  hnm, validate_video_url_run, PM_pure_apply, hrest]
                simp [List.append_assoc]
              · simp [List.filter_append, probesOf_filter_isGen, hg]
              · simp [List.filter_append, probesOf_filter_isSearch, hs]
        · rw [Bool.not_eq_true] at htr
          obtain ⟨extra, hx, hg, hs⟩ := ih c
          rcases hrest : cache_probe_loop O rest c with ⟨r2, c2⟩
          simp only [hrest] at hx
          subst hx
          refine ⟨extra, ?_, hg, hs⟩
          simp only [cache_probe_loop, PM_bind_apply, liftPy_apply, hvu, htr,
            Bool.false_eq_true, if_false, hrest]

/-- The provider wrappers: one generation call is recorded; the response
handling is `claude_parse_response` / `openai_parse_response`. -/
theorem gen_claude_run (O : Oracles) (pdata : Json) (c : PCtx) (p : String)
    (hbp : build_prompt pdata = Except.ok p) :
    generate_exercises_with_claude O pdata c =
      (claude_parse_response O.claudeResp,
       { c with trace := c.trace ++ [Call.genClaude p] }) := by
  simp only [generate_exercises_with_claude, PM_bind_apply, liftPy_apply, hbp, emit_apply]

theorem gen_openai_run (O : Oracles) (pdata : Json) (c : PCtx) (p : String)
    (hbp : build_prompt pdata = Except.ok p) :
    generate_exercises_with_openai O pdata c =
      (openai_parse_response O.openaiResp,
       { c with trace := c.trace ++ [Call.genOpenai p] }) := by
  simp only [generate_exercises_with_openai, PM_bind_apply, liftPy_apply, hbp, emit_apply]

/-- C10: provider routing.  Any `llm_provider` value other than the exact
string "openai" (including a missing field, whose default is "claude", or an
arbitrary unrecognized value) routes generation to Claude; no 400 response
is produced for an unrecognized provider tag. -/
theorem C10_provider_routing (O : Oracles) (st : Store)
    (rkvs : List (String × Json)) (pid prov : Json) (keys : ApiKeys)
    (exl : List Json) (pdata : Json) (prompt : String) (now : Int)
    (hpid : lookupKey rkvs "patient_id" = some pid)
    (hprov : (lookupKey rkvs "llm_provider").getD (Json.str "claude") = prov)
    (hne : Json.beq prov (Json.str "openai") = false)
    (hkeys : get_api_keys O = Except.ok keys)
    (hex : check_existing_exercises st pid = Except.ok exl)
    (hlen : exl.length < 3)
    (hpd : get_patient_data st pid = Except.ok (some pdata))
    (hbp : build_prompt pdata = Except.ok prompt) :
    ((generate_exercises O st (some (Json.obj rkvs)) now).2.trace).filter Call.isGen =
      [Call.genClaude prompt] ∧
    (generate_exercises O st (some (Json.obj rkvs)) now).1.status ≠ 400 := by
  cases rkvs with
  | nil => simp [lookupKey] at hpid
  | cons p l =>
    simp only [generate_exercises, pipeline_body, PM_bind_apply, liftPy_apply,
      getStore_apply, pyInStr, pyGet, pyGetD_obj, hpid, hprov, hkeys, hex, hpd,
      Json.truthy, List.isEmpty_cons, Bool.not_false, Bool.not_true, Option.isSome_some,
      if_true, Bool.false_eq_true, if_false, hne]
    rw [if_neg (by omega : ¬ exl.length ≥ 3)]
    simp only [PM_bind_apply, liftPy_apply, hne, Bool.false_eq_true, if_false]
    rw [gen_claude_run _ _ _ _ hbp]
    cases hcp : claude_parse_response O.claudeResp with
    | error e =>
        cases e
        simp [hcp, Call.isGen, List.filter, errOut]
    | ok exjson =>
        simp only [hcp]
        obtain ⟨extra, henctx, hgfree⟩ :=
          enhance_ctx O exjson ⟨st, 0, [] ++ [Call.genClaude prompt]⟩
        rcases henh : enhance_exercises_with_videos O exjson
            ⟨st, 0, [] ++ [Call.genClaude prompt]⟩ with ⟨r2, c2⟩
        simp only [henh] at henctx
        subst henctx
        cases r2 with
        | error e2 =>
            cases e2
            simp [List.filter_append, hgfree, Call.isGen, List.filter, errOut]
        | ok enh =>
            have hst := save_exercises_trace O pid now enh
              ⟨st, 0, ([] ++ [Call.genClaude prompt]) ++ extra⟩
            rcases hsv : save_exercises O pid now enh
                ⟨st, 0, ([] ++ [Call.genClaude prompt]) ++ extra⟩ with ⟨r3, c3⟩
            simp only [hsv] at hst
            cases r3 with
            | error e3 =>
                cases e3
                simp only [hsv, PM_pure_apply]
                refine ⟨?_, by simp [errOut]⟩
                rw [hst]
                simp [List.filter_append, hgfree, Call.isGen, List.filter]
            | ok saved =>
                simp only [hsv, PM_pure_apply]
                refine ⟨?_, by simp [successOut]⟩
                rw [hst]
                simp [List.filter_append, hgfree, Call.isGen, List.filter]

def c10Store : Store :=
  { emptyStore with
    patients := [("p1", [("name", Json.str "Al")])]
    pain_points := [("pp",
      [("patient_id", Json.str "p1"), ("description", Json.str "knee"),
       ("severity", Json.num 5)])] }

def c10Req : List (String × Json) :=
  [("patient_id", Json.str "p1"), ("llm_provider", Json.str "gpt-7")]

/-- C10, witness: the unrecognized tag "gpt-7" routes to Claude and the
response is not a 400. -/
theorem C10_witness :
    ∃ pdata prompt,
      get_patient_data c10Store (Json.str "p1") = Except.ok (some pdata) ∧
      build_prompt pdata = Except.ok prompt ∧
      check_existing_exercises c10Store (Json.str "p1") = Except.ok [] ∧
      ((generate_exercises zeroOracle c10Store (some (Json.obj c10Req)) 0).2.trace).filter
        Call.isGen = [Call.genClaude prompt] ∧
      (generate_exercises zeroOracle c10Store (some (Json.obj c10Req)) 0).1.status ≠ 400 := by
  refine ⟨_, _, rfl, rfl, rfl, ?_, ?_⟩
  · exact (C10_provider_routing zeroOracle c10Store c10Req (Json.str "p1")
      (Json.str "gpt-7") ⟨"k", "k", "k", "k"⟩ [] _ _ 0 rfl rfl (by decide) rfl rfl
      (by decide) rfl rfl).1
  · exact (C10_provider_routing zeroOracle c10Store c10Req (Json.str "p1")
      (Json.str "gpt-7") ⟨"k", "k", "k", "k"⟩ [] _ _ 0 rfl rfl (by decide) rfl rfl
      (by decide) rfl rfl).2

def c7Tdoc (n : String) : Doc :=
  [("name", Json.str n), ("is_template", Json.bool true),
   ("video_url", Json.str ""), ("video_thumbnail", Json.str "")]

/-- A store with no patient document for "ghost", but an orphan pain point
referencing it and three template exercises. -/
def c7Store : Store :=
  { emptyStore with
    pain_points := [("pp",
      [("patient_id", Json.str "ghost"), ("description", Json.str "x"),
       ("severity", Json.num 5)])]
    exercises := [("t1", c7Tdoc "T1"), ("t2", c7Tdoc "T2"), ("t3", c7Tdoc "T3")] }

/-- C7, counterexample: the patient id "ghost" resolves to no PatientProfile,
yet the pipeline returns 200 with the template records as a cache hit — the
cache check runs before patient existence is checked, so pain-point and
template records do matter. -/
theorem C7_counterexample :
    lookupDoc c7Store.patients "ghost" = none ∧
    (generate_exercises zeroOracle c7Store
        (some (Json.obj [("patient_id", Json.str "ghost")])) 0).1 =
      successOut [Json.obj (c7Tdoc "T1"), Json.obj (c7Tdoc "T2"),
        Json.obj (c7Tdoc "T3")] "database" ∧
    (successOut [Json.obj (c7Tdoc "T1"), Json.obj (c7Tdoc "T2"),
        Json.obj (c7Tdoc "T3")] "database").status = 200 := by
  exact ⟨rfl, by rfl, rfl⟩

/-- C7, amended: when the patient identifier does not resolve AND the cache
resolver returns fewer than 3 records, the pipeline responds 404
"Patient not found" and leaves the store untouched.  (The original
"regardless of what pain-point or template records exist" fails: those
records can produce a 200 cache response for a nonexistent patient.) -/
theorem C7_amended (O : Oracles) (st : Store) (rkvs : List (String × Json))
    (pid : Json) (keys : ApiKeys) (exl : List Json) (now : Int)
    (hpid : lookupKey rkvs "patient_id" = some pid)
    (hkeys : get_api_keys O = Except.ok keys)
    (hex : check_existing_exercises st pid = Except.ok exl)
    (hlen : exl.length < 3)
    (hpd : get_patient_data st pid = Except.ok none) :
    (generate_exercises O st (some (Json.obj rkvs)) now).1 =
      errOut 404 "Patient not found" ∧
    (generate_exercises O st (some (Json.obj rkvs)) now).2.store = st := by
  cases rkvs with
  | nil => simp [lookupKey] at hpid
  | cons p l =>
    simp only [generate_exercises, pipeline_body, PM_bind_apply, liftPy_apply,
      getStore_apply, pyInStr, pyGet, pyGetD_obj, hpid, hkeys, hex, hpd,
      Json.truthy, List.isEmpty_cons, Bool.not_false, Bool.not_true, Option.isSome_some,
      if_true, Bool.false_eq_true, if_false]
    rw [if_neg (by omega : ¬ exl.length ≥ 3)]
    simp only [PM_bind_apply, liftPy_apply, PM_pure_apply]
    exact ⟨trivial, trivial⟩

/-- C7, witness: the amended statement on the empty store. -/
theorem C7_witness :
    get_patient_data emptyStore (Json.str "ghost") = Except.ok none ∧
    check_existing_exercises emptyStore (Json.str "ghost") = Except.ok [] ∧
    (generate_exercises zeroOracle emptyStore
        (some (Json.obj [("patient_id", Json.str "ghost")])) 0).1 =
      errOut 404 "Patient not found" ∧
    (generate_exercises zeroOracle emptyStore
        (some (Json.obj [("patient_id", Json.str "ghost")])) 0).2.store = emptyStore := by
  refine ⟨rfl, rfl, ?_, ?_⟩
  · exact (C7_amended zeroOracle emptyStore [("patient_id", Json.str "ghost")]
      (Json.str "ghost") ⟨"k", "k", "k", "k"⟩ [] 0 rfl rfl rfl (by decide) rfl).1
  · exact (C7_amended zeroOracle emptyStore [("patient_id", Json.str "ghost")]
      (Json.str "ghost") ⟨"k", "k", "k", "k"⟩ [] 0 rfl rfl rfl (by decide) rfl).2

theorem gen_claude_err (O : Oracles) (pdata : Json) (c : PCtx)
    (hbp : build_prompt pdata = Except.error ()) :
    generate_exercises_with_claude O pdata c = (Except.error (), c) := by
  simp only [generate_exercises_with_claude, PM_bind_apply, liftPy_apply, hbp]

theorem gen_openai_err (O : Oracles) (pdata : Json) (c : PCtx)
    (hbp : build_prompt pdata = Except.error ()) :
    generate_exercises_with_openai O pdata c = (Except.error (), c) := by
  simp only [generate_exercises_with_openai, PM_bind_apply, liftPy_apply, hbp]

/-- C6: a non-success transport status, a body that is not valid JSON (in
particular an empty response body), or content that is not valid JSON all
make the generation provider raise (`GenerationError`); when the selected
provider raises, the pipeline answers 500 and the store is exactly as
before — no partial persistence. -/
theorem C6_generation_error_aborts :
    (∀ resp : HttpResp, resp.status ≠ 200 →
      claude_parse_response resp = Except.error ()) ∧
    (∀ resp : HttpResp, resp.status ≠ 200 →
      openai_parse_response resp = Except.error ()) ∧
    (∀ resp : HttpResp, jsonLoads resp.body = none →
      claude_parse_response resp = Except.error ()) ∧
    (∀ resp : HttpResp, jsonLoads resp.body = none →
      openai_parse_response resp = Except.error ()) ∧
    jsonLoads "" = none ∧
    (∀ (O : Oracles) (st : Store) (rkvs : List (String × Json))
       (pid prov : Json) (keys : ApiKeys) (exl : List Json) (pdata : Json)
       (now : Int),
      lookupKey rkvs "patient_id" = some pid →
      (lookupKey rkvs "llm_provider").getD (Json.str "claude") = prov →
      get_api_keys O = Except.ok keys →
      check_existing_exercises st pid = Except.ok exl →
      exl.length < 3 →
      get_patient_data st pid = Except.ok (some pdata) →
      (if Json.beq prov (Json.str "openai") then openai_parse_response O.openaiResp
       else claude_parse_response O.claudeResp) = Except.error () →
      (generate_exercises O st (some (Json.obj rkvs)) now).1 =
        errOut 500 "Error generating exercises" ∧
      (generate_exercises O st (some (Json.obj rkvs)) now).2.store = st) := by
  refine ⟨?_, ?_, ?_, ?_, rfl, ?_⟩
  · intro resp h
    simp only [claude_parse_response]
    rw [if_pos h]
    rfl
  · intro resp h
    simp only [openai_parse_response]
    rw [if_pos h]
    rfl
  · intro resp h
    simp only [claude_parse_response]
    by_cases hs : resp.status ≠ 200
    · rw [if_pos hs]; rfl
    · rw [if_neg hs, h]
      rfl
  · intro resp h
    simp only [openai_parse_response]
    by_cases hs : resp.status ≠ 200
    · rw [if_pos hs]; rfl
    · rw [if_neg hs, h]
      rfl
  · intro O st rkvs pid prov keys exl pdata now hpid hprov hkeys hex hlen hpd hfail
    cases rkvs with
    | nil => simp [lookupKey] at hpid
    | cons p l =>
      simp only [generate_exercises, pipeline_body, PM_bind_apply, liftPy_apply,
        getStore_apply, pyInStr, pyGet, pyGetD_obj, hpid, hprov, hkeys, hex, hpd,
        Json.truthy, List.isEmpty_cons, Bool.not_false, Bool.not_true, Option.isSome_some,
        if_true, Bool.false_eq_true, if_false]
      rw [if_neg (by omega : ¬ exl.length ≥ 3)]
      simp only [PM_bind_apply, liftPy_apply, PM_pure_apply]
      by_cases hop : Json.beq prov (Json.str "openai") = true
      · rw [if_pos hop] at hfail ⊢
        simp only [PM_bind_apply]
        cases hbp : build_prompt pdata with
        | error e =>
            cases e
            rw [gen_openai_err O pdata _ hbp]
            exact ⟨rfl, rfl⟩
        | ok pr =>
            rw [gen_openai_run O pdata _ pr hbp, hfail]
            exact ⟨rfl, rfl⟩
      · rw [Bool.not_eq_true] at hop
        rw [if_neg (by simp [hop])] at hfail ⊢
        simp only [PM_bind_apply]
        cases hbp : build_prompt pdata with
        | error e =>
            cases e
            rw [gen_claude_err O pdata _ hbp]
            exact ⟨rfl, rfl⟩
        | ok pr =>
            rw [gen_claude_run O pdata _ pr hbp, hfail]
            exact ⟨rfl, rfl⟩

/-- C6, witness: a 500 provider response aborts the run with a 500 and the
store unchanged. -/
theorem C6_witness :
    zeroOracle.claudeResp.status ≠ 200 ∧
    (generate_exercises zeroOracle c10Store
        (some (Json.obj [("patient_id", Json.str "p1")])) 0).1 =
      errOut 500 "Error generating exercises" ∧
    (generate_exercises zeroOracle c10Store
        (some (Json.obj [("patient_id", Json.str "p1")])) 0).2.store = c10Store := by
  refine ⟨by decide, ?_, ?_⟩
  · exact (C6_generation_error_aborts.2.2.2.2.2 zeroOracle c10Store
      [("patient_id", Json.str "p1")] (Json.str "p1") (Json.str "claude")
      ⟨"k", "k", "k", "k"⟩ [] _ 0 rfl rfl rfl rfl (by decide) rfl (by rfl)).1
  · exact (C6_generation_error_aborts.2.2.2.2.2 zeroOracle c10Store
      [("patient_id", Json.str "p1")] (Json.str "p1") (Json.str "claude")
      ⟨"k", "k", "k", "k"⟩ [] _ 0 rfl rfl rfl rfl (by decide) rfl (by rfl)).2

/-- C9: frame property of the cache hit.  Whenever the cache resolver
returns at least 3 records (the cache branch), the run performs no
document-store write and consumes no uuid: the store is exactly the input
store; the thumbnail backfill appears only in the in-memory response
records. -/
theorem C9_cache_hit_no_writes (O : Oracles) (st : Store)
    (rkvs : List (String × Json)) (pid : Json) (keys : ApiKeys)
    (exl : List Json) (now : Int)
    (hpid : lookupKey rkvs "patient_id" = some pid)
    (hkeys : get_api_keys O = Except.ok keys)
    (hex : check_existing_exercises st pid = Except.ok exl)
    (hlen3 : 3 ≤ exl.length) :
    (generate_exercises O st (some (Json.obj rkvs)) now).2.store = st ∧
    (generate_exercises O st (some (Json.obj rkvs)) now).2.ctr = 0 ∧
    ((generate_exercises O st (some (Json.obj rkvs)) now).1.status = 200 →
      ∃ bf, cache_thumb_backfill exl = Except.ok bf ∧
        (generate_exercises O st (some (Json.obj rkvs)) now).1 =
          successOut bf "database") := by
  cases rkvs with
  | nil => simp [lookupKey] at hpid
  | cons p l =>
    simp only [generate_exercises, pipeline_body, PM_bind_apply, liftPy_apply,
      getStore_apply, pyInStr, pyGet, pyGetD_obj, hpid, hkeys, hex,
      Json.truthy, List.isEmpty_cons, Bool.not_false, Bool.not_true, Option.isSome_some,
      if_true, Bool.false_eq_true, if_false]
    rw [if_pos (hlen3 : exl.length ≥ 3)]
    obtain ⟨extra, hctx, _, _⟩ := cache_probe_loop_ctx O exl ⟨st, 0, []⟩
    rcases hloop : cache_probe_loop O exl ⟨st, 0, []⟩ with ⟨rl, cl⟩
    simp only [hloop] at hctx
    subst hctx
    cases rl with
    | error e =>
        cases e
        simp only [hloop, PM_bind_apply, liftPy_apply]
        refine ⟨by first | rfl | trivial, by first | rfl | trivial, fun hst => ?_⟩
        simp [errOut] at hst
    | ok u =>
        simp only [hloop, PM_bind_apply, liftPy_apply]
        cases hbf0 : cache_thumb_backfill exl with
        | error e =>
            cases e
            refine ⟨by first | rfl | trivial, by first | rfl | trivial, fun hst => ?_⟩
            simp [errOut] at hst
        | ok bf0 =>
            exact ⟨by first | rfl | trivial, by first | rfl | trivial,
              fun hst => ⟨bf0, rfl, by first | rfl | trivial⟩⟩

/-- C9, witness: the concrete template-based cache hit leaves the store and
counter untouched. -/
theorem C9_witness :
    check_existing_exercises c7Store (Json.str "ghost") =
      Except.ok [Json.obj (c7Tdoc "T1"), Json.obj (c7Tdoc "T2"),
        Json.obj (c7Tdoc "T3")] ∧
    3 ≤ [Json.obj (c7Tdoc "T1"), Json.obj (c7Tdoc "T2"),
      Json.obj (c7Tdoc "T3")].length ∧
    (generate_exercises zeroOracle c7Store
        (some (Json.obj [("patient_id", Json.str "ghost")])) 0).2.store = c7Store ∧
    (generate_exercises zeroOracle c7Store
        (some (Json.obj [("patient_id", Json.str "ghost")])) 0).2.ctr = 0 := by
  refine ⟨rfl, by decide, ?_, ?_⟩
  · exact (C9_cache_hit_no_writes zeroOracle c7Store
      [("patient_id", Json.str "ghost")] (Json.str "ghost") ⟨"k", "k", "k", "k"⟩
      [Json.obj (c7Tdoc "T1"), Json.obj (c7Tdoc "T2"), Json.obj (c7Tdoc "T3")] 0
      rfl rfl rfl (by decide)).1
  · exact (C9_cache_hit_no_writes zeroOracle c7Store
      [("patient_id", Json.str "ghost")] (Json.str "ghost") ⟨"k", "k", "k", "k"⟩
      [Json.obj (c7Tdoc "T1"), Json.obj (c7Tdoc "T2"), Json.obj (c7Tdoc "T3")] 0
      rfl rfl rfl (by decide)).2.1

/-! ### C1: the cache-hit criterion -/

theorem genFree_of_filter (l : List Call) (h : l.filter Call.isGen = []) :
    genFree l = true := by
  induction l with
  | nil => rfl
  | cons x rest ih =>
      cases hg : Call.isGen x with
      | true => simp [List.filter_cons, hg] at h
      | false =>
          simp only [List.filter_cons, hg, Bool.false_eq_true, if_false] at h
          have hr := ih h
          simp only [genFree, List.all_cons, hg, Bool.not_false, Bool.true_and] at hr ⊢
          exact hr

theorem get_video_thumbnail_str (u : String) :
    ∃ t, get_video_thumbnail (Json.str u) = Except.ok t := by
  simp only [get_video_thumbnail]
  by_cases h1 : (subStr "youtube.com" u || subStr "youtu.be" u) = true
  · rw [if_pos h1]
    cases hv : extractVideoId u with
    | some vid =>
        by_cases h2 : vid = ""
        · exact ⟨"", by simp [h2]⟩
        · exact ⟨"https://img.youtube.com/vi/" ++ vid ++ "/hqdefault.jpg",
            by simp [h2]⟩
    | none => exact ⟨"", rfl⟩
  · rw [Bool.not_eq_true] at h1
    exact ⟨"", by simp only [h1, Bool.false_eq_true, if_false]⟩

/-- Under well-formed cache documents the probe loop never raises: it only
appends oEmbed probes to the trace. -/
theorem cache_probe_loop_ok (O : Oracles) (l : List Json) :
    (∀ j ∈ l, cacheDocOk j = true) → ∀ c : PCtx,
    ∃ extra, cache_probe_loop O l c =
        (Except.ok (), { c with trace := c.trace ++ extra }) ∧
      extra.filter Call.isGen = [] := by
  induction l with
  | nil =>
      intro _ c
      exact ⟨[], by simp [cache_probe_loop, PM_pure_apply], rfl⟩
  | cons ex rest ih =>
      intro hwf c
      have hx : cacheDocOk ex = true := hwf ex (List.mem_cons_self _ _)
      have hrest : ∀ j ∈ rest, cacheDocOk j = true :=
        fun j hj => hwf j (List.mem_cons_of_mem _ hj)
      cases ex with
      | obj kvs =>
          simp only [cacheDocOk, Bool.and_eq_true] at hx
          obtain ⟨hname, hvu⟩ := hx
          cases hvuk : lookupKey kvs "video_url" with
          | none =>
              obtain ⟨extra, hrec, hg⟩ := ih hrest c
              refine ⟨extra, ?_, hg⟩
              simp only [cache_probe_loop, PM_bind_apply, liftPy_apply, pyGetD_obj,
                hvuk, Option.getD_none, Json.truthy, bne_self_eq_false,
                Bool.false_eq_true, if_false, hrec]
          | some v =>
              rw [hvuk] at hvu
              cases v with
              | str u =>
                  by_cases htr : (Json.str u).truthy = true
                  · obtain ⟨nm, hnm⟩ := Option.isSome_iff_exists.mp hname
                    obtain ⟨extra, hrec, hg⟩ :=
                      ih hrest { c with trace := c.trace ++ probesOf (Json.str u) }
                    refine ⟨probesOf (Json.str u) ++ extra, ?_, ?_⟩
                    · simp only [cache_probe_loop, PM_bind_apply, liftPy_apply,
                        pyGetD_obj, hvuk, Option.getD_some, htr, if_true, pyGet,
                        hnm, validate_video_url_run, PM_pure_apply, hrec]
                      simp [List.append_assoc]
                    · simp [List.filter_append, probesOf_filter_isGen, hg]
                  · rw [Bool.not_eq_true] at htr
                    obtain ⟨extra, hrec, hg⟩ := ih hrest c
                    refine ⟨extra, ?_, hg⟩
                    simp only [cache_probe_loop, PM_bind_apply, liftPy_apply,
                      pyGetD_obj, hvuk, Option.getD_some, htr,
                      Bool.false_eq_true, if_false, hrec]
              | null => simp at hvu
              | bool b => simp at hvu
              | num n => simp at hvu
              | arr xs => simp at hvu
              | obj kvs2 => simp at hvu
      | null => simp [cacheDocOk] at hx
      | bool b => simp [cacheDocOk] at hx
      | num n => simp [cacheDocOk] at hx
      | str s => simp [cacheDocOk] at hx
      | arr xs => simp [cacheDocOk] at hx

/-- Under well-formed cache documents the in-memory thumbnail backfill never
raises. -/
theorem cache_thumb_backfill_ok (l : List Json) :
    (∀ j ∈ l, cacheDocOk j = true) →
    ∃ bf, cache_thumb_backfill l = Except.ok bf := by
  induction l with
  | nil => intro _; exact ⟨[], rfl⟩
  | cons ex rest ih =>
      intro hwf
      have hx : cacheDocOk ex = true := hwf ex (List.mem_cons_self _ _)
      obtain ⟨bf, hbf⟩ := ih fun j hj => hwf j (List.mem_cons_of_mem _ hj)
      cases ex with
      | obj kvs =>
          simp only [cacheDocOk, Bool.and_eq_true] at hx
          obtain ⟨hname, hvu⟩ := hx
          cases hvuk : lookupKey kvs "video_url" with
          | none =>
              refine ⟨Json.obj kvs :: bf, ?_⟩
              simp only [cache_thumb_backfill, pyGetD_obj, Py_bind_ok, hvuk,
                Option.getD_none, Json.truthy, Bool.and_false,
                Bool.false_eq_true, if_false, hbf]
              rfl
          | some v =>
              rw [hvuk] at hvu
              cases v with
              | str u =>
                  by_cases hc : (!((lookupKey kvs "video_thumbnail").getD
                      Json.null).truthy && (Json.str u).truthy) = true
                  · obtain ⟨t, ht⟩ := get_video_thumbnail_str u
                    refine ⟨Json.obj (setKey kvs "video_thumbnail" (Json.str t))
                      :: bf, ?_⟩
                    simp only [cache_thumb_backfill, pyGetD_obj, Py_bind_ok, hvuk,
                      Option.getD_some, hc, if_true, pyGet, ht, pySetItem, hbf]
                    rfl
                  · rw [Bool.not_eq_true] at hc
                    refine ⟨Json.obj kvs :: bf, ?_⟩
                    simp only [cache_thumb_backfill, pyGetD_obj, Py_bind_ok, hvuk,
                      Option.getD_some, hc, Bool.false_eq_true, if_false, hbf]
                    rfl
              | null => simp at hvu
              | bool b => simp at hvu
              | num n => simp at hvu
              | arr xs => simp at hvu
              | obj kvs2 => simp at hvu
      | null => simp [cacheDocOk] at hx
      | bool b => simp [cacheDocOk] at hx
      | num n => simp [cacheDocOk] at hx
      | str s => simp [cacheDocOk] at hx
      | arr xs => simp [cacheDocOk] at hx

/-- Well-formed links make the assignment-id pass succeed, collecting
exactly the stored `exercise_id` values. -/
theorem assignmentIds_wf (links : List (String × Doc)) :
    (∀ p ∈ links, linkWf p.2 = true) →
    assignmentIds links =
      Except.ok (links.filterMap fun p => lookupKey p.2 "exercise_id") := by
  induction links with
  | nil => intro _; rfl
  | cons p rest ih =>
      intro hwf
      have hp : linkWf p.2 = true := hwf p (List.mem_cons_self _ _)
      simp only [linkWf] at hp
      cases hk : lookupKey p.2 "exercise_id" with
      | none => rw [hk] at hp; simp at hp
      | some v =>
          rw [hk] at hp
          cases v with
          | str s =>
              simp only [assignmentIds, docGet, hk, Py_bind_ok,
                ih (fun q hq => hwf q (List.mem_cons_of_mem _ hq)),
                List.filterMap_cons, Option.some.injEq]
              rfl
          | null => simp at hp
          | bool b => simp at hp
          | num n => simp at hp
          | arr xs => simp at hp
          | obj kvs => simp at hp

/-- String ids make the resolution loop succeed; it keeps one record per
resolvable id, with multiplicity. -/
theorem resolveIds_ok (st : Store) (ids : List Json) :
    (∀ i ∈ ids, ∃ s, i = Json.str s) →
    ∃ res, resolveIds st ids = Except.ok res ∧
      res.length = (ids.filter (resolvable st)).length := by
  induction ids with
  | nil => intro _; exact ⟨[], rfl, rfl⟩
  | cons i rest ih =>
      intro hstr
      obtain ⟨s, hs⟩ := hstr i (List.mem_cons_self _ _)
      subst hs
      obtain ⟨acc, hacc, hlen⟩ := ih fun j hj => hstr j (List.mem_cons_of_mem _ hj)
      cases hd : lookupDoc st.exercises s with
      | some d =>
          refine ⟨Json.obj d :: acc, ?_, ?_⟩
          · simp only [resolveIds, Py_bind_ok, hacc, hd]
            rfl
          · simp [List.filter_cons, resolvable, hd, hlen]
      | none =>
          refine ⟨acc, ?_, ?_⟩
          · simp only [resolveIds, Py_bind_ok, hacc, hd]
            rfl
          · simp [List.filter_cons, resolvable, hd, hlen]

theorem dedupJson_sublist (l : List Json) : List.Sublist (dedupJson l) l := by
  induction l with
  | nil => exact List.Sublist.refl []
  | cons x rest ih =>
      exact List.Sublist.cons₂ x (List.Sublist.trans (List.filter_sublist _) ih)

theorem distinct_le_filter (st : Store) (ids : List Json) :
    ((dedupJson ids).filter (resolvable st)).length ≤
      (ids.filter (resolvable st)).length :=
  ((dedupJson_sublist ids).filter _).length_le

/-- At least 3 distinct resolved records force the resolver to return at
least 3 records. -/
theorem check_of_distinct (st : Store) (pid : Json) (exl : List Json)
    (hlinkwf : ∀ p ∈ whereEq st.patient_exercises "patient_id" pid,
      linkWf p.2 = true)
    (hex : check_existing_exercises st pid = Except.ok exl)
    (hd : 3 ≤ distinctResolvedCount st pid) :
    3 ≤ exl.length := by
  by_cases hl : whereEq st.patient_exercises "patient_id" pid = []
  · simp only [distinctResolvedCount, hl, List.filterMap_nil, dedupJson,
      List.filter_nil, List.length_nil] at hd
    omega
  · have hids := assignmentIds_wf _ hlinkwf
    have hstr : ∀ i ∈ (whereEq st.patient_exercises "patient_id" pid).filterMap
        (fun p => lookupKey p.2 "exercise_id"), ∃ s, i = Json.str s := by
      intro i hi
      obtain ⟨p, hp, hk⟩ := List.mem_filterMap.mp hi
      have hw := hlinkwf p hp
      simp only [linkWf] at hw
      rw [hk] at hw
      cases i with
      | str s => exact ⟨s, rfl⟩
      | null => simp at hw
      | bool b => simp at hw
      | num n => simp at hw
      | arr xs => simp at hw
      | obj kvs => simp at hw
    obtain ⟨res, hres, hlenres⟩ := resolveIds_ok st _ hstr
    have hle := distinct_le_filter st
      ((whereEq st.patient_exercises "patient_id" pid).filterMap
        fun p => lookupKey p.2 "exercise_id")
    simp only [distinctResolvedCount] at hd
    have hd3 : 3 ≤ res.length := by omega
    have hpos : (whereEq st.patient_exercises "patient_id" pid).length > 0 :=
      List.length_pos.mpr hl
    simp only [check_existing_exercises] at hex
    rw [if_pos hpos] at hex
    simp only [hids, Py_bind_ok, hres] at hex
    rw [if_pos hd3] at hex
    simp only [pure, Except.pure, Except.ok.injEq] at hex
    subst hex
    exact hd3

def c1Ex (nm : String) : Doc := [("name", Json.str nm), ("video_url", Json.str "")]

/-- Three links for patient "p", two of which point at the same record. -/
def c1Store : Store :=
  { emptyStore with
    exercises := [("e1", c1Ex "A"), ("e2", c1Ex "B")]
    patient_exercises :=
      [("l1", [("patient_id", Json.str "p"), ("exercise_id", Json.str "e1")]),
       ("l2", [("patient_id", Json.str "p"), ("exercise_id", Json.str "e1")]),
       ("l3", [("patient_id", Json.str "p"), ("exercise_id", Json.str "e2")])] }

/-- C1, counterexample: a patient whose three links resolve to only TWO
distinct ExerciseRecords still gets a cache hit — the code counts resolved
records per link, with multiplicity, so the claimed "if and only if the
count of distinct resolved ExerciseRecords is >= 3" fails. -/
theorem C1_counterexample :
    distinctResolvedCount c1Store (Json.str "p") = 2 ∧
    isCacheHit (generate_exercises zeroOracle c1Store
      (some (Json.obj [("patient_id", Json.str "p")])) 0).1 = true := by
  exact ⟨rfl, rfl⟩

/-- C1, amended: a cache hit is returned if and only if
`check_existing_exercises` returned at least 3 records — counted per link,
with multiplicity, and with the template fallback included — and on that
branch no generation-provider call is made.  The original claim's forward
direction survives: at least 3 DISTINCT resolved ExerciseRecords force a
gen-free cache hit (the converse is refuted by `C1_counterexample`). -/
theorem C1_amended (O : Oracles) (st : Store) (rkvs : List (String × Json))
    (pid : Json) (keys : ApiKeys) (exl : List Json) (now : Int)
    (hpid : lookupKey rkvs "patient_id" = some pid)
    (hkeys : get_api_keys O = Except.ok keys)
    (hex : check_existing_exercises st pid = Except.ok exl)
    (hwf : ∀ j ∈ exl, cacheDocOk j = true)
    (hlinkwf : ∀ p ∈ whereEq st.patient_exercises "patient_id" pid,
      linkWf p.2 = true) :
    (isCacheHit (generate_exercises O st (some (Json.obj rkvs)) now).1 = true ↔
      3 ≤ exl.length) ∧
    (3 ≤ exl.length →
      genFree (generate_exercises O st (some (Json.obj rkvs)) now).2.trace = true) ∧
    (3 ≤ distinctResolvedCount st pid →
      isCacheHit (generate_exercises O st (some (Json.obj rkvs)) now).1 = true ∧
      genFree (generate_exercises O st (some (Json.obj rkvs)) now).2.trace = true) := by
  cases rkvs with
  | nil => simp [lookupKey] at hpid
  | cons p0 l0 =>
    by_cases hlen : 3 ≤ exl.length
    · obtain ⟨extra, hloop, hg⟩ := cache_probe_loop_ok O exl hwf ⟨st, 0, []⟩
      obtain ⟨bf, hbf⟩ := cache_thumb_backfill_ok exl hwf
      have hrun : generate_exercises O st (some (Json.obj (p0 :: l0))) now =
          (successOut bf "database", ⟨st, 0, [] ++ extra⟩) := by
        simp only [generate_exercises, pipeline_body, PM_bind_apply, liftPy_apply,
          getStore_apply, pyInStr, pyGet, pyGetD_obj, hpid, hkeys, hex,
          Json.truthy, List.isEmpty_cons, Bool.not_false, Bool.not_true,
          Option.isSome_some, if_true, Bool.false_eq_true, if_false]
        rw [if_pos (hlen : exl.length ≥ 3)]
        simp only [hloop, PM_bind_apply, liftPy_apply, hbf, PM_pure_apply]
      rw [hrun]
      have hhit : isCacheHit (successOut bf "database") = true := by
        simp [isCacheHit, successOut, sourceOf, lookupKey, Json.beq]
        decide
      have hfree : genFree ([] ++ extra) = true := by
        simpa using genFree_of_filter extra hg
      exact ⟨⟨fun _ => hlen, fun _ => hhit⟩, fun _ => hfree, fun _ => ⟨hhit, hfree⟩⟩
    · have hmiss : isCacheHit
          (generate_exercises O st (some (Json.obj (p0 :: l0))) now).1 = false := by
        simp only [generate_exercises, pipeline_body, PM_bind_apply, liftPy_apply,
          getStore_apply, pyInStr, pyGet, pyGetD_obj, hpid, hkeys, hex,
          Json.truthy, List.isEmpty_cons, Bool.not_false, Bool.not_true,
          Option.isSome_some, if_true, Bool.false_eq_true, if_false]
        rw [if_neg (by omega : ¬ exl.length ≥ 3)]
        simp only [PM_bind_apply, liftPy_apply]
        cases hpd : get_patient_data st pid with
        | error e =>
            cases e
            simp [hpd, isCacheHit, errOut]
        | ok pd =>
          cases pd with
          | none => simp [hpd, isCacheHit, errOut, sourceOf]
          | some pdata =>
            simp only [hpd]
            by_cases hop : Json.beq ((lookupKey (p0 :: l0) "llm_provider").getD
                (Json.str "claude")) (Json.str "openai") = true
            · rw [if_pos hop]
              simp only [PM_bind_apply]
              cases hbp : build_prompt pdata with
              | error e =>
                  cases e
                  rw [gen_openai_err _ _ _ hbp]
                  simp [isCacheHit, errOut]
              | ok prompt =>
                rw [gen_openai_run _ _ _ _ hbp]
                cases hcp : openai_parse_response O.openaiResp with
                | error e =>
                    cases e
                    simp [hcp, isCacheHit, errOut]
                | ok exjson =>
                  simp only [hcp]
                  rcases henh : enhance_exercises_with_videos O exjson
                      ⟨st, 0, [] ++ [Call.genOpenai prompt]⟩ with ⟨r2, c2⟩
                  cases r2 with
                  | error e2 =>
                      cases e2
                      simp [henh, isCacheHit, errOut]
                  | ok enh =>
                    rcases hsv : save_exercises O pid now enh c2 with ⟨r3, c3⟩
                    cases r3 with
                    | error e3 =>
                        cases e3
                        simp [henh, hsv, isCacheHit, errOut]
                    | ok saved =>
                        simp [henh, hsv, isCacheHit, successOut, sourceOf,
                          lookupKey, Json.beq]
                        decide
            · rw [Bool.not_eq_true] at hop
              rw [if_neg (by simp [hop])]
              simp only [PM_bind_apply]
              cases hbp : build_prompt pdata with
              | error e =>
                  cases e
                  rw [gen_claude_err _ _ _ hbp]
                  simp [isCacheHit, errOut]
              | ok prompt =>
                rw [gen_claude_run _ _ _ _ hbp]
                cases hcp : claude_parse_response O.claudeResp with
                | error e =>
                    cases e
                    simp [hcp, isCacheHit, errOut]
                | ok exjson =>
                  simp only [hcp]
                  rcases henh : enhance_exercises_with_videos O exjson
                      ⟨st, 0, [] ++ [Call.genClaude prompt]⟩ with ⟨r2, c2⟩
                  cases r2 with
                  | error e2 =>
                      cases e2
                      simp [henh, isCacheHit, errOut]
                  | ok enh =>
                    rcases hsv : save_exercises O pid now enh c2 with ⟨r3, c3⟩
                    cases r3 with
                    | error e3 =>
                        cases e3
                        simp [henh, hsv, isCacheHit, errOut]
                    | ok saved =>
                        simp [henh, hsv, isCacheHit, successOut, sourceOf,
                          lookupKey, Json.beq]
                        decide
      refine ⟨⟨fun h => absurd (h.symm.trans hmiss) (by decide),
        fun h => absurd h hlen⟩, fun h => absurd h hlen,
        fun hd => absurd (check_of_distinct st pid exl hlinkwf hex hd) hlen⟩

/-- Three links for patient "p" resolving to three distinct records. -/
def c1Store3 : Store :=
  { emptyStore with
    exercises := [("e1", c1Ex "A"), ("e2", c1Ex "B"), ("e3", c1Ex "C")]
    patient_exercises :=
      [("l1", [("patient_id", Json.str "p"), ("exercise_id", Json.str "e1")]),
       ("l2", [("patient_id", Json.str "p"), ("exercise_id", Json.str "e2")]),
       ("l3", [("patient_id", Json.str "p"), ("exercise_id", Json.str "e3")])] }

/-- C1, witness: three distinct resolved records give a gen-free cache
hit. -/
theorem C1_witness :
    3 ≤ distinctResolvedCount c1Store3 (Json.str "p") ∧
    (isCacheHit (generate_exercises zeroOracle c1Store3
        (some (Json.obj [("patient_id", Json.str "p")])) 0).1 = true ∧
      genFree (generate_exercises zeroOracle c1Store3
        (some (Json.obj [("patient_id", Json.str "p")])) 0).2.trace = true) := by
  refine ⟨by decide, ?_⟩
  exact (C1_amended zeroOracle c1Store3 [("patient_id", Json.str "p")]
    (Json.str "p") ⟨"k", "k", "k", "k"⟩
    [Json.obj (c1Ex "A"), Json.obj (c1Ex "B"), Json.obj (c1Ex "C")] 0
    rfl rfl rfl (by intro j hj; fin_cases hj <;> rfl)
    (by intro p hp; fin_cases hp <;> rfl)).2.2 (by decide)

/-! ### C8: persisted video urls -/

/-- The spec's "recognized video-hosting URL pattern": the value is a string
that is empty or mentions youtube.com / youtu.be. -/
def okUrl : Json → Bool
  | .str u => (u == "") || (subStr "youtube.com" u || subStr "youtu.be" u)
  | _ => false

/-- A document's `video_url`, when present, is empty or recognized. -/
def vuOk (d : Doc) : Bool :=
  match lookupKey d "video_url" with
  | none => true
  | some v => okUrl v

def exVuOk (j : Json) : Bool :=
  match j with
  | .obj kvs => vuOk kvs
  | _ => true

def storeVuOk (st : Store) : Bool :=
  st.exercises.all fun p => vuOk p.2

/-- Modelling assumption about the video-search provider: the `video_url` of
a returned hit is a JSON string (Python `in` on a non-string "link" would
check list membership instead of substring matching). -/
def searchOk (O : Oracles) : Prop :=
  ∀ q n v, search_youtube_video_pure (O.search q n) = some v →
    ∀ kvs, v = Json.obj kvs →
      ∀ u, lookupKey kvs "video_url" = some u → ∃ s, u = Json.str s

/-- Every accepted search hit carries a recognized string url. -/
theorem search_hit_okUrl (O : Oracles) (hor : searchOk O) (q : String) (n : Nat)
    (v : Json) (h : search_youtube_video_pure (O.search q n) = some v) :
    ∃ t s th,
      v = Json.obj [("title", t), ("video_url", Json.str s), ("thumbnail", th)] ∧
      okUrl (Json.str s) = true := by
  obtain ⟨t, u, th, hv, b1, b2, h1, h2, hb⟩ := search_pure_shape _ v h
  obtain ⟨s, hs⟩ := hor q n v h _ hv u (by simp [lookupKey])
  subst hs
  refine ⟨t, s, th, hv, ?_⟩
  simp only [pyInStr, Except.ok.injEq] at h1 h2
  simp only [okUrl, h1, h2, hb, Bool.or_true]

theorem computeUpdates_okUrl (stored ex : Json) (updates : List (String × Json))
    (h : computeUpdates stored ex = Except.ok updates) (hex : exVuOk ex = true) :
    ∀ v, ("video_url", v) ∈ updates → okUrl v = true := by
  intro v hv
  obtain ⟨_, _, hgd, htr⟩ := computeUpdates_spec stored ex updates h "video_url" v hv
  cases ex with
  | obj kvs =>
      rw [pyGetD_obj] at hgd
      have hveq := Except.ok.inj hgd
      simp only [exVuOk, vuOk] at hex
      cases hlk : lookupKey kvs "video_url" with
      | none =>
          rw [hlk] at hveq
          simp only [Option.getD_none] at hveq
          rw [← hveq] at htr
          simp [Json.truthy] at htr
      | some w =>
          rw [hlk] at hveq
          simp only [Option.getD_some] at hveq
          have hex2 : okUrl w = true := by rw [hlk] at hex; exact hex
          rw [← hveq]
          exact hex2
  | null => simp [pyGetD, pyThrow] at hgd
  | bool b => simp [pyGetD, pyThrow] at hgd
  | num n => simp [pyGetD, pyThrow] at hgd
  | str s => simp [pyGetD, pyThrow] at hgd
  | arr xs => simp [pyGetD, pyThrow] at hgd

theorem exVuOk_getD (ex : Json) (vu : Json) (hex : exVuOk ex = true)
    (h : pyGetD ex "video_url" (Json.str "") = Except.ok vu) : okUrl vu = true := by
  cases ex with
  | obj kvs =>
      rw [pyGetD_obj] at h
      have hveq := Except.ok.inj h
      simp only [exVuOk, vuOk] at hex
      cases hlk : lookupKey kvs "video_url" with
      | none =>
          rw [hlk] at hveq
          simp only [Option.getD_none] at hveq
          rw [← hveq]
          decide
      | some w =>
          rw [hlk] at hveq
          simp only [Option.getD_some] at hveq
          have hex2 : okUrl w = true := by rw [hlk] at hex; exact hex
          rw [← hveq]
          exact hex2
  | null => simp [pyGetD, pyThrow] at h
  | bool b => simp [pyGetD, pyThrow] at h
  | num n => simp [pyGetD, pyThrow] at h
  | str s => simp [pyGetD, pyThrow] at h
  | arr xs => simp [pyGetD, pyThrow] at h

/-- `dict.update` with only video keys, whose `video_url` values are
recognized, keeps a document's url invariant. -/
theorem vuOk_updateKeys_of (updates : List (String × Json)) : ∀ (e : Doc),
    vuOk e = true →
    (∀ p ∈ updates, p.1 = "video_url" ∨ p.1 = "video_thumbnail") →
    (∀ v, ("video_url", v) ∈ updates → okUrl v = true) →
    vuOk (updateKeys e updates) = true := by
  induction updates with
  | nil => intro e he _ _; exact he
  | cons p rest ih =>
      intro e he hk hv
      obtain ⟨k, v⟩ := p
      have hstep : vuOk (setKey e k v) = true := by
        rcases hk (k, v) (List.mem_cons_self _ _) with hku | hkt
        · subst hku
          have := hv v (List.mem_cons_self _ _)
          simp [vuOk, lookupKey_setKey_self, this]
        · subst hkt
          simp only [vuOk, lookupKey_setKey_ne _ _ _ _ (by decide :
            "video_url" ≠ "video_thumbnail")]
          exact he
      have : updateKeys e ((k, v) :: rest) = updateKeys (setKey e k v) rest := rfl
      rw [this]
      exact ih (setKey e k v) hstep
        (fun q hq => hk q (List.mem_cons_of_mem _ hq))
        (fun w hw => hv w (List.mem_cons_of_mem _ hw))

theorem all_vuOk_updateDocFields (coll : List (String × Doc)) (key : String)
    (fs : List (String × Json))
    (hc : ∀ p ∈ coll, vuOk p.2 = true)
    (hf : ∀ e : Doc, vuOk e = true → vuOk (updateKeys e fs) = true) :
    ∀ p ∈ updateDocFields coll key fs, vuOk p.2 = true := by
  induction coll with
  | nil => intro p hp; simp [updateDocFields] at hp
  | cons q rest ih =>
      intro p hp
      obtain ⟨k, e⟩ := q
      by_cases hk : k = key
      · simp only [updateDocFields, hk, if_true] at hp
        rcases List.mem_cons.mp hp with hp | hp
        · subst hp
          exact hf e (hc (k, e) (by rw [hk]; exact List.mem_cons_self _ _))
        · exact hc p (List.mem_cons_of_mem _ hp)
      · simp only [updateDocFields, hk, if_false] at hp
        rcases List.mem_cons.mp hp with hp | hp
        · subst hp
          exact hc (k, e) (List.mem_cons_self _ _)
        · exact ih (fun q hq => hc q (List.mem_cons_of_mem _ hq)) p hp

theorem all_vuOk_setDoc (coll : List (String × Doc)) (key : String) (d : Doc)
    (hc : ∀ p ∈ coll, vuOk p.2 = true) (hd : vuOk d = true) :
    ∀ p ∈ setDoc coll key d, vuOk p.2 = true := by
  induction coll with
  | nil =>
      intro p hp
      simp only [setDoc, List.mem_singleton] at hp
      subst hp
      exact hd
  | cons q rest ih =>
      intro p hp
      obtain ⟨k, e⟩ := q
      by_cases hk : k = key
      · simp only [setDoc, hk, if_true] at hp
        rcases List.mem_cons.mp hp with hp | hp
        · subst hp; exact hd
        · exact hc p (List.mem_cons_of_mem _ hp)
      · simp only [setDoc, hk, if_false] at hp
        rcases List.mem_cons.mp hp with hp | hp
        · subst hp; exact hc (k, e) (List.mem_cons_self _ _)
        · exact ih (fun q hq => hc q (List.mem_cons_of_mem _ hq)) p hp

theorem vuOk_newExerciseFields (i : String) (nm desc tj instr vu vt : Json)
    (now : Int) (hvu : okUrl vu = true) :
    vuOk (newExerciseFields i nm desc tj instr vu vt now) = true := by
  simp [vuOk, newExerciseFields, lookupKey, hvu]

/-- One persistence step keeps every stored `video_url` empty-or-recognized,
provided the proposal being saved satisfies the same property. -/
theorem save_one_vuOk (O : Oracles) (pid : Json) (now : Int) (ex : Json)
    (c : PCtx) (hex : exVuOk ex = true)
    (hinv : ∀ p ∈ c.store.exercises, vuOk p.2 = true) :
    ∀ p ∈ ((save_one O pid now ex c).2).store.exercises, vuOk p.2 = true := by
  cases hnm : pyGet ex "name" with
  | error e =>
      cases e
      simp only [save_one, PM_bind_apply, liftPy_apply, hnm]
      exact hinv
  | ok nm =>
    cases hlg : pyGetD ex "video_url" (Json.str "None") with
    | error e =>
        cases e
        simp only [save_one, PM_bind_apply, liftPy_apply, hnm, hlg]
        exact hinv
    | ok lg =>
      cases hsim : (whereEq c.store.exercises "name" nm).take 1 with
      | nil =>
          cases hin : pyGet ex "instructions" with
          | error e =>
              cases e
              simp only [save_one, PM_bind_apply, liftPy_apply, hnm, hlg, getStore_apply,
                hsim, pmFresh_apply, hin]
              exact hinv
          | ok instr =>
            cases htj : pyGet ex "target_joints" with
            | error e =>
                cases e
                simp only [save_one, PM_bind_apply, liftPy_apply, hnm, hlg, getStore_apply,
                  hsim, pmFresh_apply, hin, htj]
                exact hinv
            | ok tj =>
              cases hde : pyGet ex "description" with
              | error e =>
                  cases e
                  simp only [save_one, PM_bind_apply, liftPy_apply, hnm, hlg, getStore_apply,
                    hsim, pmFresh_apply, hin, htj, hde]
                  exact hinv
              | ok desc =>
                cases hvu : pyGetD ex "video_url" (Json.str "") with
                | error e =>
                    cases e
                    simp only [save_one, PM_bind_apply, liftPy_apply, hnm, hlg, getStore_apply,
                      hsim, pmFresh_apply, hin, htj, hde, hvu]
                    exact hinv
                | ok vu =>
                  cases hvt : pyGetD ex "video_thumbnail" (Json.str "") with
                  | error e =>
                      cases e
                      simp only [save_one, PM_bind_apply, liftPy_apply, hnm, hlg, getStore_apply,
                        hsim, pmFresh_apply, hin, htj, hde, hvu, hvt]
                      exact hinv
                  | ok vt =>
                      simp only [save_one, PM_bind_apply, liftPy_apply, hnm, hlg, getStore_apply,
                        hsim, pmFresh_apply, hin, htj, hde, hvu, hvt, modifyStore_apply,
                        PM_pure_apply]
                      exact all_vuOk_setDoc _ _ _ hinv
                        (vuOk_newExerciseFields _ _ _ _ _ _ _ _
                          (exVuOk_getD ex vu hex hvu))
      | cons je rest =>
          obtain ⟨j, edoc⟩ := je
          cases hcu : computeUpdates (Json.obj edoc) ex with
          | error e =>
              cases e
              simp only [save_one, PM_bind_apply, liftPy_apply, hnm, hlg, getStore_apply,
                hsim, hcu]
              exact hinv
          | ok updates =>
            by_cases hemp : updates.isEmpty = true
            · simp only [save_one, PM_bind_apply, liftPy_apply, hnm, hlg, getStore_apply,
                hsim, hcu, hemp, if_true, pmFresh_apply, modifyStore_apply, PM_pure_apply]
              exact hinv
            · rw [Bool.not_eq_true] at hemp
              simp only [save_one, PM_bind_apply, liftPy_apply, hnm, hlg, getStore_apply,
                hsim, hcu, hemp, Bool.false_eq_true, if_false, pmFresh_apply,
                modifyStore_apply, PM_pure_apply]
              refine all_vuOk_updateDocFields _ _ _ hinv (fun e he => ?_)
              refine vuOk_updateKeys_of updates e he ?_ ?_
              · intro p hp
                exact computeUpdates_keys _ _ _ hcu p.1
                  (List.mem_map.mpr ⟨p, hp, rfl⟩)
              · exact computeUpdates_okUrl _ _ _ hcu hex

/-- Sequential persistence keeps the stored url invariant. -/
theorem save_exercises_vuOk (O : Oracles) (pid : Json) (now : Int)
    (exs : List Json) : ∀ (c : PCtx),
    (∀ x ∈ exs, exVuOk x = true) →
    (∀ p ∈ c.store.exercises, vuOk p.2 = true) →
    ∀ p ∈ ((save_exercises O pid now exs c).2).store.exercises, vuOk p.2 = true := by
  induction exs with
  | nil =>
      intro c _ hinv
      simpa [save_exercises, PM_pure_apply] using hinv
  | cons e rest ih =>
      intro c hxs hinv
      have h1 := save_one_vuOk O pid now e c (hxs e (List.mem_cons_self _ _)) hinv
      rcases hso : save_one O pid now e c with ⟨r1, c1⟩
      simp only [hso] at h1
      cases r1 with
      | error e1 =>
          cases e1
          simp only [save_exercises, PM_bind_apply, hso]
          exact h1
      | ok d =>
          have h2 := ih c1 (fun x hx => hxs x (List.mem_cons_of_mem _ hx)) h1
          rcases hrest : save_exercises O pid now rest c1 with ⟨r2, c2⟩
          simp only [hrest] at h2
          cases r2 with
          | error e2 =>
              cases e2
              simp only [save_exercises, PM_bind_apply, hso, hrest]
              exact h2
          | ok ds =>
              simp only [save_exercises, PM_bind_apply, hso, hrest, PM_pure_apply]
              exact h2

/-- The enrichment step only ever leaves an empty or recognized url in a
proposal's `video_url` (under the string-link search assumption). -/
theorem enhance_one_okUrl (O : Oracles) (hor : searchOk O) (ex : Json)
    (c : PCtx) (r : Json) (c' : PCtx)
    (h : enhance_one O ex c = (Except.ok r, c')) : exVuOk r = true := by
  cases ex with
  | null => simp [enhance_one, PM_bind_apply, liftPy_apply, pyGet, pyThrow,
      Prod.mk.injEq] at h
  | bool b => simp [enhance_one, PM_bind_apply, liftPy_apply, pyGet, pyThrow,
      Prod.mk.injEq] at h
  | num n => simp [enhance_one, PM_bind_apply, liftPy_apply, pyGet, pyThrow,
      Prod.mk.injEq] at h
  | str s => simp [enhance_one, PM_bind_apply, liftPy_apply, pyGet, pyThrow,
      Prod.mk.injEq] at h
  | arr xs => simp [enhance_one, PM_bind_apply, liftPy_apply, pyGet, pyThrow,
      Prod.mk.injEq] at h
  | obj kvs =>
    cases hnm : lookupKey kvs "name" with
    | none =>
        simp [enhance_one, PM_bind_apply, liftPy_apply, pyGet, hnm, pyThrow,
          Prod.mk.injEq] at h
    | some nm =>
      cases hv1 : search_youtube_video_pure
          (O.search ((pyStr nm ++ " physical therapy exercise") ++ " youtube") 1) with
      | none =>
          simp only [enhance_one, search_youtube_video, PM_bind_apply, liftPy_apply,
            pyGet, hnm, emit_apply, PM_pure_apply, hv1, pySetItem, Prod.mk.injEq,
            Except.ok.injEq] at h
          obtain ⟨h1, -⟩ := h
          subst h1
          simp [exVuOk, vuOk, lookupKey_set2_url, okUrl]
      | some vd =>
        obtain ⟨t, s, th, rfl, hok⟩ := search_hit_okUrl O hor _ _ _ hv1
        cases hb : validate_pure O (Json.str s) with
        | true =>
            simp only [enhance_one, search_youtube_video, PM_bind_apply, liftPy_apply,
              pyGet, hnm, emit_apply, PM_pure_apply, hv1, pySetItem, pyGetD, lookupKey,
              lookupKey_set2_url, validate_video_url_run, hb] at h
            simp only [hb, String.reduceEq, reduceIte, Bool.not_true, Bool.false_eq_true,
              if_false, PM_pure_apply, Prod.mk.injEq, Except.ok.injEq] at h
            obtain ⟨h1, -⟩ := h
            subst h1
            simp [exVuOk, vuOk, lookupKey_set2_url, hok]
        | false =>
          cases hv2 : search_youtube_video_pure
              (O.search ((pyStr nm ++ " knee rehabilitation exercise demonstration") ++ " youtube") 5) with
          | none =>
              simp only [enhance_one, search_youtube_video, PM_bind_apply, liftPy_apply,
                pyGet, hnm, emit_apply, PM_pure_apply, hv1, pySetItem, pyGetD,
                lookupKey, lookupKey_set2_url, validate_video_url_run, hb] at h
              simp only [hb, String.reduceEq, reduceIte, Bool.not_false, if_true,
                PM_bind_apply, emit_apply, PM_pure_apply, liftPy_apply, hv2,
                Prod.mk.injEq, Except.ok.injEq] at h
              obtain ⟨h1, -⟩ := h
              subst h1
              simp [exVuOk, vuOk, lookupKey_set2_url, hok]
          | some avd =>
              obtain ⟨t2, s2, th2, rfl, hok2⟩ := search_hit_okUrl O hor _ _ _ hv2
              simp only [enhance_one, search_youtube_video, PM_bind_apply, liftPy_apply,
                pyGet, hnm, emit_apply, PM_pure_apply, hv1, pySetItem, pyGetD,
                lookupKey, lookupKey_set2_url, validate_video_url_run, hb] at h
              simp only [hb, String.reduceEq, reduceIte, Bool.not_false, if_true,
                PM_bind_apply, emit_apply, PM_pure_apply, liftPy_apply, hv2, pySetItem,
                pyGetD, lookupKey, lookupKey_set2_url, validate_video_url_run,
                Prod.mk.injEq, Except.ok.injEq] at h
              obtain ⟨h1, -⟩ := h
              subst h1
              simp [exVuOk, vuOk, lookupKey_set2_url, hok2]

theorem enhance_list_okUrl (O : Oracles) (hor : searchOk O) (exs : List Json) :
    ∀ (c : PCtx) (rs : List Json) (c' : PCtx),
    enhance_list O exs c = (Except.ok rs, c') → ∀ x ∈ rs, exVuOk x = true := by
  induction exs with
  | nil =>
      intro c rs c' h x hx
      simp only [enhance_list, PM_pure_apply, Prod.mk.injEq, Except.ok.injEq] at h
      obtain ⟨h1, -⟩ := h
      subst h1
      simp at hx
  | cons e rest ih =>
      intro c rs c' h x hx
      rcases hso : enhance_one O e c with ⟨r1, c1⟩
      simp only [enhance_list, PM_bind_apply, hso] at h
      cases r1 with
      | error e1 => cases e1; simp [Prod.mk.injEq] at h
      | ok a =>
          rcases hrest : enhance_list O rest c1 with ⟨r2, c2⟩
          simp only [hrest] at h
          cases r2 with
          | error e2 => cases e2; simp [Prod.mk.injEq] at h
          | ok ds =>
              simp only [PM_pure_apply, Prod.mk.injEq, Except.ok.injEq] at h
              obtain ⟨h1, -⟩ := h
              subst h1
              rcases List.mem_cons.mp hx with hx | hx
              · rw [hx]
                exact enhance_one_okUrl O hor e c a c1 hso
              · exact ih c1 ds c2 hrest x hx

theorem enhance_okUrl (O : Oracles) (hor : searchOk O) (exercises : Json)
    (c : PCtx) (rs : List Json) (c' : PCtx)
    (h : enhance_exercises_with_videos O exercises c = (Except.ok rs, c')) :
    ∀ x ∈ rs, exVuOk x = true := by
  cases hit : pyIter exercises with
  | error e =>
      cases e
      simp [enhance_exercises_with_videos, PM_bind_apply, liftPy_apply, hit,
        Prod.mk.injEq] at h
  | ok xs =>
      simp only [enhance_exercises_with_videos, PM_bind_apply, liftPy_apply, hit] at h
      exact enhance_list_okUrl O hor xs c rs c' h

/-- C8: every `video_url` the pipeline persists is the empty string or
mentions youtube.com / youtu.be.  Search results are accepted only after the
substring test on their link, rejected candidates never reach `video_url`,
and the persistence writer only copies url values from enriched proposals —
assuming (`searchOk`) the search provider's links are JSON strings, and
starting from a store whose records already satisfy the invariant. -/
theorem C8_persisted_urls (O : Oracles) (st : Store) (rj : Option Json)
    (now : Int) (hor : searchOk O) (hinv : storeVuOk st = true) :
    storeVuOk (generate_exercises O st rj now).2.store = true := by
  have hinv2 : ∀ p ∈ st.exercises, vuOk p.2 = true := by
    simpa [storeVuOk, List.all_eq_true] using hinv
  suffices hmain : ∀ p ∈ (generate_exercises O st rj now).2.store.exercises,
      vuOk p.2 = true by
    simpa [storeVuOk, List.all_eq_true] using hmain
  cases rj with
  | none =>
      simp only [generate_exercises, pipeline_body, PM_pure_apply]
      exact hinv2
  | some rj =>
    by_cases htr : rj.truthy = true
    · cases h1 : pyInStr "patient_id" rj with
      | error e =>
          cases e
          simp only [generate_exercises, pipeline_body, htr, Bool.not_true,
            Bool.false_eq_true, if_false, PM_bind_apply, liftPy_apply, h1]
          exact hinv2
      | ok hasPid =>
        by_cases hhp : hasPid = true
        · cases h2 : pyGet rj "patient_id" with
          | error e =>
              cases e
              simp only [generate_exercises, pipeline_body, htr, Bool.not_true,
                Bool.false_eq_true, if_false, PM_bind_apply, liftPy_apply, h1, hhp, h2]
              exact hinv2
          | ok pid =>
            cases h3 : pyGetD rj "llm_provider" (Json.str "claude") with
            | error e =>
                cases e
                simp only [generate_exercises, pipeline_body, htr, Bool.not_true,
                  Bool.false_eq_true, if_false, PM_bind_apply, liftPy_apply, h1, hhp,
                  h2, h3]
                exact hinv2
            | ok prov =>
              cases h4 : get_api_keys O with
              | error e =>
                  cases e
                  simp only [generate_exercises, pipeline_body, htr, Bool.not_true,
                    Bool.false_eq_true, if_false, PM_bind_apply, liftPy_apply, h1, hhp,
                    h2, h3, h4]
                  exact hinv2
              | ok keys =>
                cases h5 : check_existing_exercises st pid with
                | error e =>
                    cases e
                    simp only [generate_exercises, pipeline_body, htr, Bool.not_true,
                      Bool.false_eq_true, if_false, PM_bind_apply, liftPy_apply,
                      getStore_apply, h1, hhp, h2, h3, h4, h5]
                    exact hinv2
                | ok exl =>
                  simp only [generate_exercises, pipeline_body, htr, Bool.not_true,
                    Bool.false_eq_true, if_false, PM_bind_apply, liftPy_apply,
                    getStore_apply, h1, hhp, h2, h3, h4, h5]
                  by_cases hlen : exl.length ≥ 3
                  · rw [if_pos hlen]
                    obtain ⟨extra, hctx, -, -⟩ := cache_probe_loop_ctx O exl ⟨st, 0, []⟩
                    rcases hloop : cache_probe_loop O exl ⟨st, 0, []⟩ with ⟨rl, cl⟩
                    simp only [hloop] at hctx
                    subst hctx
                    cases rl with
                    | error e =>
                        cases e
                        simp only [hloop, PM_bind_apply, liftPy_apply]
                        exact hinv2
                    | ok u =>
                        simp only [hloop, PM_bind_apply, liftPy_apply]
                        cases hbf : cache_thumb_backfill exl with
                        | error e =>
                            cases e
                            exact hinv2
                        | ok bf =>
                            simp only [PM_pure_apply]
                            exact hinv2
                  · rw [if_neg hlen]
                    simp only [PM_bind_apply, liftPy_apply]
                    cases hpd : get_patient_data st pid with
                    | error e =>
                        cases e
                        simp only [hpd]
                        exact hinv2
                    | ok pd =>
                      cases pd with
                      | none =>
                          simp only [hpd, PM_pure_apply]
                          exact hinv2
                      | some pdata =>
                        simp only [hpd]
                        by_cases hop : Json.beq prov (Json.str "openai") = true
                        · rw [if_pos hop]
                          simp only [PM_bind_apply]
                          cases hbp : build_prompt pdata with
                          | error e =>
                              cases e
                              rw [gen_openai_err _ _ _ hbp]
                              exact hinv2
                          | ok prompt =>
                            rw [gen_openai_run _ _ _ _ hbp]
                            cases hcp : openai_parse_response O.openaiResp with
                            | error e =>
                                cases e
                                simp only [hcp]
                                exact hinv2
                            | ok exjson =>
                              simp only [hcp]
                              obtain ⟨x1, henctx, -⟩ := enhance_ctx O exjson
                                ⟨st, 0, [] ++ [Call.genOpenai prompt]⟩
                              rcases henh : enhance_exercises_with_videos O exjson
                                  ⟨st, 0, [] ++ [Call.genOpenai prompt]⟩ with ⟨r2, c2⟩
                              simp only [henh] at henctx
                              subst henctx
                              cases r2 with
                              | error e2 =>
                                  cases e2
                                  simp only [henh]
                                  exact hinv2
                              | ok enh =>
                                have hallok := enhance_okUrl O hor exjson _ _ _ henh
                                have hsave := save_exercises_vuOk O pid now enh
                                  ⟨st, 0, ([] ++ [Call.genOpenai prompt]) ++ x1⟩
                                  hallok (by exact hinv2)
                                rcases hsv : save_exercises O pid now enh
                                    ⟨st, 0, ([] ++ [Call.genOpenai prompt]) ++ x1⟩
                                  with ⟨r3, c3⟩
                                simp only [hsv] at hsave
                                cases r3 with
                                | error e3 =>
                                    cases e3
                                    simp only [henh, hsv]
                                    exact hsave
                                | ok saved =>
                                    simp only [henh, hsv, PM_pure_apply]
                                    exact hsave
                        · rw [Bool.not_eq_true] at hop
                          rw [if_neg (by simp [hop])]
                          simp only [PM_bind_apply]
                          cases hbp : build_prompt pdata with
                          | error e =>
                              cases e
                              rw [gen_claude_err _ _ _ hbp]
                              exact hinv2
                          | ok prompt =>
                            rw [gen_claude_run _ _ _ _ hbp]
                            cases hcp : claude_parse_response O.claudeResp with
                            | error e =>
                                cases e
                                simp only [hcp]
                                exact hinv2
                            | ok exjson =>
                              simp only [hcp]
                              obtain ⟨x1, henctx, -⟩ := enhance_ctx O exjson
                                ⟨st, 0, [] ++ [Call.genClaude prompt]⟩
                              rcases henh : enhance_exercises_with_videos O exjson
                                  ⟨st, 0, [] ++ [Call.genClaude prompt]⟩ with ⟨r2, c2⟩
                              simp only [henh] at henctx
                              subst henctx
                              cases r2 with
                              | error e2 =>
                                  cases e2
                                  simp only [henh]
                                  exact hinv2
                              | ok enh =>
                                have hallok := enhance_okUrl O hor exjson _ _ _ henh
                                have hsave := save_exercises_vuOk O pid now enh
                                  ⟨st, 0, ([] ++ [Call.genClaude prompt]) ++ x1⟩
                                  hallok (by exact hinv2)
                                rcases hsv : save_exercises O pid now enh
                                    ⟨st, 0, ([] ++ [Call.genClaude prompt]) ++ x1⟩
                                  with ⟨r3, c3⟩
                                simp only [hsv] at hsave
                                cases r3 with
                                | error e3 =>
                                    cases e3
                                    simp only [henh, hsv]
                                    exact hsave
                                | ok saved =>
                                    simp only [henh, hsv, PM_pure_apply]
                                    exact hsave
        · rw [Bool.not_eq_true] at hhp
          simp only [generate_exercises, pipeline_body, htr, Bool.not_true,
            Bool.false_eq_true, if_false, PM_bind_apply, liftPy_apply, h1, hhp,
            Bool.not_false, if_true, PM_pure_apply]
          exact hinv2
    · rw [Bool.not_eq_true] at htr
      simp only [generate_exercises, pipeline_body, htr, Bool.not_false, if_true,
        PM_pure_apply]
      exact hinv2

/-- Oracles for the C8 witness: a Claude response with one proposal, a
search provider that always returns the single YouTube hit, an oEmbed probe
that always fails. -/
def c8Oracle : Oracles :=
  { zeroOracle with
    claudeResp := ⟨200, c5Body⟩
    search := fun _ _ => ⟨200, c2SearchBody⟩ }

/-- C8, witness: a full generation run against a real store keeps every
persisted `video_url` empty or recognized. -/
theorem C8_witness :
    storeVuOk c10Store = true ∧
    storeVuOk (generate_exercises c8Oracle c10Store
      (some (Json.obj [("patient_id", Json.str "p1")])) 0).2.store = true := by
  refine ⟨rfl, ?_⟩
  refine C8_persisted_urls c8Oracle c10Store _ 0 ?_ rfl
  intro q n v h kvs hk u hu
  rw [show search_youtube_video_pure (c8Oracle.search q n) =
    some (Json.obj [("title", Json.str "T"),
      ("video_url", Json.str "https://www.youtube.com/watch?v=bad1"),
      ("thumbnail", Json.str "https://img.youtube.com/vi/bad1/hqdefault.jpg")])
    from rfl] at h
  have hv := Option.some.inj h
  subst hv
  injection hk with hkvs
  subst hkvs
  rw [show lookupKey [("title", Json.str "T"),
      ("video_url", Json.str "https://www.youtube.com/watch?v=bad1"),
      ("thumbnail", Json.str "https://img.youtube.com/vi/bad1/hqdefault.jpg")]
      "video_url" = some (Json.str "https://www.youtube.com/watch?v=bad1")
    from rfl] at hu
  exact ⟨_, (Option.some.inj hu).symm⟩
